import Mathlib

/-!
# DataTunerX/dac : the Data Descriptor coordinator and the Agent Container generator

A shallow embedding of `execution-engine/internal/handler/data_description.go` and, further
down, of `execution-engine/internal/generator/dac.go`.

* Go `error` values are `Option String`: `none` is `nil`, `some t` is an error
  whose `Error()` text is `t`; `fmt.Errorf` with `%w` or `%v` splices the text.
* The collaborators (task-execution service, cluster API, clock) are oracles
  that see the whole history of calls made so far, so every deterministic
  behaviour of theirs is covered. The history is the `List Call` threaded
  through every function: the explicit state of the handler.
* Logging is not modelled.
-/

namespace DAC

/-! ## Data model -/

/-- A `metav1.Time`; `0` is the zero value. -/
abbrev Time := Nat

/-- A Go `map[string]string`, as its key/value pairs. -/
abbrev StringMap := List (String × String)

/-- Go `v, ok := m[k]`. -/
def mapGet : StringMap → String → Option String
  | [], _ => none
  | (k, v) :: rest, key => if k = key then some v else mapGet rest key

/-- Go `m[k] = v`. -/
def mapSet (m : StringMap) (key value : String) : StringMap :=
  (key, value) :: m.filter (fun kv => kv.1 != key)

/-- Go `unicode.ToUpper` as a comparison with an ASCII text observes it. An ASCII small
letter gets its capital. U+017F (long s) and U+0131 (dotless i) get `S` and `I`: they are
the only runes outside ASCII whose capital is an ASCII rune. Every other rune outside
ASCII has a capital outside ASCII, and is kept as it is here. -/
def runeToUpper (c : Char) : Char :=
  if c.toNat = 0x17F then Char.ofNat 0x53
  else if c.toNat = 0x131 then Char.ofNat 0x49
  else c.toUpper

/-- Go `strings.ToUpper`, rune by rune with `runeToUpper`. The handler only compares the
result with ASCII texts, so that the result is the same as with the capitals of Go
wherever it is looked at. -/
def toUpper (s : String) : String :=
  String.mk (s.data.map runeToUpper)

/-- The `Condition` of the custom resources (fields as in
`entity/agent_container.go`: type, status, lastTransitionTime, reason, message). -/
structure Condition where
  Typ : String
  Status : String
  LastTransitionTime : Time
  Reason : String
  Message : String
deriving DecidableEq, Repr

structure SourceStatus where
  Name : String
  Phase : String
  LastSyncTime : Time
  Records : Int
  TaskID : String
deriving DecidableEq, Repr

instance : Inhabited SourceStatus := ⟨⟨"", "", 0, 0, ""⟩⟩

structure ObjectReference where
  Name : String
  Namespace : String
deriving DecidableEq, Repr

/-- The status of a Data Descriptor. `ConsumedBy` keeps the difference between a nil
slice (`none`) and a non-nil one, which `reflect.DeepEqual` observes. -/
structure DataDescriptorStatus where
  SourceStatuses : List SourceStatus
  ConsumedBy : Option (List ObjectReference)
  OverallPhase : String
  Conditions : List Condition
deriving DecidableEq, Repr

structure ExtractConfig where
  Tables : List String
  Querys : List String
deriving DecidableEq, Repr

structure PromptsRef where
  Name : String
deriving DecidableEq, Repr

/-- The `source.Prompts` field: it holds the reference `Prompts.Name`. -/
structure PromptsConfig where
  Prompts : PromptsRef
deriving DecidableEq, Repr

structure CleaningRule where
  Rule : String
  Params : StringMap
deriving DecidableEq, Repr

structure ProcessingConfig where
  Cleaning : List CleaningRule
deriving DecidableEq, Repr

structure Classification where
  Domain : String
  Category : String
  Subcategory : String
  Tags : List (List (String × List String))
deriving DecidableEq, Repr

structure DataSource where
  Typ : String
  Name : String
  Metadata : StringMap
  Extract : Option ExtractConfig
  Prompts : PromptsConfig
  Processing : ProcessingConfig
  Classification : List Classification
deriving DecidableEq, Repr

structure DataDescriptorSpec where
  DescriptorType : String
  Sources : List DataSource
deriving DecidableEq, Repr

structure DataDescriptor where
  Name : String
  Namespace : String
  Spec : DataDescriptorSpec
  Status : DataDescriptorStatus
deriving DecidableEq, Repr

/-- Modelled from the spec: the source kinds of `api/v1alpha1` (a package that is not
among the sources), with the values the command-line client accepts. -/
def DataSourceMySQL : String := "mysql"

/-- Modelled from the spec: see `DataSourceMySQL`. -/
def DataSourcePostgres : String := "postgres"

/-- Modelled from the spec: see `DataSourceMySQL`. -/
def DataSourceMinIO : String := "minio"

/-- Modelled from the spec: see `DataSourceMySQL`. -/
def DataSourceFileServer : String := "fileserver"

/-- Modelled from the spec: the condition type set when the overall phase is `Ready`. -/
def ConditionAvailable : String := "Available"

/-- Modelled from the spec: the condition type set when the overall phase is `NotReady`. -/
def ConditionNotReady : String := "NotReady"

/-- The constant `corev1.ConditionTrue`. -/
def ConditionTrue : String := "True"

/-- Modelled from the spec: `NewCondition` of `api/v1alpha1` builds a condition of the
given type, status, reason and message, stamped with the current time. -/
def NewCondition (typ status reason message : String) (now : Time) : Condition :=
  { Typ := typ, Status := status, LastTransitionTime := now, Reason := reason, Message := message }

/-- SourceStatusResult contains the result of checking a data source status. -/
structure SourceStatusResult where
  Name : String
  Phase : String
  LastSyncTime : Time := 0
  Records : Int := 0
  TaskID : String := ""
  Error : Option String := none
deriving DecidableEq, Repr

/-- One element of the decoded `fewshots.json` array, kept as decoded by the JSON library. -/
structure FewShot where
  raw : String
deriving DecidableEq, Repr

/-- One element of the decoded `background_knowledge.json` array. -/
structure BackgroundKnowledge where
  raw : String
deriving DecidableEq, Repr

structure ConfigMapData where
  FewShots : List FewShot
  BackgroundKnowledge : List BackgroundKnowledge
deriving DecidableEq, Repr

structure ConfigMap where
  Data : StringMap
deriving DecidableEq, Repr

/-- The `source` object of an AddOrUpdate request. -/
structure RequestSource where
  typ : String
  name : String
  metadata : StringMap
deriving DecidableEq, Repr

structure RequestDescriptor where
  name : String
  ns : String
deriving DecidableEq, Repr

/-- The `data` object of the request handed to `TriggerTask`; a key the request does
not carry is `none`. -/
structure TriggerRequest where
  operation : String
  source : Option RequestSource
  descriptor : RequestDescriptor
  extract : Option (Option ExtractConfig)
  prompts : Option (Option ConfigMapData)
  processing : Option ProcessingConfig
  classification : Option (List Classification)
deriving DecidableEq, Repr

/-- The answer of `GetTaskStatus`: the `status` string and the `result` field as `%v`
prints it. -/
structure TaskStatusResponse where
  Status : String
  Result : String
deriving DecidableEq, Repr

/-- A call that leaves the handler. -/
inductive Call where
  | GetConfigMap (ns name : String)
  | TriggerTask (req : TriggerRequest)
  | GetTaskStatus (taskID : String)
  | StatusUpdate (dd : DataDescriptor)
  | EventNormal (reason message : String)
  | EventWarning (reason message : String)
deriving DecidableEq, Repr

/-- The collaborators of the handler. Each answer may depend on every call made before.
`SetCreateCondition` and `SetDataDescriptorCondition` are the condition-list operations
of `api/v1alpha1` (not among the sources): they act on the condition list only. -/
structure Env where
  GetConfigMap : List Call → String → String → Except String ConfigMap
  TriggerTask : List Call → TriggerRequest → Except String String
  GetTaskStatus : List Call → String → Except String TaskStatusResponse
  StatusUpdate : List Call → DataDescriptor → Option String
  Now : List Call → Time
  UnmarshalFewShots : String → Except String (List FewShot)
  UnmarshalBackgroundKnowledge : String → Except String (List BackgroundKnowledge)
  SetCreateCondition : List Condition → String → Time → List Condition
  SetDataDescriptorCondition : List Condition → Condition → List Condition

/-- Modelled from the spec: the ConditionTracker upsert by type. A condition of the
same type is replaced in place, and the transition time advances only when the status
value changes; a new type is appended. -/
def setCondition : List Condition → Condition → List Condition
  | [], c => [c]
  | x :: xs, c =>
    if x.Typ = c.Typ then
      (if x.Status = c.Status then { c with LastTransitionTime := x.LastTransitionTime } else c) :: xs
    else x :: setCondition xs c

/-! ## The handler -/

/-- The Go `getFewshotsAndBackgroudKnowledgeFromConfigmap`: the prompt payload
(`none` is the nil pointer), or an error. -/
def getFewshotsAndBackgroudKnowledgeFromConfigmap (env : Env) (tr : List Call)
    (dd : DataDescriptor) (promptConfigmapName : String) :
    Except String (Option ConfigMapData) × List Call :=
  if promptConfigmapName = "" then (.ok none, tr)
  else
    let configMapName := promptConfigmapName
    let tr1 := tr ++ [Call.GetConfigMap dd.Namespace configMapName]
    match env.GetConfigMap tr dd.Namespace configMapName with
    | .error err =>
      (.error ("failed to get configmap " ++ dd.Namespace ++ "/" ++ configMapName ++ ": " ++ err), tr1)
    | .ok configMap =>
      let fewShotsR : Except String (List FewShot) :=
        match mapGet configMap.Data "fewshots.json" with
        | some fewshotsData =>
          if fewshotsData ≠ "" then
            match env.UnmarshalFewShots fewshotsData with
            | .error err =>
              .error ("failed to parse fewshots.json in configmap " ++ configMapName ++ ": " ++ err)
            | .ok v => .ok v
          else .ok []
        | none => .ok []
      match fewShotsR with
      | .error e => (.error e, tr1)
      | .ok fewShots =>
        let bgR : Except String (List BackgroundKnowledge) :=
          match mapGet configMap.Data "background_knowledge.json" with
          | some bgData =>
            if bgData ≠ "" then
              match env.UnmarshalBackgroundKnowledge bgData with
              | .error err =>
                .error ("failed to parse background_knowledge.json in configmap " ++ configMapName ++ ": " ++ err)
              | .ok v => .ok v
            else .ok []
          | none => .ok []
        match bgR with
        | .error e => (.error e, tr1)
        | .ok backgroundKnowledge =>
          (.ok (some { FewShots := fewShots, BackgroundKnowledge := backgroundKnowledge }), tr1)

/-- Retrieve the existing SourceStatus: the first entry of that name. -/
def getExistingSourceStatusIn : List SourceStatus → String → Option SourceStatus
  | [], _ => none
  | status :: rest, name =>
    if status.Name = name then some status else getExistingSourceStatusIn rest name

def getExistingSourceStatus (dd : DataDescriptor) (name : String) : Option SourceStatus :=
  getExistingSourceStatusIn dd.Status.SourceStatuses name

/-- The request data of `handleDD` for one source. -/
def addOrUpdateRequest (dd : DataDescriptor) (source : DataSource)
    (prompts : Option ConfigMapData) : TriggerRequest :=
  { operation := "AddOrUpdate"
    source := some { typ := source.Typ, name := source.Name, metadata := source.Metadata }
    descriptor := { name := dd.Name, ns := dd.Namespace }
    extract := some source.Extract
    prompts := some prompts
    processing := some source.Processing
    classification := some source.Classification }

/-- The existing-task check of `handleDD`: the recorded task with which the source is
skipped, or `none` when the source goes on to the trigger call. -/
def existingTaskID (dd : DataDescriptor) (source : DataSource) : Option String :=
  match getExistingSourceStatus dd source.Name with
  | some existingStatus => if existingStatus.TaskID ≠ "" then some existingStatus.TaskID else none
  | none => none

/-- The head of the loop body of `handleDD`: the prompt payload of the source, nil when
the lookup fails (the failure is only logged). -/
def resolvePrompts (env : Env) (tr : List Call) (dd : DataDescriptor) (source : DataSource) :
    Option ConfigMapData × List Call :=
  let promptConfigmapName := source.Prompts.Prompts.Name
  let r := getFewshotsAndBackgroudKnowledgeFromConfigmap env tr dd promptConfigmapName
  match r.1 with
  | .ok fewshotsAndBackgroudKnowledge => (fewshotsAndBackgroudKnowledge, r.2)
  | .error _ => (none, r.2)

/-- The loop `for _, source := range dd.Spec.Sources` of `handleDD`. -/
def handleDDLoop (env : Env) (dd : DataDescriptor) :
    List DataSource → StringMap → List Call → Except String StringMap × List Call
  | [], taskIDs, tr => (.ok taskIDs, tr)
  | source :: rest, taskIDs, tr =>
    let p := resolvePrompts env tr dd source
    match existingTaskID dd source with
    | some taskID => handleDDLoop env dd rest (mapSet taskIDs source.Name taskID) p.2
    | none =>
      let requestData := addOrUpdateRequest dd source p.1
      match env.TriggerTask p.2 requestData with
      | .error err =>
        (.error ("failed to trigger task for source " ++ source.Name ++ ": " ++ err),
          p.2 ++ [Call.TriggerTask requestData])
      | .ok taskID =>
        handleDDLoop env dd rest (mapSet taskIDs source.Name taskID)
          (p.2 ++ [Call.TriggerTask requestData])

def handleDD (env : Env) (tr : List Call) (dd : DataDescriptor) :
    Except String StringMap × List Call :=
  handleDDLoop env dd dd.Spec.Sources [] tr

/-- Shared body of the four probes: `host, ok := source.Metadata["host"]`. -/
def checkHost (env : Env) (tr : List Call) (source : DataSource) (kind : String)
    (records : Int) : SourceStatusResult :=
  match mapGet source.Metadata "host" with
  | some host =>
    if host = "" then
      { Name := source.Name, Phase := "Invalid",
        Error := some (kind ++ " host not configured in metadata") }
    else
      { Name := source.Name, Phase := "Ready", LastSyncTime := env.Now tr, Records := records }
  | none =>
    { Name := source.Name, Phase := "Invalid",
      Error := some (kind ++ " host not configured in metadata") }

def checkMySQLStatus (env : Env) (tr : List Call) (source : DataSource) : SourceStatusResult :=
  checkHost env tr source "MySQL" 5000

def checkPostgresStatus (env : Env) (tr : List Call) (source : DataSource) : SourceStatusResult :=
  checkHost env tr source "Postgres" 5000

def checkMinIOStatus (env : Env) (tr : List Call) (source : DataSource) : SourceStatusResult :=
  checkHost env tr source "MinIO" 200

def checkFileserverStatus (env : Env) (tr : List Call) (source : DataSource) : SourceStatusResult :=
  checkHost env tr source "Fileserver" 200

/-- The Go `checkDataSourceConnectivity`. -/
def checkDataSourceConnectivity (env : Env) (tr : List Call) (source : DataSource) :
    SourceStatusResult :=
  if source.Name = "" then
    { Name := source.Name, Phase := "Invalid", Error := some "data source name cannot be empty" }
  else if source.Typ = DataSourceMySQL then checkMySQLStatus env tr source
  else if source.Typ = DataSourcePostgres then checkPostgresStatus env tr source
  else if source.Typ = DataSourceMinIO then checkMinIOStatus env tr source
  else if source.Typ = DataSourceFileServer then checkFileserverStatus env tr source
  else
    { Name := source.Name, Phase := "Unknown",
      Error := some ("unknown data source type: " ++ source.Typ) }

/-- The `switch strings.ToUpper(statusResp.Status)` of `checkSourceStatus`. -/
def taskStatusResult (source : DataSource) (taskID : String) (statusResp : TaskStatusResponse) :
    SourceStatusResult :=
  let s := toUpper statusResp.Status
  if s = "SUCCESS" then { Name := source.Name, Phase := "Ready", TaskID := taskID }
  else if s = "STARTED" then { Name := source.Name, Phase := "STARTED", TaskID := taskID }
  else if s = "FAILURE" then
    { Name := source.Name, Phase := "FAILURE",
      Error := some ("task " ++ taskID ++ " failed: " ++ statusResp.Result) }
  else if s = "PENDING" then { Name := source.Name, Phase := "PENDING", TaskID := taskID }
  else if s = "RETRY" then
    { Name := source.Name, Phase := "RETRY", TaskID := taskID,
      Error := some ("failed to check task status, task " ++ taskID ++ " retry") }
  else if s = "REVOKED" then { Name := source.Name, Phase := "REVOKED", TaskID := taskID }
  else { Name := source.Name, Phase := "OTHERS", TaskID := taskID }

/-- The Go `checkSourceStatus`. -/
def checkSourceStatus (env : Env) (tr : List Call) (source : DataSource) (taskID : String) :
    SourceStatusResult × List Call :=
  if taskID ≠ "" then
    let tr1 := tr ++ [Call.GetTaskStatus taskID]
    match env.GetTaskStatus tr taskID with
    | .error err =>
      ({ Name := source.Name, Phase := "Error", TaskID := taskID,
         Error := some ("failed to check task status: " ++ err) }, tr1)
    | .ok statusResp => (taskStatusResult source taskID statusResp, tr1)
  else (checkDataSourceConnectivity env tr source, tr)

/-- The loop over `oldStatus.Conditions` of `isStatusEqualIgnoringTime`, entered with
two lists of the same length: `false` at the first index where type, status, reason
or message differ. -/
def conditionsEqualLoop : List Condition → List Condition → Bool
  | oldCond :: oldRest, newCond :: newRest =>
    if oldCond.Typ ≠ newCond.Typ ∨ oldCond.Status ≠ newCond.Status ∨
        oldCond.Reason ≠ newCond.Reason ∨ oldCond.Message ≠ newCond.Message then false
    else conditionsEqualLoop oldRest newRest
  | _, _ => true

/-- The loop over `oldStatus.SourceStatuses` of `isStatusEqualIgnoringTime`. -/
def sourceStatusesEqualLoop : List SourceStatus → List SourceStatus → Bool
  | oldSource :: oldRest, newSource :: newRest =>
    if oldSource.Name ≠ newSource.Name ∨ oldSource.Phase ≠ newSource.Phase ∨
        oldSource.Records ≠ newSource.Records ∨ oldSource.TaskID ≠ newSource.TaskID then false
    else sourceStatusesEqualLoop oldRest newRest
  | _, _ => true

/-- The Go `isStatusEqualIgnoringTime` compares two DataDescriptorStatus objects while
ignoring time fields. -/
def isStatusEqualIgnoringTime (oldStatus newStatus : DataDescriptorStatus) : Bool :=
  if oldStatus.OverallPhase ≠ newStatus.OverallPhase then false
  else if oldStatus.Conditions.length ≠ newStatus.Conditions.length then false
  else if conditionsEqualLoop oldStatus.Conditions newStatus.Conditions = false then false
  else if oldStatus.SourceStatuses.length ≠ newStatus.SourceStatuses.length then false
  else if sourceStatusesEqualLoop oldStatus.SourceStatuses newStatus.SourceStatuses = false then false
  else if oldStatus.ConsumedBy ≠ newStatus.ConsumedBy then false
  else true

/-- The variables of the loop of `handleDDStatus`, with the call history. -/
structure StatusLoopState where
  sourceStatuses : List SourceStatus
  allHealthy : Bool
  aggregatedErrors : List String
  aggregatedNotReady : List String
  trace : List Call
deriving DecidableEq, Repr

/-- The task looked up for a source: `taskIDs[source.Name]` if present, else `""`. -/
def taskFor (taskIDs : StringMap) (source : DataSource) : String :=
  match mapGet taskIDs source.Name with
  | some taskID => taskID
  | none => ""

/-- One iteration of `for i, source := range dd.Spec.Sources` in `handleDDStatus`. -/
def handleDDStatusStep (env : Env) (taskIDs : StringMap) (i : Nat) (source : DataSource)
    (st : StatusLoopState) : StatusLoopState :=
  let task := taskFor taskIDs source
  let r := checkSourceStatus env st.trace source task
  let status := r.1
  let sourceStatuses := st.sourceStatuses.set i
    { Name := source.Name, Phase := status.Phase, LastSyncTime := status.LastSyncTime,
      Records := status.Records, TaskID := status.TaskID }
  if status.Error ≠ none ∨ status.Phase ≠ "Ready" then
    match status.Error with
    | some err =>
      { sourceStatuses := sourceStatuses, allHealthy := false,
        aggregatedErrors :=
          st.aggregatedErrors ++ ["data source " ++ source.Name ++ " error: " ++ err],
        aggregatedNotReady := st.aggregatedNotReady, trace := r.2 }
    | none =>
      { sourceStatuses := sourceStatuses, allHealthy := false,
        aggregatedErrors := st.aggregatedErrors,
        aggregatedNotReady := st.aggregatedNotReady ++ [source.Name], trace := r.2 }
  else
    { sourceStatuses := sourceStatuses, allHealthy := st.allHealthy,
      aggregatedErrors := st.aggregatedErrors, aggregatedNotReady := st.aggregatedNotReady,
      trace := r.2 ++ [Call.EventNormal "TaskTriggered"
        ("Task " ++ status.TaskID ++ " Completed for data source " ++ source.Name)] }

/-- The loop `for i, source := range dd.Spec.Sources` of `handleDDStatus`, from index `i`. -/
def handleDDStatusLoop (env : Env) (taskIDs : StringMap) :
    List DataSource → Nat → StatusLoopState → StatusLoopState
  | [], _, st => st
  | source :: rest, i, st =>
    handleDDStatusLoop env taskIDs rest (i + 1) (handleDDStatusStep env taskIDs i source st)

/-- The state of `handleDDStatus` when its loop ends: `sourceStatuses` starts as
`make([]SourceStatus, len(dd.Spec.Sources))`, `allHealthy` as `true`. -/
def statusLoopResult (env : Env) (tr : List Call) (dd : DataDescriptor) (taskIDs : StringMap) :
    StatusLoopState :=
  handleDDStatusLoop env taskIDs dd.Spec.Sources 0
    { sourceStatuses := List.replicate dd.Spec.Sources.length default, allHealthy := true,
      aggregatedErrors := [], aggregatedNotReady := [], trace := tr }

/-- The `newStatus` of `handleDDStatus` as it stands at the comparison with the original
status. `ConsumedBy` is never assigned: it keeps its zero value, the nil slice. -/
def buildNewStatus (env : Env) (tr : List Call) (dd : DataDescriptor) (taskIDs : StringMap) :
    DataDescriptorStatus :=
  let conditions0 : List Condition := [] ++ dd.Status.Conditions
  let conditions1 :=
    if dd.Status.OverallPhase = "" then
      env.SetCreateCondition conditions0 "Initializing data descriptor" (env.Now tr)
    else conditions0
  let st := statusLoopResult env tr dd taskIDs
  if st.allHealthy then
    let c := NewCondition ConditionAvailable ConditionTrue "Available" "All data sources healthy."
      (env.Now st.trace)
    { SourceStatuses := st.sourceStatuses, ConsumedBy := none, OverallPhase := "Ready",
      Conditions := env.SetDataDescriptorCondition conditions1 c }
  else
    let errorMsg := toString st.aggregatedNotReady.length ++ " data sources task not completed, " ++
      toString st.aggregatedErrors.length ++ " data sources have issues "
    let c := NewCondition ConditionNotReady ConditionTrue "NotReady" errorMsg (env.Now st.trace)
    { SourceStatuses := st.sourceStatuses, ConsumedBy := none, OverallPhase := "NotReady",
      Conditions := env.SetDataDescriptorCondition conditions1 c }

/-- The aggregate event of `handleDDStatus`. -/
def aggregateEvent (st : StatusLoopState) : Call :=
  if st.allHealthy then
    Call.EventNormal "AllSourcesHealthy" "All data sources healthy and tasks triggered and Completed."
  else
    Call.EventWarning "SomeSourcesTaskErrorOrNotReady"
      (toString st.aggregatedNotReady.length ++ " data sources task not completed, " ++
        toString st.aggregatedErrors.length ++ " data sources have issues ")

/-- The text of `fmt.Errorf("%d errors: %v", len(aggregatedErrors), aggregatedErrors)`. -/
def aggregatedErrorText (aggregatedErrors : List String) : String :=
  toString aggregatedErrors.length ++ " errors: " ++ "[" ++ " ".intercalate aggregatedErrors ++ "]"

/-- The Go `handleDDStatus`: the returned error, the descriptor as the caller sees it
afterwards, and the call history. -/
def handleDDStatus (env : Env) (tr : List Call) (dd : DataDescriptor) (taskIDs : StringMap) :
    Option String × DataDescriptor × List Call :=
  let originalStatus := dd.Status
  let st := statusLoopResult env tr dd taskIDs
  let newStatus := buildNewStatus env tr dd taskIDs
  let tr1 := st.trace ++ [aggregateEvent st]
  let aggregated : Option String :=
    if st.aggregatedErrors.length > 0 then some (aggregatedErrorText st.aggregatedErrors) else none
  if isStatusEqualIgnoringTime originalStatus newStatus = false then
    let dd1 := { dd with Status := newStatus }
    let tr2 := tr1 ++ [Call.StatusUpdate dd1]
    match env.StatusUpdate tr1 dd1 with
    | some err => (some ("status update failed: " ++ err), dd1, tr2)
    | none => (aggregated, dd1, tr2)
  else (aggregated, dd, tr1)

/-- The Go `DoAddOrUpdate`. -/
def DoAddOrUpdate (env : Env) (tr : List Call) (dd : DataDescriptor) :
    Option String × DataDescriptor × List Call :=
  match handleDD env tr dd with
  | (.error err, tr1) => (some ("failed to handle data descriptor: " ++ err), dd, tr1)
  | (.ok taskIDs, tr1) =>
    match handleDDStatus env tr1 dd taskIDs with
    | (some err, dd1, tr2) => (some ("failed to update status: " ++ err), dd1, tr2)
    | (none, dd1, tr2) => (none, dd1, tr2)

/-! ## A concrete environment, for closed instances -/

/-- Modelled from the spec: `SetCreateCondition` of `api/v1alpha1` upserts the initial
condition of a new resource; the type and reason `Creating` stand for its own. -/
def specSetCreateCondition (conds : List Condition) (message : String) (now : Time) :
    List Condition :=
  setCondition conds (NewCondition "Creating" ConditionTrue "Creating" message now)

/-- A task-execution service that answers every trigger with `triggered` and every status
poll with `polled`, a cluster API whose status write answers `written`, no prompt
artifacts, a clock that counts the calls made, and the condition upsert of the spec. -/
def constEnv (triggered : Except String String) (polled : Except String TaskStatusResponse)
    (written : Option String) : Env :=
  { GetConfigMap := fun _ _ _ => .error "not found"
    TriggerTask := fun _ _ => triggered
    GetTaskStatus := fun _ _ => polled
    StatusUpdate := fun _ _ => written
    Now := fun tr => tr.length + 1
    UnmarshalFewShots := fun _ => .ok []
    UnmarshalBackgroundKnowledge := fun _ => .ok []
    SetCreateCondition := specSetCreateCondition
    SetDataDescriptorCondition := setCondition }

/-- A source of the given type, name and metadata, with nothing else declared. -/
def plainSource (typ name : String) (metadata : StringMap) : DataSource :=
  { Typ := typ, Name := name, Metadata := metadata, Extract := none,
    Prompts := { Prompts := { Name := "" } }, Processing := { Cleaning := [] },
    Classification := [] }

/-- The zero value of a status: a resource that was never reconciled. -/
def emptyStatus : DataDescriptorStatus :=
  { SourceStatuses := [], ConsumedBy := none, OverallPhase := "", Conditions := [] }

/-- A descriptor `ns/dd` of type `mysql` with the given sources and status. -/
def descriptorOf (sources : List DataSource) (status : DataDescriptorStatus) : DataDescriptor :=
  { Name := "dd", Namespace := "ns", Spec := { DescriptorType := "mysql", Sources := sources },
    Status := status }

/-! ## The status pass, source by source -/

/-- The result of the check that the status pass runs for `source` at history `tr`. -/
def sourceCheck (env : Env) (taskIDs : StringMap) (tr : List Call) (source : DataSource) :
    SourceStatusResult :=
  (checkSourceStatus env tr source (taskFor taskIDs source)).1

/-- The history after the iteration of the status pass for `source`. -/
def traceAfterCheck (env : Env) (taskIDs : StringMap) (tr : List Call) (source : DataSource) :
    List Call :=
  (handleDDStatusStep env taskIDs 0 source
    { sourceStatuses := [], allHealthy := true, aggregatedErrors := [], aggregatedNotReady := [],
      trace := tr }).trace

/-- The declared sources, each with the result of its check, in the order of the pass. -/
def checkedSources (env : Env) (taskIDs : StringMap) :
    List DataSource → List Call → List (DataSource × SourceStatusResult)
  | [], _ => []
  | source :: rest, tr =>
    (source, sourceCheck env taskIDs tr source) ::
      checkedSources env taskIDs rest (traceAfterCheck env taskIDs tr source)

/-- The status entry written for a source from the result of its check. -/
def entryOf (p : DataSource × SourceStatusResult) : SourceStatus :=
  { Name := p.1.Name, Phase := p.2.Phase, LastSyncTime := p.2.LastSyncTime,
    Records := p.2.Records, TaskID := p.2.TaskID }

/-- The check found the source healthy: no error and phase `Ready`. -/
def isHealthy (p : DataSource × SourceStatusResult) : Bool :=
  decide (p.2.Error = none) && decide (p.2.Phase = "Ready")

/-- The aggregated error of a source whose check carried one. -/
def errorOf (p : DataSource × SourceStatusResult) : Option String :=
  match p.2.Error with
  | some err => some ("data source " ++ p.1.Name ++ " error: " ++ err)
  | none => none

/-- The history after the whole loop of the status pass. -/
def traceAfterChecks (env : Env) (taskIDs : StringMap) : List DataSource → List Call → List Call
  | [], tr => tr
  | source :: rest, tr => traceAfterChecks env taskIDs rest (traceAfterCheck env taskIDs tr source)

/-- The check found no error but a phase other than `Ready`. -/
def isNotReady (p : DataSource × SourceStatusResult) : Bool :=
  decide (p.2.Error = none) && decide (p.2.Phase ≠ "Ready")

/-! ## Concrete descriptors -/

/-- A service whose trigger answers `t1` and whose poll answers `STARTED`. -/
def startedEnv : Env :=
  constEnv (.ok "t1") (.ok { Status := "STARTED", Result := "" }) none

/-- Two MySQL sources `a` and `b`, never reconciled. -/
def twoSources : DataDescriptor :=
  descriptorOf [plainSource "mysql" "a" [("host", "db")], plainSource "mysql" "b" [("host", "db")]]
    emptyStatus

/-- One source `a` whose status entry records task `t1`. -/
def recordedDescriptor : DataDescriptor :=
  descriptorOf [plainSource "mysql" "a" [("host", "db")]]
    { SourceStatuses := [{ Name := "a", Phase := "STARTED", LastSyncTime := 0, Records := 0,
                           TaskID := "t1" }],
      ConsumedBy := none, OverallPhase := "NotReady", Conditions := [] }

/-- Two declared sources of the same name `a`, with one status entry each, in order: the
first entry has lost its task (phase `FAILURE`), the second records task `t2`. -/
def sameNameDescriptor : DataDescriptor :=
  descriptorOf [plainSource "mysql" "a" [("host", "db")], plainSource "mysql" "a" [("host", "db")]]
    { SourceStatuses :=
        [{ Name := "a", Phase := "FAILURE", LastSyncTime := 0, Records := 0, TaskID := "" },
         { Name := "a", Phase := "STARTED", LastSyncTime := 0, Records := 0, TaskID := "t2" }],
      ConsumedBy := none, OverallPhase := "NotReady", Conditions := [] }

/-- A service whose trigger answers `t1` and whose poll answers `FAILURE` with result
`boom`. -/
def failureEnv : Env :=
  constEnv (.ok "t1") (.ok { Status := "FAILURE", Result := "boom" }) none

/-- A service whose trigger answers `t1` and whose poll answers `SUCCESS`. -/
def successEnv : Env :=
  constEnv (.ok "t1") (.ok { Status := "SUCCESS", Result := "" }) none

/-- One MySQL source `a` with a host, never reconciled. -/
def freshDescriptor : DataDescriptor :=
  descriptorOf [plainSource "mysql" "a" [("host", "db")]] emptyStatus

/-- The status of a descriptor whose source `a` completed task `t1`, with the given
back-references. -/
def readyStatus (consumedBy : Option (List ObjectReference)) : DataDescriptorStatus :=
  { SourceStatuses := [{ Name := "a", Phase := "Ready", LastSyncTime := 0, Records := 0,
                         TaskID := "t1" }],
    ConsumedBy := consumedBy, OverallPhase := "Ready",
    Conditions := [{ Typ := "Available", Status := "True", LastTransitionTime := 4,
                     Reason := "Available", Message := "All data sources healthy." }] }

/-- A `Ready` descriptor that the agent container `ns/agent` consumes. -/
def consumedDescriptor : DataDescriptor :=
  descriptorOf [plainSource "mysql" "a" [("host", "db")]]
    (readyStatus (some [{ Name := "agent", Namespace := "ns" }]))

/-- The same `Ready` descriptor with no consumer recorded. -/
def unconsumedDescriptor : DataDescriptor :=
  descriptorOf [plainSource "mysql" "a" [("host", "db")]] (readyStatus none)

/-- A descriptor whose task `t1` was last seen `STARTED`, consumed by `ns/agent`. -/
def consumedStartedDescriptor : DataDescriptor :=
  descriptorOf [plainSource "mysql" "a" [("host", "db")]]
    { SourceStatuses := [{ Name := "a", Phase := "STARTED", LastSyncTime := 0, Records := 0,
                           TaskID := "t1" }],
      ConsumedBy := some [{ Name := "agent", Namespace := "ns" }], OverallPhase := "NotReady",
      Conditions := [] }

/-- The lower-case counterpart of `toUpper`. -/
def toLower (s : String) : String :=
  String.mk (s.data.map Char.toLower)

/-- Two strings are equal up to the case of their ASCII letters. -/
abbrev equalFold (s t : String) : Prop :=
  toLower s = toLower t

/-- The rune `c` is the ASCII capital `n` up to letter case, as `unicode.ToUpper` sees it:
`c` is `n` itself, or its small letter (32 code points further), or the long s (U+017F)
for `S`, or the dotless i (U+0131) for `I`. -/
def runeFoldsTo (c n : Char) : Bool :=
  c.toNat == n.toNat || c.toNat == n.toNat + 32 ||
    (n.toNat == 0x53 && c.toNat == 0x17F) || (n.toNat == 0x49 && c.toNat == 0x131)

/-- Rune by rune, the first text is the second one up to letter case. -/
def foldsToChars : List Char → List Char → Bool
  | [], [] => true
  | c :: cs, n :: ns => runeFoldsTo c n && foldsToChars cs ns
  | _, _ => false

/-- The text `s` is the name `name`, written in ASCII capitals, up to letter case. -/
def foldsTo (s name : String) : Bool :=
  foldsToChars s.data name.data

/-- A service whose poll answers with the given status text and an empty result. -/
def statusEnv (status : String) : Env :=
  constEnv (.ok "t1") (.ok { Status := status, Result := "" }) none

/-- The error of the status write of `handleDDStatus`: `none` when the write is skipped or
succeeds. -/
def statusWriteError (env : Env) (tr : List Call) (dd : DataDescriptor) (taskIDs : StringMap) :
    Option String :=
  if isStatusEqualIgnoringTime dd.Status (buildNewStatus env tr dd taskIDs) = false then
    env.StatusUpdate
      ((statusLoopResult env tr dd taskIDs).trace ++
        [aggregateEvent (statusLoopResult env tr dd taskIDs)])
      { dd with Status := buildNewStatus env tr dd taskIDs }
  else none

/-- A service whose poll answers `sUcCeSs`. -/
def mixedCaseEnv : Env :=
  constEnv (.ok "t1") (.ok { Status := "sUcCeSs", Result := "" }) none

/-- The text `sub` occurs in `text`. -/
abbrev containsText (text sub : String) : Prop :=
  sub.data <:+: text.data

/-- A service whose trigger answers with the empty task identifier. -/
def emptyTaskEnv (written : Option String) : Env :=
  constEnv (.ok "") (.ok { Status := "SUCCESS", Result := "" }) written

/-- One MySQL source of the given name without a `host` key, never reconciled. -/
def noHostDescriptor (name : String) : DataDescriptor :=
  descriptorOf [plainSource "mysql" name [("port", "3306")]] emptyStatus

/-! ## Deletion -/

/-- The request data of `handleDDDelete`: the operation and the descriptor identity only. -/
def deleteRequest (ns name : String) : TriggerRequest :=
  { operation := "Delete"
    source := none
    descriptor := { name := name, ns := ns }
    extract := none
    prompts := none
    processing := none
    classification := none }

/-- The Go `handleDDDelete`. -/
def handleDDDelete (env : Env) (tr : List Call) (ns name : String) :
    Except String String × List Call :=
  let requestData := deleteRequest ns name
  match env.TriggerTask tr requestData with
  | .error err =>
    (.error ("failed to trigger task to delete dd, namespace:" ++ ns ++ ", name:" ++ name ++ " "
      ++ err), tr ++ [Call.TriggerTask requestData])
  | .ok taskID => (.ok taskID, tr ++ [Call.TriggerTask requestData])

/-- The Go `DoDelete`: the returned task identifier and error, and the call history. -/
def DoDelete (env : Env) (tr : List Call) (ns name : String) :
    (String × Option String) × List Call :=
  match handleDDDelete env tr ns name with
  | (.error err, tr1) => (("", some ("failed to delete data descriptor: " ++ err)), tr1)
  | (.ok taskID, tr1) => ((taskID, none), tr1)

/-- A `Ready` descriptor whose entry for `a` records task `t1` and 5000 records. -/
def countedDescriptor : DataDescriptor :=
  descriptorOf [plainSource "mysql" "a" [("host", "db")]]
    { SourceStatuses := [{ Name := "a", Phase := "Ready", LastSyncTime := 7, Records := 5000,
                           TaskID := "t1" }],
      ConsumedBy := none, OverallPhase := "Ready",
      Conditions := [{ Typ := "Available", Status := "True", LastTransitionTime := 4,
                       Reason := "Available", Message := "All data sources healthy." }] }

/-- A service whose trigger calls all fail with `refused`. -/
def refusingEnv : Env :=
  constEnv (.error "refused") (.ok { Status := "SUCCESS", Result := "" }) none

/-! ## The Agent Container generator

A shallow embedding of `execution-engine/internal/generator/dac.go`. The functions that
call the cluster take the history of calls made so far and return the calls they make. -/

/-- One skill of an agent card (fields as in `entity/agent_container.go`). -/
structure AgentSkill where
  ID : String
  Name : String
  Description : String
  Tags : List String
  Examples : List String
deriving DecidableEq, Repr

/-- The agent card; `Skills` keeps the nil slice (`none`) apart from a non-nil one. -/
structure AgentCard where
  Name : String
  Description : String
  Skills : Option (List AgentSkill)
deriving DecidableEq, Repr

structure DataPolicy where
  SourceNameSelector : List String
deriving DecidableEq, Repr

structure ModelSpec where
  Embedding : String
  ExpertLLM : String
  PlannerLLM : String
deriving DecidableEq, Repr

structure DataAgentContainerSpec where
  DataPolicy : DataPolicy
  AgentCard : AgentCard
  Model : ModelSpec
  ExpertAgentMaxSteps : String
deriving DecidableEq, Repr

structure DataAgentContainer where
  APIVersion : String
  Kind : String
  Name : String
  Namespace : String
  UID : String
  Spec : DataAgentContainerSpec
deriving DecidableEq, Repr

structure LLMConfig where
  Provider : String
  APIKey : String
  BaseURL : String
  Model : String
deriving DecidableEq, Repr

structure DACConfig where
  ObservationBaseURL : String
  ObservationSecretKey : String
  ObservationPublicKey : String
  RedisHost : String
  RedisPort : String
  RedisPassword : String
  DataServicesURL : String
  ExpertAgentRegistry : String
  OrchestratorAgentImage : String
  ExpertAgentImage : String
deriving DecidableEq, Repr

structure OwnerReference where
  APIVersion : String
  Kind : String
  Name : String
  UID : String
  Controller : Option Bool
  BlockOwnerDeletion : Option Bool
deriving DecidableEq, Repr

structure ServicePort where
  Port : Nat
  Protocol : String
  Name : String
  TargetPort : Nat
deriving DecidableEq, Repr

structure Service where
  Name : String
  Namespace : String
  Labels : StringMap
  OwnerReferences : List OwnerReference
  Typ : String
  Ports : List ServicePort
  Selector : StringMap
deriving DecidableEq, Repr

structure EnvVar where
  Name : String
  Value : String
deriving DecidableEq, Repr

structure ContainerPort where
  Name : String
  ContainerPort : Nat
  Protocol : String
deriving DecidableEq, Repr

structure ResourceRequirements where
  LimitsCPU : String
  LimitsMemory : String
  RequestsCPU : String
  RequestsMemory : String
deriving DecidableEq, Repr

structure VolumeMount where
  Name : String
  MountPath : String
  SubPath : String
deriving DecidableEq, Repr

structure Container where
  Name : String
  Image : String
  ImagePullPolicy : String
  Args : List String
  Ports : List ContainerPort
  Env : List EnvVar
  Resources : ResourceRequirements
  VolumeMounts : List VolumeMount
deriving DecidableEq, Repr

/-- A volume backed by the ConfigMap of the given name. -/
structure Volume where
  Name : String
  ConfigMapName : String
deriving DecidableEq, Repr

structure PodSpec where
  Containers : List Container
  Volumes : List Volume
deriving DecidableEq, Repr

structure Deployment where
  Name : String
  Namespace : String
  Labels : StringMap
  OwnerReferences : List OwnerReference
  Replicas : Nat
  StrategyType : String
  MatchLabels : StringMap
  TemplateLabels : StringMap
  Spec : PodSpec
deriving DecidableEq, Repr

/-- A ConfigMap object handed to the cluster. -/
structure ConfigMapObject where
  Name : String
  Namespace : String
  OwnerReferences : List OwnerReference
  Data : StringMap
deriving DecidableEq, Repr

/-- An error of the cluster client: its text, and what `errors.IsNotFound` says of it. -/
structure K8sError where
  notFound : Bool
  text : String
deriving DecidableEq, Repr

/-- A call that leaves the generator. `GetConfigMap` and `GetDataDescriptor` are the
`Kubeclient.Get` of an object of that kind. `Update` and `Delete` stand for the operations
of the cluster client that change or remove an object of the given kind; nothing in
`dac.go` makes them. -/
inductive GenCall where
  | GetService (ns name : String)
  | CreateService (ns : String) (service : Service)
  | GetDeployment (ns name : String)
  | CreateDeployment (ns : String) (deployment : Deployment)
  | CreateIfNotExistsConfigMap (ns : String) (configMap : ConfigMapObject)
  | GetConfigMap (ns name : String)
  | GetDataDescriptor (ns name : String)
  | Update (kind ns name : String)
  | Delete (kind ns name : String)
deriving DecidableEq, Repr

/-- The collaborators of the generator; each answer may depend on the calls made before.
`MarshalSkills` is `json.Marshal` on the skills, `MapOrder` decides the order in which the
next `range` over a map visits its entries, `GroupVersion` is the constant of
`api/v1alpha1` (not among the sources). -/
structure GenEnv where
  GetService : List GenCall → String → String → Except K8sError Service
  CreateService : List GenCall → String → Service → Option String
  GetDeployment : List GenCall → String → String → Except K8sError Deployment
  CreateDeployment : List GenCall → String → Deployment → Option String
  CreateIfNotExistsConfigMap : List GenCall → String → ConfigMapObject → Option String
  GetConfigMap : List GenCall → String → String → Except K8sError ConfigMap
  GetDataDescriptor : List GenCall → String → String → Except K8sError DataDescriptor
  MarshalSkills : List AgentSkill → Except String String
  MapOrder : List GenCall → Nat
  GroupVersion : String

/-- Go `unicode.IsSpace`. -/
def isSpace (c : Char) : Bool :=
  let n := c.toNat
  (9 ≤ n && n ≤ 13) || n == 32 || n == 0x85 || n == 0xA0 || n == 0x1680 ||
    (0x2000 ≤ n && n ≤ 0x200A) || n == 0x2028 || n == 0x2029 || n == 0x202F ||
    n == 0x205F || n == 0x3000

/-- Go `strings.TrimSpace`. -/
def TrimSpace (s : String) : String :=
  String.mk (((s.data.dropWhile isSpace).reverse.dropWhile isSpace).reverse)

/-- The entries of a map in the order a `range` visits them: entry `seed % len` first,
then the remaining entries in the order given by `seed / len`. Every order of the
entries is the order of some seed. -/
def rangeOrder : Nat → Nat → StringMap → StringMap
  | 0, _, _ => []
  | fuel + 1, seed, m =>
    match m with
    | [] => []
    | e :: _ =>
      (m.getD (seed % m.length) e) ::
        rangeOrder fuel (seed / m.length) (m.eraseIdx (seed % m.length))

/-- Go `for key, value := range m` under the order chosen by `seed`. -/
def rangeMap (seed : Nat) (m : StringMap) : StringMap :=
  rangeOrder m.length seed m

/-- Go `configMap.Data[key]`: the empty string when the key is absent. -/
def dataOf (configMap : ConfigMap) (key : String) : String :=
  (mapGet configMap.Data key).getD ""

def GenerateDataAgentContainerServiceName (dac : DataAgentContainer) : String :=
  dac.Name ++ "-" ++ "service"

def GenerateDataAgentContainerDeploymentName (dac : DataAgentContainer) : String :=
  dac.Name ++ "-" ++ "deployment"

def GenerateDataAgentContainerService (dac : DataAgentContainer) (labels : StringMap)
    (ownerRefs : List OwnerReference) : Service :=
  let serviceName := GenerateDataAgentContainerServiceName dac
  let orchestratorTargetPort := 10100
  let expertTargetPort := 10101
  { Name := serviceName, Namespace := dac.Namespace, Labels := labels,
    OwnerReferences := ownerRefs, Typ := "ClusterIP",
    Ports := [{ Port := 10100, Protocol := "TCP", Name := "orchestrator",
                TargetPort := orchestratorTargetPort },
              { Port := 10101, Protocol := "TCP", Name := "expert",
                TargetPort := expertTargetPort }],
    Selector := labels }

/-- The three observability variables, appended when there is a platform configuration. -/
def observationEnvs (dacConfig : Option DACConfig) : List EnvVar :=
  match dacConfig with
  | some c =>
    [{ Name := "LANGFUSE_BASE_URL", Value := c.ObservationBaseURL },
     { Name := "LANGFUSE_SECRET_KEY", Value := c.ObservationSecretKey },
     { Name := "LANGFUSE_PUBLIC_KEY", Value := c.ObservationPublicKey }]
  | none => []

def generateExpertAgentEnvs (dac : DataAgentContainer) (serviceName ddDescriptorTypes : String)
    (dacConfig : Option DACConfig) : List EnvVar :=
  let agentCardURL := serviceName ++ "." ++ dac.Namespace ++ ".svc.cluster.local"
  let dataServicesURL := "http://data-services.dac.svc.cluster.local:8000"
  let dataDescriptor := ",".intercalate dac.Spec.DataPolicy.SourceNameSelector
  [{ Name := "Agent_Host", Value := agentCardURL },
   { Name := "Agent_Port", Value := "10101" },
   { Name := "Agent_Name", Value := dac.Spec.AgentCard.Name },
   { Name := "Agent_Description", Value := dac.Spec.AgentCard.Description },
   { Name := "DD_NAMESPACE", Value := dac.Namespace },
   { Name := "Data_Descriptor", Value := dataDescriptor },
   { Name := "DataServicesURL", Value := dataServicesURL },
   { Name := "DescriptorTypes", Value := ddDescriptorTypes }] ++ observationEnvs dacConfig

def generateOrchestratorAgentEnvs (dac : DataAgentContainer)
    (serviceName ddDescriptorTypes : String) (dacConfig : Option DACConfig) : List EnvVar :=
  let agentCardURL := serviceName ++ "." ++ dac.Namespace ++ ".svc.cluster.local"
  let dataServicesURL :=
    match dacConfig with
    | some c => c.DataServicesURL
    | none => "http://data-services.dac.svc.cluster.local:8000"
  let expertAgentRegistry :=
    match dacConfig with
    | some c => c.ExpertAgentRegistry
    | none => "http://expert-registry.dac.svc.cluster.local:8000"
  let dataDescriptor := ",".intercalate dac.Spec.DataPolicy.SourceNameSelector
  [{ Name := "Agent_Host", Value := agentCardURL },
   { Name := "Agent_Port", Value := "10100" },
   { Name := "AgentRegistry", Value := expertAgentRegistry },
   { Name := "Agent_Name", Value := dac.Spec.AgentCard.Name },
   { Name := "Agent_Description", Value := dac.Spec.AgentCard.Description },
   { Name := "DD_NAMESPACE", Value := dac.Namespace },
   { Name := "Data_Descriptor", Value := dataDescriptor },
   { Name := "DataServicesURL", Value := dataServicesURL },
   { Name := "DescriptorTypes", Value := ddDescriptorTypes }] ++ observationEnvs dacConfig

/-- The cache host of the argument lists. -/
def redisHostOf (dacConfig : Option DACConfig) : String :=
  match dacConfig with
  | some c => c.RedisHost
  | none => "redis-server.dac.svc.cluster.local"

/-- The cache port of the argument lists. -/
def redisPortOf (dacConfig : Option DACConfig) : String :=
  match dacConfig with
  | some c => c.RedisPort
  | none => "6379"

/-- The cache password of the argument lists. -/
def redisPasswordOf (dacConfig : Option DACConfig) : String :=
  match dacConfig with
  | some c => c.RedisPassword
  | none => "123"

def generateOrchestratorAgentArgs (_dac : DataAgentContainer) (llmConfig : LLMConfig)
    (dacConfig : Option DACConfig) : List String :=
  let port := "10100"
  let redisHost := redisHostOf dacConfig
  let redisPort := redisPortOf dacConfig
  let redisPassword := redisPasswordOf dacConfig
  let redisDB := "0"
  ["--port", port, "--redis-host", redisHost, "--redis-port", redisPort, "--redis-db", redisDB,
   "--password", redisPassword, "--provider", llmConfig.Provider, "--api-key", llmConfig.APIKey,
   "--base-url", llmConfig.BaseURL, "--model", llmConfig.Model]

def generateExpertAgentArgs (dac : DataAgentContainer) (llmConfig : LLMConfig)
    (dacConfig : Option DACConfig) : List String :=
  let port := "10101"
  let redisHost := redisHostOf dacConfig
  let redisPort := redisPortOf dacConfig
  let redisPassword := redisPasswordOf dacConfig
  let redisDB := "1"
  ["--port", port, "--redis-host", redisHost, "--redis-port", redisPort, "--redis-db", redisDB,
   "--password", redisPassword, "--provider", llmConfig.Provider, "--api-key", llmConfig.APIKey,
   "--base-url", llmConfig.BaseURL, "--model", llmConfig.Model,
   "--max-steps", dac.Spec.ExpertAgentMaxSteps]

/-- The Go `createConfigMapForSkills`: the returned error and the calls made. -/
def createConfigMapForSkills (env : GenEnv) (tr : List GenCall) (dac : DataAgentContainer) :
    Option String × List GenCall :=
  match dac.Spec.AgentCard.Skills with
  | some skills =>
    match env.MarshalSkills skills with
    | .error err => (some err, [])
    | .ok skillsJSON =>
      let configMap : ConfigMapObject :=
        { Name := dac.Name ++ "-skills", Namespace := dac.Namespace,
          OwnerReferences :=
            [{ APIVersion := env.GroupVersion, Kind := "DataAgentContainer", Name := dac.Name,
               UID := dac.UID, Controller := some true, BlockOwnerDeletion := some true }],
          Data := [("skills.json", skillsJSON)] }
      (env.CreateIfNotExistsConfigMap tr dac.Namespace configMap,
        [GenCall.CreateIfNotExistsConfigMap dac.Namespace configMap])
  | none => (none, [])

/-- The Go `getDACConfig`: the platform configuration, nil (`none`) when the artifact is
not found. -/
def getDACConfig (env : GenEnv) (tr : List GenCall) :
    Except String (Option DACConfig) × List GenCall :=
  let configMapName := "dac-configuration"
  let configMapNameSpace := "dac"
  match env.GetConfigMap tr configMapNameSpace configMapName with
  | .error err =>
    if err.notFound then (.ok none, [GenCall.GetConfigMap configMapNameSpace configMapName])
    else (.error ("failed to get ConfigMap: " ++ err.text),
      [GenCall.GetConfigMap configMapNameSpace configMapName])
  | .ok configMap =>
    (.ok (some
      { ObservationBaseURL := dataOf configMap "observation-base-url"
        ObservationSecretKey := dataOf configMap "observation-secret-key"
        ObservationPublicKey := dataOf configMap "observation-public-key"
        RedisHost := dataOf configMap "redis-host"
        RedisPort := dataOf configMap "redis-port"
        RedisPassword := dataOf configMap "redis-password"
        DataServicesURL := dataOf configMap "data-services-url"
        ExpertAgentRegistry := dataOf configMap "expert-agent-registry"
        OrchestratorAgentImage := dataOf configMap "orchestrator-agent-image"
        ExpertAgentImage := dataOf configMap "expert-agent-image" }),
      [GenCall.GetConfigMap configMapNameSpace configMapName])

/-- The body shared by `getPlannerLLMConfig` and `getExpertLLMConfig`: the model
configuration read from the ConfigMap of the given name in the namespace of the container. -/
def getLLMConfig (env : GenEnv) (tr : List GenCall) (dac : DataAgentContainer) (name : String) :
    Except String LLMConfig × List GenCall :=
  match env.GetConfigMap tr dac.Namespace name with
  | .error err =>
    (.error ("failed to get ConfigMap: " ++ err.text), [GenCall.GetConfigMap dac.Namespace name])
  | .ok configMap =>
    (.ok { Provider := dataOf configMap "provider", APIKey := dataOf configMap "api-key",
           BaseURL := dataOf configMap "base-url", Model := dataOf configMap "model" },
      [GenCall.GetConfigMap dac.Namespace name])

def getPlannerLLMConfig (env : GenEnv) (tr : List GenCall) (dac : DataAgentContainer) :
    Except String LLMConfig × List GenCall :=
  getLLMConfig env tr dac dac.Spec.Model.PlannerLLM

def getExpertLLMConfig (env : GenEnv) (tr : List GenCall) (dac : DataAgentContainer) :
    Except String LLMConfig × List GenCall :=
  getLLMConfig env tr dac dac.Spec.Model.ExpertLLM

/-- The inner loop of `getDDDescriptorTypes`: `:key:value` written for every entry, in the
order of the `range`. -/
def writeMetadata (result : String) : StringMap → String
  | [] => result
  | (key, value) :: rest => writeMetadata (result ++ ":" ++ key ++ ":" ++ value) rest

/-- What `getDDDescriptorTypes` writes after the record separator for one descriptor: the
name, the descriptor type and the metadata of the first source. -/
def writeRecord (result item : String) (dataDescriptor : DataDescriptor) (seed : Nat) : String :=
  let r := result ++ item ++ ":" ++ dataDescriptor.Spec.DescriptorType
  match dataDescriptor.Spec.Sources with
  | s0 :: _ => if s0.Metadata.length > 0 then writeMetadata r (rangeMap seed s0.Metadata) else r
  | [] => r

/-- The loop `for _, item := range dac.Spec.DataPolicy.SourceNameSelector` of
`getDDDescriptorTypes`, on the builder content `result` and the flag `first`. -/
def getDDDescriptorTypesLoop (env : GenEnv) (dac : DataAgentContainer) :
    List String → String → Bool → List GenCall → Except String String × List GenCall
  | [], result, _, _ => (.ok result, [])
  | item :: rest, result, first, tr =>
    let item := TrimSpace item
    if item = "" then getDDDescriptorTypesLoop env dac rest result first tr
    else
      let c := GenCall.GetDataDescriptor dac.Namespace item
      match env.GetDataDescriptor tr dac.Namespace item with
      | .error err => (.error ("failed to get DataDescriptor " ++ item ++ ": " ++ err.text), [c])
      | .ok dataDescriptor =>
        let result1 := if first = false then result ++ ";" else result
        let result2 := writeRecord result1 item dataDescriptor (env.MapOrder (tr ++ [c]))
        let r := getDDDescriptorTypesLoop env dac rest result2 false (tr ++ [c])
        (r.1, c :: r.2)

/-- The Go `getDDDescriptorTypes`. -/
def getDDDescriptorTypes (env : GenEnv) (tr : List GenCall) (dac : DataAgentContainer) :
    Except String String × List GenCall :=
  getDDDescriptorTypesLoop env dac dac.Spec.DataPolicy.SourceNameSelector "" true tr

/-- The resources of both containers. -/
def agentResources : ResourceRequirements :=
  { LimitsCPU := "2000m", LimitsMemory := "8000Mi", RequestsCPU := "100m",
    RequestsMemory := "1000Mi" }

/-- The deployment object that `GenerateDataAgentContainerDeployment` builds once the
configuration is resolved. -/
def buildDeployment (dac : DataAgentContainer) (labels : StringMap)
    (ownerRefs : List OwnerReference) (dacConfig : Option DACConfig)
    (plannerLLMConfig expertLLMConfig : LLMConfig) (ddDescriptorTypes : String) : Deployment :=
  let name := GenerateDataAgentContainerDeploymentName dac
  let serviceName := GenerateDataAgentContainerServiceName dac
  let orchestratorAgentImage :=
    match dacConfig with
    | some c => c.OrchestratorAgentImage
    | none => "registry.cn-shanghai.aliyuncs.com/jamesxiong/orchestrator-agent:v0.2.0-amd64"
  let expertAgentImage :=
    match dacConfig with
    | some c => c.ExpertAgentImage
    | none => "registry.cn-shanghai.aliyuncs.com/jamesxiong/expert-agent:v0.2.0-amd64"
  let orchestratorAgentArgs := generateOrchestratorAgentArgs dac plannerLLMConfig dacConfig
  let expertAgentArgs := generateExpertAgentArgs dac expertLLMConfig dacConfig
  let volumeMounts : List VolumeMount :=
    match dac.Spec.AgentCard.Skills with
    | some _ => [{ Name := "skills-config", MountPath := "/app/skills.json",
                   SubPath := "skills.json" }]
    | none => []
  let volumes : List Volume :=
    match dac.Spec.AgentCard.Skills with
    | some _ => [{ Name := "skills-config", ConfigMapName := dac.Name ++ "-skills" }]
    | none => []
  { Name := name, Namespace := dac.Namespace, Labels := labels, OwnerReferences := ownerRefs,
    Replicas := 1, StrategyType := "RollingUpdate", MatchLabels := labels,
    TemplateLabels := labels,
    Spec :=
      { Containers :=
          [{ Name := "orchestrator", Image := orchestratorAgentImage,
             ImagePullPolicy := "IfNotPresent", Args := orchestratorAgentArgs,
             Ports := [{ Name := "orchestrator", ContainerPort := 10100, Protocol := "TCP" }],
             Env := generateOrchestratorAgentEnvs dac serviceName ddDescriptorTypes dacConfig,
             Resources := agentResources, VolumeMounts := volumeMounts },
           { Name := "expert", Image := expertAgentImage,
             ImagePullPolicy := "IfNotPresent", Args := expertAgentArgs,
             Ports := [{ Name := "expert", ContainerPort := 10101, Protocol := "TCP" }],
             Env := generateExpertAgentEnvs dac serviceName ddDescriptorTypes dacConfig,
             Resources := agentResources, VolumeMounts := volumeMounts }],
        Volumes := volumes } }

/-- The Go `GenerateDataAgentContainerDeployment`: the deployment or the error, and the
calls made. -/
def GenerateDataAgentContainerDeployment (env : GenEnv) (tr : List GenCall)
    (dac : DataAgentContainer) (labels : StringMap) (ownerRefs : List OwnerReference) :
    Except String Deployment × List GenCall :=
  let r0 : Option String × List GenCall :=
    if dac.Spec.AgentCard.Skills ≠ none then createConfigMapForSkills env tr dac else (none, [])
  match r0.1 with
  | some err => (.error err, r0.2)
  | none =>
    let r1 := getDACConfig env (tr ++ r0.2)
    match r1.1 with
    | .error err => (.error err, r0.2 ++ r1.2)
    | .ok dacConfig =>
      let r2 := getPlannerLLMConfig env (tr ++ r0.2 ++ r1.2) dac
      match r2.1 with
      | .error err => (.error err, r0.2 ++ r1.2 ++ r2.2)
      | .ok plannerLLMConfig =>
        let r3 := getExpertLLMConfig env (tr ++ r0.2 ++ r1.2 ++ r2.2) dac
        match r3.1 with
        | .error err => (.error err, r0.2 ++ r1.2 ++ r2.2 ++ r3.2)
        | .ok expertLLMConfig =>
          let r4 := getDDDescriptorTypes env (tr ++ r0.2 ++ r1.2 ++ r2.2 ++ r3.2) dac
          match r4.1 with
          | .error err => (.error err, r0.2 ++ r1.2 ++ r2.2 ++ r3.2 ++ r4.2)
          | .ok ddDescriptorTypes =>
            (.ok (buildDeployment dac labels ownerRefs dacConfig plannerLLMConfig
                expertLLMConfig ddDescriptorTypes),
              r0.2 ++ r1.2 ++ r2.2 ++ r3.2 ++ r4.2)

/-- The first block of `Do`: the service is created when its lookup reports not-found. -/
def ensureService (env : GenEnv) (tr : List GenCall) (dac : DataAgentContainer)
    (service : Service) : Option String × List GenCall :=
  let serviceName := GenerateDataAgentContainerServiceName dac
  match env.GetService tr dac.Namespace serviceName with
  | .error err =>
    if err.notFound then
      (env.CreateService (tr ++ [GenCall.GetService dac.Namespace serviceName]) dac.Namespace
          service,
        [GenCall.GetService dac.Namespace serviceName,
         GenCall.CreateService dac.Namespace service])
    else (none, [GenCall.GetService dac.Namespace serviceName])
  | .ok _ => (none, [GenCall.GetService dac.Namespace serviceName])

/-- The last block of `Do`: the deployment is created when its lookup reports not-found. -/
def ensureDeployment (env : GenEnv) (tr : List GenCall) (dac : DataAgentContainer)
    (deployment : Deployment) : Option String × List GenCall :=
  let deploymentName := GenerateDataAgentContainerDeploymentName dac
  match env.GetDeployment tr dac.Namespace deploymentName with
  | .error err =>
    if err.notFound then
      (env.CreateDeployment (tr ++ [GenCall.GetDeployment dac.Namespace deploymentName])
          dac.Namespace deployment,
        [GenCall.GetDeployment dac.Namespace deploymentName,
         GenCall.CreateDeployment dac.Namespace deployment])
    else (none, [GenCall.GetDeployment dac.Namespace deploymentName])
  | .ok _ => (none, [GenCall.GetDeployment dac.Namespace deploymentName])

/-- The labels of the children of `Do`. -/
def labelsOf (dac : DataAgentContainer) : StringMap :=
  [("app", dac.Name)]

/-- The owner references of the children of `Do`. -/
def ownerRefsOf (dac : DataAgentContainer) : List OwnerReference :=
  [{ APIVersion := dac.APIVersion, Kind := dac.Kind, Name := dac.Name, UID := dac.UID,
     Controller := some true, BlockOwnerDeletion := none }]

/-- The Go `Do`: the returned error and the calls made, in order. -/
def Do (env : GenEnv) (tr : List GenCall) (dac : DataAgentContainer) :
    Option String × List GenCall :=
  let labels := labelsOf dac
  let ownerRefs := ownerRefsOf dac
  let service := GenerateDataAgentContainerService dac labels ownerRefs
  let r1 := ensureService env tr dac service
  match r1.1 with
  | some err => (some err, r1.2)
  | none =>
    let r2 := GenerateDataAgentContainerDeployment env (tr ++ r1.2) dac labels ownerRefs
    match r2.1 with
    | .error err => (some err, r1.2 ++ r2.2)
    | .ok deployment =>
      let r3 := ensureDeployment env (tr ++ r1.2 ++ r2.2) dac deployment
      (r3.1, r1.2 ++ r2.2 ++ r3.2)

/-- The flags of an argument list: the entries at the even positions. -/
def flagsOf : List String → List String
  | flag :: _ :: rest => flag :: flagsOf rest
  | [flag] => [flag]
  | [] => []

/-- The platform configuration read from a ConfigMap, key by key. -/
def configOf (configMap : ConfigMap) : DACConfig :=
  { ObservationBaseURL := dataOf configMap "observation-base-url"
    ObservationSecretKey := dataOf configMap "observation-secret-key"
    ObservationPublicKey := dataOf configMap "observation-public-key"
    RedisHost := dataOf configMap "redis-host"
    RedisPort := dataOf configMap "redis-port"
    RedisPassword := dataOf configMap "redis-password"
    DataServicesURL := dataOf configMap "data-services-url"
    ExpertAgentRegistry := dataOf configMap "expert-agent-registry"
    OrchestratorAgentImage := dataOf configMap "orchestrator-agent-image"
    ExpertAgentImage := dataOf configMap "expert-agent-image" }

/-- The value of the variable `name` in an environment, if it is set. -/
def envValue (envs : List EnvVar) (name : String) : Option String :=
  (envs.find? (fun e => e.Name = name)).map (fun e => e.Value)

/-- The suffix that the metadata of the first source adds to a record. -/
def metadataSuffix (dataDescriptor : DataDescriptor) (seed : Nat) : String :=
  match dataDescriptor.Spec.Sources with
  | s0 :: _ => if s0.Metadata.length > 0 then writeMetadata "" (rangeMap seed s0.Metadata) else ""
  | [] => ""

/-- Every record preceded by the separator `;`. -/
def sepAll : List String → String
  | [] => ""
  | r :: rs => ";" ++ r ++ sepAll rs

/-- The names that `getDDDescriptorTypes` fetches: the selector entries, trimmed, without
the blank ones. -/
def selectedNames (selector : List String) : List String :=
  (selector.map TrimSpace).filter (fun n => n ≠ "")

/-! ## A concrete cluster -/

/-- The not-found error of the cluster client. -/
def notFoundError : K8sError :=
  { notFound := true, text := "not found" }

/-- A cluster in which the service and deployment lookups answer `service` and
`deployment`, every creation succeeds, ConfigMaps and Data Descriptors are those of
`configMaps` and `descriptors`, and every `range` over a map uses the order `seed`. -/
def clusterEnv (service : Except K8sError Service) (deployment : Except K8sError Deployment)
    (configMaps : String → String → Except K8sError ConfigMap)
    (descriptors : String → String → Except K8sError DataDescriptor) (seed : Nat) : GenEnv :=
  { GetService := fun _ _ _ => service
    CreateService := fun _ _ _ => none
    GetDeployment := fun _ _ _ => deployment
    CreateDeployment := fun _ _ _ => none
    CreateIfNotExistsConfigMap := fun _ _ _ => none
    GetConfigMap := fun _ ns name => configMaps ns name
    GetDataDescriptor := fun _ ns name => descriptors ns name
    MarshalSkills := fun skills => .ok ("skills:" ++ ",".intercalate (skills.map (fun s => s.ID)))
    MapOrder := fun _ => seed
    GroupVersion := "dac.io/v1alpha1" }

/-- An Agent Container `ns/agent` over the descriptors `db1` and `db2`, with one skill. -/
def sampleAgent : DataAgentContainer :=
  { APIVersion := "dac.io/v1alpha1", Kind := "DataAgentContainer", Name := "agent",
    Namespace := "ns", UID := "uid-1",
    Spec :=
      { DataPolicy := { SourceNameSelector := ["db1", "db2"] }
        AgentCard := { Name := "agent", Description := "demo",
                       Skills := some [{ ID := "sql", Name := "sql", Description := "", Tags := [],
                                         Examples := [] }] }
        Model := { Embedding := "embed", ExpertLLM := "expert-llm", PlannerLLM := "planner-llm" }
        ExpertAgentMaxSteps := "20" } }

/-- The descriptors of the sample cluster: `db1` of type `mysql`, whose first source has
the metadata `host` and `port`, and `db2` of type `postgres` without sources. -/
def sampleDescriptors (ns name : String) : Except K8sError DataDescriptor :=
  if ns = "ns" ∧ name = "db1" then
    .ok { Name := "db1", Namespace := "ns",
          Spec := { DescriptorType := "mysql",
                    Sources := [plainSource "mysql" "a" [("host", "db"), ("port", "3306")]] },
          Status := emptyStatus }
  else if ns = "ns" ∧ name = "db2" then
    .ok { Name := "db2", Namespace := "ns",
          Spec := { DescriptorType := "postgres", Sources := [] }, Status := emptyStatus }
  else .error notFoundError

/-- The same descriptors as total cluster contents (an unknown name gives `db2`). -/
def sampleContents (name : String) : DataDescriptor :=
  match sampleDescriptors "ns" name with
  | .ok d => d
  | .error _ =>
    { Name := "db2", Namespace := "ns", Spec := { DescriptorType := "postgres", Sources := [] },
      Status := emptyStatus }

/-- The model configurations of the sample cluster; there is no platform configuration. -/
def sampleConfigMaps (ns name : String) : Except K8sError ConfigMap :=
  if ns = "ns" ∧ name = "planner-llm" then
    .ok { Data := [("provider", "openai"), ("api-key", "k1"), ("base-url", "u1"),
                   ("model", "m1")] }
  else if ns = "ns" ∧ name = "expert-llm" then
    .ok { Data := [("provider", "openai"), ("api-key", "k2"), ("base-url", "u2"),
                   ("model", "m2")] }
  else .error notFoundError

/-- A cluster without any ConfigMap: neither platform nor model configuration. -/
def noConfigMaps (_ns _name : String) : Except K8sError ConfigMap :=
  .error notFoundError

/-- A cluster without any Data Descriptor. -/
def noDescriptors (_ns _name : String) : Except K8sError DataDescriptor :=
  .error notFoundError

/-- The sample cluster before any child exists, with map order `seed`. -/
def sampleCluster (seed : Nat) : GenEnv :=
  clusterEnv (.error notFoundError) (.error notFoundError) sampleConfigMaps sampleDescriptors seed

/-- A cluster before any child exists, without model configuration and without
descriptors. -/
def emptyCluster : GenEnv :=
  clusterEnv (.error notFoundError) (.error notFoundError) noConfigMaps noDescriptors 0

/-- The operation of a call. -/
def GenCall.kind : GenCall → String
  | .GetService _ _ => "GetService"
  | .CreateService _ _ => "CreateService"
  | .GetDeployment _ _ => "GetDeployment"
  | .CreateDeployment _ _ => "CreateDeployment"
  | .CreateIfNotExistsConfigMap _ _ => "CreateIfNotExistsConfigMap"
  | .GetConfigMap _ _ => "GetConfigMap"
  | .GetDataDescriptor _ _ => "GetDataDescriptor"
  | .Update _ _ _ => "Update"
  | .Delete _ _ _ => "Delete"

/-- The sample cluster with its model configurations but without any Data Descriptor. -/
def noDescriptorCluster : GenEnv :=
  clusterEnv (.error notFoundError) (.error notFoundError) sampleConfigMaps noDescriptors 0

/-! ## Prompt artifacts, for closed instances -/

/-- A stand-in for `json.Unmarshal` on the few-shot array: the text `bad` does not parse,
any other text parses to one element holding it. -/
def sampleUnmarshalFewShots (s : String) : Except String (List FewShot) :=
  if s = "bad" then .error "invalid character" else .ok [{ raw := s }]

/-- The same stand-in for the background-knowledge array. -/
def sampleUnmarshalBackgroundKnowledge (s : String) : Except String (List BackgroundKnowledge) :=
  if s = "bad" then .error "invalid character" else .ok [{ raw := s }]

/-- A cluster whose prompt artifact `prompts` holds the given data (any other artifact is
missing), with a service whose trigger answers `t1`. -/
def promptEnv (data : StringMap) : Env :=
  { GetConfigMap := fun _ _ name =>
      if name = "prompts" then .ok { Data := data } else .error "not found"
    TriggerTask := fun _ _ => .ok "t1"
    GetTaskStatus := fun _ _ => .ok { Status := "STARTED", Result := "" }
    StatusUpdate := fun _ _ => none
    Now := fun tr => tr.length + 1
    UnmarshalFewShots := sampleUnmarshalFewShots
    UnmarshalBackgroundKnowledge := sampleUnmarshalBackgroundKnowledge
    SetCreateCondition := specSetCreateCondition
    SetDataDescriptorCondition := setCondition }

/-- A MySQL source `a` that refers to the prompt artifact of the given name. -/
def promptedSource (artifact : String) : DataSource :=
  { Typ := "mysql", Name := "a", Metadata := [("host", "db")],
    Extract := some { Tables := ["t"], Querys := [] },
    Prompts := { Prompts := { Name := artifact } },
    Processing := { Cleaning := [{ Rule := "trim", Params := [] }] },
    Classification := [{ Domain := "d", Category := "c", Subcategory := "s", Tags := [] }] }

/-- A descriptor with the one source `promptedSource artifact`, never reconciled. -/
def promptedDescriptor (artifact : String) : DataDescriptor :=
  descriptorOf [promptedSource artifact] emptyStatus

/-- The reading of one key of the prompt artifact, the pattern
`if data, exists := configMap.Data[key]; exists && data != ""` followed by
`json.Unmarshal`: a missing or empty entry leaves the list empty. -/
def parsePromptEntry {α : Type} (unmarshal : String → Except String (List α))
    (entry : Option String) : Except String (List α) :=
  match entry with
  | some data => if data ≠ "" then unmarshal data else .ok []
  | none => .ok []

/-- A prompt artifact whose few-shot entry does not parse and whose background-knowledge
entry is well formed. -/
def badFewShotsData : StringMap :=
  [("fewshots.json", "bad"), ("background_knowledge.json", "k")]

/-- A prompt artifact whose background-knowledge entry does not parse and whose few-shot
entry is well formed. -/
def badBackgroundData : StringMap :=
  [("fewshots.json", "f"), ("background_knowledge.json", "bad")]

/-- The call is an event sent through `EventsCli`. -/
def Call.isEvent : Call → Bool
  | .EventNormal _ _ => true
  | .EventWarning _ _ => true
  | _ => false

/-- The normal event of the status pass for a source found healthy. -/
def triggeredEvent (p : DataSource × SourceStatusResult) : Call :=
  Call.EventNormal "TaskTriggered"
    ("Task " ++ p.2.TaskID ++ " Completed for data source " ++ p.1.Name)

/-- A condition with its `LastTransitionTime` cleared. -/
def Condition.withoutTime (c : Condition) : Condition :=
  { c with LastTransitionTime := 0 }

/-- A source status with its `LastSyncTime` cleared. -/
def SourceStatus.withoutTime (s : SourceStatus) : SourceStatus :=
  { s with LastSyncTime := 0 }

/-- A status with every time field cleared: two statuses have the same image exactly when
they differ in `LastSyncTime` and `LastTransitionTime` fields only. -/
def DataDescriptorStatus.withoutTimes (st : DataDescriptorStatus) : DataDescriptorStatus :=
  { st with
    SourceStatuses := st.SourceStatuses.map SourceStatus.withoutTime
    Conditions := st.Conditions.map Condition.withoutTime }

/-- The ConfigMaps of the sample cluster together with a platform configuration
`dac/dac-configuration` that names its own ingestion service. -/
def platformConfigMaps (ns name : String) : Except K8sError ConfigMap :=
  if ns = "dac" ∧ name = "dac-configuration" then
    .ok { Data := [("data-services-url", "http://ds.example:9000"),
                   ("expert-agent-registry", "http://registry.example:9000")] }
  else sampleConfigMaps ns name

/-- The sample cluster with the platform configuration, before any child exists. -/
def platformCluster : GenEnv :=
  clusterEnv (.error notFoundError) (.error notFoundError) platformConfigMaps sampleDescriptors 0

/-- The variable `name` as each container of a generated deployment sees it. -/
def containerEnvValues (r : Except String Deployment) (name : String) :
    List (String × Option String) :=
  match r with
  | .ok d => d.Spec.Containers.map (fun k => (k.Name, envValue k.Env name))
  | .error _ => []

/-- An error of the cluster other than not-found. -/
def forbiddenError : K8sError :=
  { notFound := false, text := "services is forbidden" }

/-- The sample cluster in which both lookups of children fail with `forbiddenError`. -/
def forbiddenCluster : GenEnv :=
  clusterEnv (.error forbiddenError) (.error forbiddenError) sampleConfigMaps sampleDescriptors 0

/-- The metadata of the first source of a descriptor; empty when there is no source. -/
def firstSourceMetadata (dataDescriptor : DataDescriptor) : StringMap :=
  match dataDescriptor.Spec.Sources with
  | s0 :: _ => s0.Metadata
  | [] => []

/-- One `:key:value` pair for every entry, in the order of the list. -/
def pairsText : StringMap → String
  | [] => ""
  | (key, value) :: rest => ":" ++ key ++ ":" ++ value ++ pairsText rest

/-- The sample Agent Container with a selector that holds padded and blank entries. -/
def paddedAgent : DataAgentContainer :=
  { sampleAgent with
    Spec := { sampleAgent.Spec with
      DataPolicy := { SourceNameSelector := [" db1 ", "  ", "db2", ""] } } }

/-! ## The user use case of the API server -/

/-- An error value of the API server: one of the sentinels of package `domain`
(`errors.New`), a `DomainError` with its code, message and wrapped error, an error made by
`fmt.Errorf` with the verb `%w` after a text, or an error of a library or of the database
that wraps none of the sentinels. -/
inductive GoError where
  | sentinel (text : String)
  | domain (code message : String) (err : GoError)
  | wrapped (text : String) (err : GoError)
  | other (text : String)
deriving DecidableEq, Repr

def ErrNotFound : GoError := GoError.sentinel "resource not found"

def ErrAlreadyExists : GoError := GoError.sentinel "resource already exists"

def ErrInvalidInput : GoError := GoError.sentinel "invalid input"

/-- The Go method `Error()`: for a `DomainError` the format `%s: %s (%v)`, for a wrapping
error the text, `: ` and the text of the wrapped error. -/
def GoError.Error : GoError → String
  | .sentinel text => text
  | .domain code message err => code ++ ": " ++ message ++ " (" ++ err.Error ++ ")"
  | .wrapped text err => text ++ ": " ++ err.Error
  | .other text => text

/-- Go `errors.Is(err, target)` for a sentinel `target`: the chain of `Unwrap` is followed
until the sentinel itself is met. -/
def errorsIs : GoError → GoError → Bool
  | .sentinel text, target => decide (GoError.sentinel text = target)
  | .domain _ _ err, target => errorsIs err target
  | .wrapped _ err, target => errorsIs err target
  | .other _, _ => false

def NewNotFoundError (resourceType name : String) : GoError :=
  GoError.domain "NOT_FOUND" (resourceType ++ " \x27" ++ name ++ "\x27 not found") ErrNotFound

def NewAlreadyExistsError (resourceType name : String) : GoError :=
  GoError.domain "ALREADY_EXISTS" (resourceType ++ " \x27" ++ name ++ "\x27 already exists")
    ErrAlreadyExists

def NewInvalidInputError (message : String) : GoError :=
  GoError.domain "INVALID_INPUT" message ErrInvalidInput

def IsNotFound (err : GoError) : Bool :=
  errorsIs err ErrNotFound

def IsInvalidInput (err : GoError) : Bool :=
  errorsIs err ErrInvalidInput

/-- The entity `User`; times are instants, the two optional ones may be nil. -/
structure User where
  ID : String
  Username : String
  PasswordHash : String
  LastLoginAt : Option Time
  DeletedAt : Option Time
  CreatedAt : Time
  UpdatedAt : Time
deriving DecidableEq, Repr

/-- A call of the use case to the user repository. -/
inductive UserCall where
  | GetByUsername (username : String)
  | Create (username passwordHash : String)
  | UpdateLastLogin (userID : String)
deriving DecidableEq, Repr

/-- The collaborators of the use case. The repository methods answer from the history of
calls; a result `(*entity.User, error)` is the error when it is non-nil and else the user
pointer, which may be nil. `GenerateFromPassword` and `CompareHashAndPassword` are those of
the bcrypt library. -/
structure UserEnv where
  GetByUsername : List UserCall → String → Except GoError (Option User)
  Create : List UserCall → String → String → Except GoError (Option User)
  GenerateFromPassword : List UserCall → String → Except GoError String
  CompareHashAndPassword : String → String → Option GoError

/-- The character class `[a-zA-Z0-9_]`. -/
def isUsernameChar (c : Char) : Bool :=
  c.isLower || c.isUpper || c.isDigit || c == Char.ofNat 95

/-- The match of the regular expression `^[a-zA-Z0-9_]{3,50}$` on the whole text. -/
def usernameRegexMatch (username : String) : Bool :=
  username.data.all isUsernameChar && decide (3 ≤ username.data.length) &&
    decide (username.data.length ≤ 50)

/-- The Go `validateRegisterRequest`; `len(password)` is the length in bytes. -/
def validateRegisterRequest (username password : String) : Option GoError :=
  if usernameRegexMatch username = false then
    some (NewInvalidInputError
      "username must be 3-50 characters and contain only letters, numbers, and underscores")
  else if password.utf8ByteSize < 6 then
    some (NewInvalidInputError "password must be at least 6 characters")
  else if password.utf8ByteSize > 72 then
    some (NewInvalidInputError "password too long (max 72 characters)")
  else none

/-- The Go `hashPassword`. -/
def hashPassword (env : UserEnv) (tr : List UserCall) (password : String) :
    Except GoError String :=
  env.GenerateFromPassword tr password

/-- The Go `verifyPassword`. -/
def verifyPassword (env : UserEnv) (hash password : String) : Option GoError :=
  env.CompareHashAndPassword hash password

/-- The part of `Register` after the check of the username: hash the password and create
the user. The result is `none` when the repository answers a nil user without error, since
`user.ID` is then read through a nil pointer. -/
def registerCreate (env : UserEnv) (tr : List UserCall) (username password : String) :
    Option (Except GoError User) × List UserCall :=
  match hashPassword env tr password with
  | .error err => (some (.error (GoError.wrapped "failed to hash password" err)), [])
  | .ok passwordHash =>
    let c := UserCall.Create username passwordHash
    match env.Create tr username passwordHash with
    | .error err => (some (.error (GoError.wrapped "failed to create user" err)), [c])
    | .ok none => (none, [c])
    | .ok (some user) => (some (.ok user), [c])

/-- The Go `Register`: the returned user or error (`none` when the call ends in a nil
dereference instead of returning), and the repository calls made. -/
def Register (env : UserEnv) (tr : List UserCall) (username password : String) :
    Option (Except GoError User) × List UserCall :=
  match validateRegisterRequest username password with
  | some err => (some (.error err), [])
  | none =>
    let c := UserCall.GetByUsername username
    match env.GetByUsername tr username with
    | .ok (some _) => (some (.error (NewAlreadyExistsError "User" username)), [c])
    | .ok none =>
      let r := registerCreate env (tr ++ [c]) username password
      (r.1, c :: r.2)
    | .error err =>
      if IsNotFound err = false then
        (some (.error (GoError.wrapped "failed to check username" err)), [c])
      else
        let r := registerCreate env (tr ++ [c]) username password
        (r.1, c :: r.2)

/-- The Go `Login`: the returned user or error (`none` when the call ends in a nil
dereference), and the repository calls made, the last login being updated by a goroutine
started before the return. -/
def Login (env : UserEnv) (tr : List UserCall) (username password : String) :
    Option (Except GoError User) × List UserCall :=
  let c := UserCall.GetByUsername username
  match env.GetByUsername tr username with
  | .error err =>
    if IsNotFound err then
      (some (.error (NewInvalidInputError "invalid username or password")), [c])
    else (some (.error (GoError.wrapped "failed to get user" err)), [c])
  | .ok none => (none, [c])
  | .ok (some user) =>
    match verifyPassword env user.PasswordHash password with
    | some _ => (some (.error (NewInvalidInputError "invalid username or password")), [c])
    | none => (some (.ok user), [c, UserCall.UpdateLastLogin user.ID])

/-- A registered user `alice`, for closed instances. -/
def alice : User :=
  { ID := "u1", Username := "alice", PasswordHash := "hash:secret1", LastLoginAt := none,
    DeletedAt := none, CreatedAt := 1, UpdatedAt := 1 }

/-- A repository that holds `alice` only, with a stand-in for bcrypt: the hash of a
password is `hash:` followed by it. -/
def aliceEnv : UserEnv :=
  { GetByUsername := fun _ username =>
      if username = "alice" then .ok (some alice) else .error (NewNotFoundError "User" username)
    Create := fun _ username passwordHash =>
      .ok (some { ID := "u2", Username := username, PasswordHash := passwordHash,
                  LastLoginAt := none, DeletedAt := none, CreatedAt := 2, UpdatedAt := 2 })
    GenerateFromPassword := fun _ password => .ok ("hash:" ++ password)
    CompareHashAndPassword := fun hash password =>
      if hash = "hash:" ++ password then none
      else some (GoError.other
        "crypto/bcrypt: hashedPassword is not the hash of the given password") }

/-- Three MySQL sources, never reconciled: `a` and `c` with a host, `b` without. -/
def mixedDescriptor : DataDescriptor :=
  descriptorOf [plainSource "mysql" "a" [("host", "db")], plainSource "mysql" "b" [],
      plainSource "mysql" "c" [("host", "db")]]
    emptyStatus

end DAC

namespace DAC

/-! ## Lemmas on the loop of the status pass -/

theorem handleDDStatusStep_eq (env : Env) (taskIDs : StringMap) (i : Nat) (source : DataSource)
    (st : StatusLoopState) :
    handleDDStatusStep env taskIDs i source st =
      { sourceStatuses := st.sourceStatuses.set i (entryOf (source, sourceCheck env taskIDs st.trace source)),
        allHealthy := st.allHealthy && isHealthy (source, sourceCheck env taskIDs st.trace source),
        aggregatedErrors := st.aggregatedErrors ++
          (errorOf (source, sourceCheck env taskIDs st.trace source)).toList,
        aggregatedNotReady := st.aggregatedNotReady ++
          (if isNotReady (source, sourceCheck env taskIDs st.trace source) then [source.Name]
            else []),
        trace := traceAfterCheck env taskIDs st.trace source } := by
  unfold traceAfterCheck handleDDStatusStep sourceCheck isHealthy isNotReady errorOf entryOf
  cases hE : (checkSourceStatus env st.trace source (taskFor taskIDs source)).1.Error with
  | some e => simp [hE]
  | none =>
    by_cases hP : (checkSourceStatus env st.trace source (taskFor taskIDs source)).1.Phase = "Ready"
    · simp [hE, hP]
    · simp [hE, hP]

theorem set_at_length_append_replicate {α : Type} (pre : List α) (n : Nat) (d e : α) :
    (pre ++ List.replicate (n + 1) d).set pre.length e = (pre ++ [e]) ++ List.replicate n d := by
  induction pre with
  | nil => simp [List.replicate_succ]
  | cons x xs ih => simpa using ih

theorem handleDDStatusLoop_eq (env : Env) (taskIDs : StringMap) (srcs : List DataSource) :
    ∀ (pre : List SourceStatus) (st : StatusLoopState),
      st.sourceStatuses = pre ++ List.replicate srcs.length default →
      handleDDStatusLoop env taskIDs srcs pre.length st =
        { sourceStatuses := pre ++ (checkedSources env taskIDs srcs st.trace).map entryOf,
          allHealthy := st.allHealthy && (checkedSources env taskIDs srcs st.trace).all isHealthy,
          aggregatedErrors := st.aggregatedErrors ++
            (checkedSources env taskIDs srcs st.trace).filterMap errorOf,
          aggregatedNotReady := st.aggregatedNotReady ++
            ((checkedSources env taskIDs srcs st.trace).filter isNotReady).map (fun p => p.1.Name),
          trace := traceAfterChecks env taskIDs srcs st.trace } := by
  induction srcs with
  | nil =>
    intro pre st h
    simp [handleDDStatusLoop, checkedSources, traceAfterChecks] at h ⊢
    cases st
    simp_all
  | cons source rest ih =>
    intro pre st h
    have hstep := handleDDStatusStep_eq env taskIDs pre.length source st
    have hlen : (pre ++ [entryOf (source, sourceCheck env taskIDs st.trace source)]).length
        = pre.length + 1 := by simp
    unfold handleDDStatusLoop
    rw [← hlen, ih (pre ++ [entryOf (source, sourceCheck env taskIDs st.trace source)])
      (handleDDStatusStep env taskIDs pre.length source st)]
    · rw [hstep]
      simp only [checkedSources, traceAfterChecks, List.map_cons, List.all_cons,
        List.filterMap_cons, List.filter_cons, List.append_assoc, List.singleton_append,
        Bool.and_assoc]
      cases hE : errorOf (source, sourceCheck env taskIDs st.trace source) <;>
        cases hN : isNotReady (source, sourceCheck env taskIDs st.trace source) <;>
        simp
    · rw [hstep, h]
      exact set_at_length_append_replicate pre rest.length default _

theorem statusLoopResult_eq (env : Env) (tr : List Call) (dd : DataDescriptor)
    (taskIDs : StringMap) :
    statusLoopResult env tr dd taskIDs =
      { sourceStatuses := (checkedSources env taskIDs dd.Spec.Sources tr).map entryOf,
        allHealthy := (checkedSources env taskIDs dd.Spec.Sources tr).all isHealthy,
        aggregatedErrors := (checkedSources env taskIDs dd.Spec.Sources tr).filterMap errorOf,
        aggregatedNotReady :=
          ((checkedSources env taskIDs dd.Spec.Sources tr).filter isNotReady).map (fun p => p.1.Name),
        trace := traceAfterChecks env taskIDs dd.Spec.Sources tr } := by
  have h := handleDDStatusLoop_eq env taskIDs dd.Spec.Sources []
    { sourceStatuses := List.replicate dd.Spec.Sources.length default, allHealthy := true,
      aggregatedErrors := [], aggregatedNotReady := [], trace := tr } (by simp)
  simpa [statusLoopResult] using h

/-! ## Lemmas on the per-source check -/

theorem taskStatusResult_ready_no_error (source : DataSource) (taskID : String)
    (statusResp : TaskStatusResponse)
    (h : (taskStatusResult source taskID statusResp).Phase = "Ready") :
    (taskStatusResult source taskID statusResp).Error = none := by
  unfold taskStatusResult at h ⊢
  dsimp only at h ⊢
  split_ifs at h ⊢ <;> simp_all

theorem checkHost_ready_no_error (env : Env) (tr : List Call) (source : DataSource)
    (kind : String) (records : Int) (h : (checkHost env tr source kind records).Phase = "Ready") :
    (checkHost env tr source kind records).Error = none := by
  unfold checkHost at h ⊢
  split at h
  · split_ifs at h ⊢ <;> simp_all
  · simp_all

theorem checkDataSourceConnectivity_ready_no_error (env : Env) (tr : List Call)
    (source : DataSource) (h : (checkDataSourceConnectivity env tr source).Phase = "Ready") :
    (checkDataSourceConnectivity env tr source).Error = none := by
  unfold checkDataSourceConnectivity at h ⊢
  unfold checkMySQLStatus checkPostgresStatus checkMinIOStatus checkFileserverStatus at h ⊢
  split_ifs at h ⊢
  · simp at h
  · exact checkHost_ready_no_error env tr source _ _ h
  · exact checkHost_ready_no_error env tr source _ _ h
  · exact checkHost_ready_no_error env tr source _ _ h
  · exact checkHost_ready_no_error env tr source _ _ h
  · simp at h

theorem checkSourceStatus_ready_no_error (env : Env) (tr : List Call) (source : DataSource)
    (taskID : String) (h : (checkSourceStatus env tr source taskID).1.Phase = "Ready") :
    (checkSourceStatus env tr source taskID).1.Error = none := by
  unfold checkSourceStatus at h ⊢
  split_ifs at h ⊢ with hT
  · cases hG : env.GetTaskStatus tr taskID with
    | error e => simp [hG] at h
    | ok resp =>
      simp only [hG] at h ⊢
      exact taskStatusResult_ready_no_error source taskID resp h
  · exact checkDataSourceConnectivity_ready_no_error env tr source h

theorem checkedSources_mem (env : Env) (taskIDs : StringMap) (srcs : List DataSource) :
    ∀ (tr : List Call) (p : DataSource × SourceStatusResult),
      p ∈ checkedSources env taskIDs srcs tr →
      p.1 ∈ srcs ∧ ∃ tr1, p.2 = sourceCheck env taskIDs tr1 p.1 := by
  induction srcs with
  | nil => intro tr p h; simp [checkedSources] at h
  | cons source rest ih =>
    intro tr p h
    simp only [checkedSources, List.mem_cons] at h
    rcases h with h | h
    · subst h
      exact ⟨by simp, tr, rfl⟩
    · obtain ⟨h1, h2⟩ := ih _ p h
      exact ⟨List.mem_cons_of_mem _ h1, h2⟩

theorem checkedSources_ready_no_error (env : Env) (taskIDs : StringMap) (srcs : List DataSource)
    (tr : List Call) (p : DataSource × SourceStatusResult)
    (hp : p ∈ checkedSources env taskIDs srcs tr) (h : p.2.Phase = "Ready") :
    p.2.Error = none := by
  obtain ⟨_, tr1, h2⟩ := checkedSources_mem env taskIDs srcs tr p hp
  rw [h2] at h ⊢
  exact checkSourceStatus_ready_no_error env tr1 p.1 _ h

theorem checkedSources_map_fst (env : Env) (taskIDs : StringMap) (srcs : List DataSource) :
    ∀ tr : List Call, (checkedSources env taskIDs srcs tr).map Prod.fst = srcs := by
  induction srcs with
  | nil => intro tr; rfl
  | cons source rest ih => intro tr; simp [checkedSources, ih]

theorem buildNewStatus_sourceStatuses (env : Env) (tr : List Call) (dd : DataDescriptor)
    (taskIDs : StringMap) :
    (buildNewStatus env tr dd taskIDs).SourceStatuses =
      (checkedSources env taskIDs dd.Spec.Sources tr).map entryOf := by
  unfold buildNewStatus
  simp only [statusLoopResult_eq]
  split_ifs <;> rfl

theorem buildNewStatus_overallPhase (env : Env) (tr : List Call) (dd : DataDescriptor)
    (taskIDs : StringMap) :
    (buildNewStatus env tr dd taskIDs).OverallPhase =
      if (checkedSources env taskIDs dd.Spec.Sources tr).all isHealthy then "Ready"
      else "NotReady" := by
  unfold buildNewStatus
  simp only [statusLoopResult_eq]
  split_ifs <;> rfl

theorem buildNewStatus_consumedBy (env : Env) (tr : List Call) (dd : DataDescriptor)
    (taskIDs : StringMap) : (buildNewStatus env tr dd taskIDs).ConsumedBy = none := by
  unfold buildNewStatus
  simp only []
  split_ifs <;> rfl

theorem all_isHealthy_iff (env : Env) (taskIDs : StringMap) (srcs : List DataSource)
    (tr : List Call) :
    (checkedSources env taskIDs srcs tr).all isHealthy = true ↔
      ∀ s ∈ (checkedSources env taskIDs srcs tr).map entryOf, s.Phase = "Ready" := by
  constructor
  · intro h s hs
    rw [List.mem_map] at hs
    obtain ⟨p, hp, rfl⟩ := hs
    have := List.all_eq_true.mp h p hp
    simp [isHealthy] at this
    exact this.2
  · intro h
    rw [List.all_eq_true]
    intro p hp
    have hR : p.2.Phase = "Ready" := h (entryOf p) (List.mem_map_of_mem _ hp)
    have hE := checkedSources_ready_no_error env taskIDs srcs tr p hp hR
    simp [isHealthy, hR, hE]

/-! ## Lemmas on the trigger pass -/

theorem mapGet_filter_ne (m : StringMap) (k key : String) (h : k ≠ key) :
    mapGet (m.filter (fun kv => kv.1 != k)) key = mapGet m key := by
  induction m with
  | nil => rfl
  | cons kv rest ih =>
    obtain ⟨a, b⟩ := kv
    by_cases ha : a = k
    · subst ha
      simp only [List.filter_cons, bne_self_eq_false, Bool.false_eq_true, if_false, mapGet,
        if_neg h]
      exact ih
    · have hb : (a != k) = true := by simpa using ha
      simp only [List.filter_cons, hb, if_true, mapGet, ih]

theorem mapGet_mapSet (m : StringMap) (k v key : String) :
    mapGet (mapSet m k v) key = if k = key then some v else mapGet m key := by
  unfold mapSet
  by_cases h : k = key
  · simp [mapGet, h]
  · simp only [mapGet, if_neg h]
    exact mapGet_filter_ne m k key h

theorem existingTaskID_congr (dd : DataDescriptor) (s1 s2 : DataSource) (h : s1.Name = s2.Name) :
    existingTaskID dd s1 = existingTaskID dd s2 := by
  unfold existingTaskID
  rw [h]

theorem getFewshots_trace (env : Env) (tr : List Call) (dd : DataDescriptor) (name : String) :
    ∃ calls, (getFewshotsAndBackgroudKnowledgeFromConfigmap env tr dd name).2 = tr ++ calls ∧
      ∀ c ∈ calls, c = Call.GetConfigMap dd.Namespace name := by
  unfold getFewshotsAndBackgroudKnowledgeFromConfigmap
  split_ifs with h
  · exact ⟨[], by simp, by simp⟩
  · refine ⟨[Call.GetConfigMap dd.Namespace name], ?_, by simp⟩
    dsimp only
    split
    · rfl
    · split
      · rfl
      · split <;> rfl

theorem resolvePrompts_trace (env : Env) (tr : List Call) (dd : DataDescriptor)
    (source : DataSource) :
    ∃ calls, (resolvePrompts env tr dd source).2 = tr ++ calls ∧
      ∀ c ∈ calls, c = Call.GetConfigMap dd.Namespace source.Prompts.Prompts.Name := by
  obtain ⟨c, hc, hcm⟩ := getFewshots_trace env tr dd source.Prompts.Prompts.Name
  refine ⟨c, ?_, hcm⟩
  unfold resolvePrompts
  dsimp only
  split <;> exact hc

/-- The calls of the trigger pass: the history only grows, and every trigger request is
the AddOrUpdate request of a declared source without a recorded task. -/
theorem handleDDLoop_trace (env : Env) (dd : DataDescriptor) (srcs : List DataSource) :
    ∀ (taskIDs : StringMap) (tr : List Call),
      ∃ calls, (handleDDLoop env dd srcs taskIDs tr).2 = tr ++ calls ∧
        ∀ req, Call.TriggerTask req ∈ calls →
          ∃ s ∈ srcs, existingTaskID dd s = none ∧ ∃ prompts, req = addOrUpdateRequest dd s prompts := by
  induction srcs with
  | nil => intro taskIDs tr; exact ⟨[], by simp [handleDDLoop], by simp⟩
  | cons source rest ih =>
    intro taskIDs tr
    obtain ⟨c1, hc1, hc1m⟩ := resolvePrompts_trace env tr dd source
    rw [handleDDLoop]
    dsimp only
    generalize resolvePrompts env tr dd source = p at hc1 ⊢
    have hnot : ∀ req, Call.TriggerTask req ∉ c1 := by
      intro req hreq
      have := hc1m _ hreq
      cases this
    cases hE : existingTaskID dd source with
    | some taskID =>
      dsimp only
      obtain ⟨c2, hc2, hc2m⟩ := ih (mapSet taskIDs source.Name taskID) p.2
      refine ⟨c1 ++ c2, by rw [hc2, hc1, List.append_assoc], ?_⟩
      intro req hreq
      rcases List.mem_append.mp hreq with h | h
      · exact absurd h (hnot req)
      · obtain ⟨s, hs, hs2⟩ := hc2m req h
        exact ⟨s, List.mem_cons_of_mem _ hs, hs2⟩
    | none =>
      dsimp only
      have hrq : ∃ prompts, addOrUpdateRequest dd source p.1 = addOrUpdateRequest dd source prompts :=
        ⟨p.1, rfl⟩
      generalize addOrUpdateRequest dd source p.1 = rq at hrq ⊢
      cases hT : env.TriggerTask p.2 rq with
      | error err =>
        dsimp only
        refine ⟨c1 ++ [Call.TriggerTask rq], by rw [hc1, List.append_assoc], ?_⟩
        intro req hreq
        rcases List.mem_append.mp hreq with h | h
        · exact absurd h (hnot req)
        · simp only [List.mem_singleton, Call.TriggerTask.injEq] at h
          subst h
          exact ⟨source, by simp, hE, hrq⟩
      | ok taskID =>
        dsimp only
        obtain ⟨c2, hc2, hc2m⟩ := ih (mapSet taskIDs source.Name taskID)
          (p.2 ++ [Call.TriggerTask rq])
        refine ⟨c1 ++ [Call.TriggerTask rq] ++ c2, by rw [hc2, hc1]; simp, ?_⟩
        intro req hreq
        rcases List.mem_append.mp hreq with h | h
        · rcases List.mem_append.mp h with h | h
          · exact absurd h (hnot req)
          · simp only [List.mem_singleton, Call.TriggerTask.injEq] at h
            subst h
            exact ⟨source, by simp, hE, hrq⟩
        · obtain ⟨s, hs, hs2⟩ := hc2m req h
          exact ⟨s, List.mem_cons_of_mem _ hs, hs2⟩

/-- The task identifiers of the trigger pass: a name whose recorded task is `t` maps to `t`
once a source of that name was seen. -/
theorem handleDDLoop_taskIDs (env : Env) (dd : DataDescriptor) (srcs : List DataSource) :
    ∀ (taskIDs : StringMap) (tr : List Call) (m : StringMap),
      (handleDDLoop env dd srcs taskIDs tr).1 = Except.ok m →
      ∀ (source : DataSource) (t : String), existingTaskID dd source = some t →
        (mapGet taskIDs source.Name = some t ∨ ∃ s ∈ srcs, s.Name = source.Name) →
        mapGet m source.Name = some t := by
  induction srcs with
  | nil =>
    intro taskIDs tr m h source t _ hor
    simp only [handleDDLoop, Except.ok.injEq] at h
    subst h
    rcases hor with h | ⟨s, hs, _⟩
    · exact h
    · cases hs
  | cons s0 rest ih =>
    intro taskIDs tr m h source t ht hor
    rw [handleDDLoop] at h
    dsimp only at h
    have key : ∀ x : String, (existingTaskID dd s0 = some x ∨ existingTaskID dd s0 = none) →
        (mapGet (mapSet taskIDs s0.Name x) source.Name = some t ∨
          ∃ s ∈ rest, s.Name = source.Name) := by
      intro x hx
      by_cases hn : s0.Name = source.Name
      · left
        rw [mapGet_mapSet, if_pos hn]
        have := existingTaskID_congr dd s0 source hn
        rw [ht] at this
        rcases hx with hx | hx
        · rw [hx] at this; exact this
        · rw [hx] at this; cases this
      · rcases hor with h1 | ⟨s, hs, hs2⟩
        · left
          rw [mapGet_mapSet, if_neg hn]
          exact h1
        · rcases List.mem_cons.mp hs with h3 | h3
          · subst h3; exact absurd hs2 hn
          · exact Or.inr ⟨s, h3, hs2⟩
    cases hE : existingTaskID dd s0 with
    | some taskID =>
      rw [hE] at h
      exact ih _ _ m h source t ht (key taskID (Or.inl hE))
    | none =>
      rw [hE] at h
      dsimp only at h
      split at h
      · cases h
      · exact ih _ _ m h source t ht (key _ (Or.inr hE))

/-! ## Lemmas on the calls of the status pass -/

theorem checkSourceStatus_trace (env : Env) (tr : List Call) (source : DataSource)
    (taskID : String) :
    (checkSourceStatus env tr source taskID).2 =
      tr ++ (if taskID ≠ "" then [Call.GetTaskStatus taskID] else []) := by
  unfold checkSourceStatus
  split_ifs with h
  · split <;> rfl
  · simp

theorem traceAfterCheck_eq (env : Env) (taskIDs : StringMap) (tr : List Call)
    (source : DataSource) :
    traceAfterCheck env taskIDs tr source =
      tr ++ (if taskFor taskIDs source ≠ "" then [Call.GetTaskStatus (taskFor taskIDs source)] else [])
        ++ (if isHealthy (source, sourceCheck env taskIDs tr source) then
              [Call.EventNormal "TaskTriggered"
                ("Task " ++ (sourceCheck env taskIDs tr source).TaskID ++
                  " Completed for data source " ++ source.Name)]
            else []) := by
  rw [← checkSourceStatus_trace env tr source (taskFor taskIDs source)]
  unfold traceAfterCheck handleDDStatusStep sourceCheck isHealthy
  cases hE : (checkSourceStatus env tr source (taskFor taskIDs source)).1.Error with
  | some e => simp [hE]
  | none =>
    by_cases hP : (checkSourceStatus env tr source (taskFor taskIDs source)).1.Phase = "Ready"
    · simp [hE, hP]
    · simp [hE, hP]

/-- The calls of the status pass: the history only grows, and every declared source whose
task identifier is not empty is polled with it. -/
theorem traceAfterChecks_trace (env : Env) (taskIDs : StringMap) (srcs : List DataSource) :
    ∀ tr : List Call, ∃ calls, traceAfterChecks env taskIDs srcs tr = tr ++ calls ∧
      ∀ s ∈ srcs, taskFor taskIDs s ≠ "" → Call.GetTaskStatus (taskFor taskIDs s) ∈ calls := by
  induction srcs with
  | nil => intro tr; exact ⟨[], by simp [traceAfterChecks], by simp⟩
  | cons source rest ih =>
    intro tr
    obtain ⟨c2, h2, h2m⟩ := ih (traceAfterCheck env taskIDs tr source)
    rw [traceAfterCheck_eq] at h2
    refine ⟨((if taskFor taskIDs source ≠ "" then [Call.GetTaskStatus (taskFor taskIDs source)]
        else []) ++
        (if isHealthy (source, sourceCheck env taskIDs tr source) then
          [Call.EventNormal "TaskTriggered"
            ("Task " ++ (sourceCheck env taskIDs tr source).TaskID ++
              " Completed for data source " ++ source.Name)]
        else [])) ++ c2, by rw [traceAfterChecks, traceAfterCheck_eq, h2]; simp only [List.append_assoc], ?_⟩
    intro s hs hne
    rcases List.mem_cons.mp hs with h | h
    · subst h
      simp [hne]
    · exact List.mem_append_right _ (h2m s h hne)

theorem handleDDStatus_trace_eq (env : Env) (tr : List Call) (dd : DataDescriptor)
    (taskIDs : StringMap) :
    (handleDDStatus env tr dd taskIDs).2.2 =
      (statusLoopResult env tr dd taskIDs).trace ++ [aggregateEvent (statusLoopResult env tr dd taskIDs)]
        ++ (if isStatusEqualIgnoringTime dd.Status (buildNewStatus env tr dd taskIDs) = false then
              [Call.StatusUpdate { dd with Status := buildNewStatus env tr dd taskIDs }]
            else []) := by
  unfold handleDDStatus
  dsimp only
  by_cases h : isStatusEqualIgnoringTime dd.Status (buildNewStatus env tr dd taskIDs) = false
  · rw [if_pos h, if_pos h]
    split <;> simp
  · rw [if_neg h, if_neg h]
    simp

theorem handleDDStatus_dd_eq (env : Env) (tr : List Call) (dd : DataDescriptor)
    (taskIDs : StringMap) :
    (handleDDStatus env tr dd taskIDs).2.1 =
      if isStatusEqualIgnoringTime dd.Status (buildNewStatus env tr dd taskIDs) = false then
        { dd with Status := buildNewStatus env tr dd taskIDs }
      else dd := by
  unfold handleDDStatus
  dsimp only
  by_cases h : isStatusEqualIgnoringTime dd.Status (buildNewStatus env tr dd taskIDs) = false
  · rw [if_pos h, if_pos h]
    split <;> rfl
  · rw [if_neg h, if_neg h]

theorem handleDDStatus_trace (env : Env) (tr : List Call) (dd : DataDescriptor)
    (taskIDs : StringMap) :
    ∃ calls, (handleDDStatus env tr dd taskIDs).2.2 = tr ++ calls ∧
      ∀ s ∈ dd.Spec.Sources, taskFor taskIDs s ≠ "" →
        Call.GetTaskStatus (taskFor taskIDs s) ∈ calls := by
  obtain ⟨c, hc, hcm⟩ := traceAfterChecks_trace env taskIDs dd.Spec.Sources tr
  rw [handleDDStatus_trace_eq]
  have ht : (statusLoopResult env tr dd taskIDs).trace = tr ++ c := by
    rw [statusLoopResult_eq]
    exact hc
  rw [ht]
  generalize ([aggregateEvent (statusLoopResult env tr dd taskIDs)]) = l1
  generalize (if isStatusEqualIgnoringTime dd.Status (buildNewStatus env tr dd taskIDs) = false then
      [Call.StatusUpdate { dd with Status := buildNewStatus env tr dd taskIDs }] else []) = l2
  refine ⟨c ++ l1 ++ l2, by simp only [List.append_assoc], ?_⟩
  intro s hs hne
  simp only [List.append_assoc, List.mem_append]
  exact Or.inl (hcm s hs hne)

/-! ## Lemmas on the time-insensitive equality -/

theorem conditionsEqualLoop_iff (xs : List Condition) :
    ∀ ys : List Condition, xs.length = ys.length →
      (conditionsEqualLoop xs ys = true ↔
        ∀ (i : Nat) (h1 : i < xs.length) (h2 : i < ys.length),
          xs[i].Typ = ys[i].Typ ∧ xs[i].Status = ys[i].Status ∧
          xs[i].Reason = ys[i].Reason ∧ xs[i].Message = ys[i].Message) := by
  induction xs with
  | nil =>
    intro ys hl
    cases ys with
    | nil => simp [conditionsEqualLoop]
    | cons y ys => simp at hl
  | cons x xs ih =>
    intro ys hl
    cases ys with
    | nil => simp at hl
    | cons y ys =>
      have hl2 : xs.length = ys.length := by simpa using hl
      rw [conditionsEqualLoop]
      constructor
      · intro h
        split_ifs at h with hc
        have hc2 : x.Typ = y.Typ ∧ x.Status = y.Status ∧ x.Reason = y.Reason ∧
            x.Message = y.Message := by
          simp only [ne_eq, not_or, not_not] at hc
          exact hc
        intro i h1 h2
        cases i with
        | zero => simpa using hc2
        | succ j =>
          have := (ih ys hl2).mp h j (by simpa using h1) (by simpa using h2)
          simpa using this
      · intro h
        have h0 := h 0 (by simp) (by simp)
        simp only [List.getElem_cons_zero] at h0
        have hc : ¬ (x.Typ ≠ y.Typ ∨ x.Status ≠ y.Status ∨ x.Reason ≠ y.Reason ∨
            x.Message ≠ y.Message) := by
          simp only [ne_eq, not_or, not_not]
          exact h0
        rw [if_neg hc]
        apply (ih ys hl2).mpr
        intro i h1 h2
        have := h (i + 1) (by simpa using h1) (by simpa using h2)
        simpa using this

theorem sourceStatusesEqualLoop_iff (xs : List SourceStatus) :
    ∀ ys : List SourceStatus, xs.length = ys.length →
      (sourceStatusesEqualLoop xs ys = true ↔
        ∀ (i : Nat) (h1 : i < xs.length) (h2 : i < ys.length),
          xs[i].Name = ys[i].Name ∧ xs[i].Phase = ys[i].Phase ∧
          xs[i].Records = ys[i].Records ∧ xs[i].TaskID = ys[i].TaskID) := by
  induction xs with
  | nil =>
    intro ys hl
    cases ys with
    | nil => simp [sourceStatusesEqualLoop]
    | cons y ys => simp at hl
  | cons x xs ih =>
    intro ys hl
    cases ys with
    | nil => simp at hl
    | cons y ys =>
      have hl2 : xs.length = ys.length := by simpa using hl
      rw [sourceStatusesEqualLoop]
      constructor
      · intro h
        split_ifs at h with hc
        have hc2 : x.Name = y.Name ∧ x.Phase = y.Phase ∧ x.Records = y.Records ∧
            x.TaskID = y.TaskID := by
          simp only [ne_eq, not_or, not_not] at hc
          exact hc
        intro i h1 h2
        cases i with
        | zero => simpa using hc2
        | succ j =>
          have := (ih ys hl2).mp h j (by simpa using h1) (by simpa using h2)
          simpa using this
      · intro h
        have h0 := h 0 (by simp) (by simp)
        simp only [List.getElem_cons_zero] at h0
        have hc : ¬ (x.Name ≠ y.Name ∨ x.Phase ≠ y.Phase ∨ x.Records ≠ y.Records ∨
            x.TaskID ≠ y.TaskID) := by
          simp only [ne_eq, not_or, not_not]
          exact h0
        rw [if_neg hc]
        apply (ih ys hl2).mpr
        intro i h1 h2
        have := h (i + 1) (by simpa using h1) (by simpa using h2)
        simpa using this

/-! ## Lemmas on letter case -/

theorem char_toUpper_toLower (c : Char) : c.toLower.toUpper = c.toUpper := by
  have hc : Char.ofNat c.toNat = c := Char.ofNat_toNat c
  by_cases h : c.toNat ≥ 65 ∧ c.toNat ≤ 90
  · have h1 : c.toLower = Char.ofNat (c.toNat + 32) := by
      unfold Char.toLower
      simp only [h, and_self, if_true]
    have h2 : c.toUpper = c := by
      unfold Char.toUpper
      have : ¬ (c.toNat ≥ 97 ∧ c.toNat ≤ 122) := by omega
      simp only [this, if_false]
    rw [h1, h2]
    obtain ⟨ha, hb⟩ := h
    rw [← hc]
    generalize c.toNat = n at *
    interval_cases n <;> rfl
  · have h1 : c.toLower = c := by
      unfold Char.toLower
      simp only [h, if_false]
    rw [h1]

theorem char_toLower_toUpper (c : Char) : c.toUpper.toLower = c.toLower := by
  have hc : Char.ofNat c.toNat = c := Char.ofNat_toNat c
  by_cases h : c.toNat ≥ 97 ∧ c.toNat ≤ 122
  · have h1 : c.toUpper = Char.ofNat (c.toNat - 32) := by
      unfold Char.toUpper
      simp only [h, and_self, if_true]
    have h2 : c.toLower = c := by
      unfold Char.toLower
      have : ¬ (c.toNat ≥ 65 ∧ c.toNat ≤ 90) := by omega
      simp only [this, if_false]
    rw [h1, h2]
    obtain ⟨ha, hb⟩ := h
    rw [← hc]
    generalize c.toNat = n at *
    interval_cases n <;> rfl
  · have h1 : c.toUpper = c := by
      unfold Char.toUpper
      simp only [h, if_false]
    rw [h1]

theorem runeToUpper_toLower (c : Char) : runeToUpper c.toLower = runeToUpper c := by
  have hl : ∀ n : Nat, 65 ≤ n → n ≤ 90 → (Char.ofNat (n + 32)).toNat = n + 32 := by
    intro n ha hb
    interval_cases n <;> rfl
  by_cases h : c.toNat ≥ 65 ∧ c.toNat ≤ 90
  · have h1 : c.toLower = Char.ofNat (c.toNat + 32) := by
      unfold Char.toLower
      simp only [h, and_self, if_true]
    have h2 := hl c.toNat h.1 h.2
    have h3 := char_toUpper_toLower c
    rw [h1] at h3
    rw [h1]
    unfold runeToUpper
    rw [h2, if_neg (by omega), if_neg (by omega), if_neg (by omega), if_neg (by omega), h3]
  · have h1 : c.toLower = c := by
      unfold Char.toLower
      simp only [h, if_false]
    rw [h1]

theorem toUpper_toLower (s : String) : toUpper (toLower s) = toUpper s := by
  unfold toUpper toLower
  simp only [List.map_map]
  congr 1
  apply List.map_congr_left
  intro c _
  exact runeToUpper_toLower c

/-- Equality up to the case of the ASCII letters is seen by `strings.ToUpper`. -/
theorem toUpper_of_equalFold (s name : String) (hn : toUpper name = name)
    (h : equalFold s name) : toUpper s = name := by
  unfold equalFold at h
  rw [← toUpper_toLower s, h, toUpper_toLower, hn]

theorem runeToUpper_eq_iff (c n : Char) (hn : 65 ≤ n.toNat ∧ n.toNat ≤ 90) :
    runeToUpper c = n ↔ runeFoldsTo c n = true := by
  have char_ext : ∀ a b : Char, a.toNat = b.toNat → a = b := by
    intro a b h
    rw [← Char.ofNat_toNat a, ← Char.ofNat_toNat b, h]
  have hofNat : ∀ k : Nat, k < 128 → (Char.ofNat k).toNat = k := by
    intro k hk
    interval_cases k <;> rfl
  unfold runeFoldsTo
  simp only [Bool.or_eq_true, Bool.and_eq_true, beq_iff_eq]
  by_cases h1 : c.toNat = 0x17F
  · unfold runeToUpper
    rw [if_pos h1]
    constructor
    · intro h
      have h5 : n.toNat = 0x53 := by rw [← h]; rfl
      omega
    · intro h
      apply char_ext
      rw [hofNat 0x53 (by omega)]
      omega
  · by_cases h2 : c.toNat = 0x131
    · unfold runeToUpper
      rw [if_neg h1, if_pos h2]
      constructor
      · intro h
        have h5 : n.toNat = 0x49 := by rw [← h]; rfl
        omega
      · intro h
        apply char_ext
        rw [hofNat 0x49 (by omega)]
        omega
    · unfold runeToUpper
      rw [if_neg h1, if_neg h2]
      by_cases h3 : c.toNat ≥ 97 ∧ c.toNat ≤ 122
      · have hu : c.toUpper = Char.ofNat (c.toNat - 32) := by
          unfold Char.toUpper
          simp only [h3, and_self, if_true]
        have hv : (Char.ofNat (c.toNat - 32)).toNat = c.toNat - 32 := hofNat _ (by omega)
        rw [hu]
        constructor
        · intro h
          have h5 : n.toNat = c.toNat - 32 := by rw [← h, hv]
          omega
        · intro h
          apply char_ext
          rw [hv]
          omega
      · have hu : c.toUpper = c := by
          unfold Char.toUpper
          simp only [h3, if_false]
        rw [hu]
        constructor
        · intro h
          have h5 : n.toNat = c.toNat := by rw [h]
          omega
        · intro h
          apply char_ext
          omega

theorem map_runeToUpper_eq_iff (cs : List Char) :
    ∀ ns : List Char, (∀ n ∈ ns, 65 ≤ n.toNat ∧ n.toNat ≤ 90) →
      (cs.map runeToUpper = ns ↔ foldsToChars cs ns = true) := by
  induction cs with
  | nil =>
    intro ns _
    cases ns with
    | nil => simp [foldsToChars]
    | cons n ns => simp [foldsToChars]
  | cons c cs ih =>
    intro ns hn
    cases ns with
    | nil => simp [foldsToChars]
    | cons n ns =>
      have h1 := runeToUpper_eq_iff c n (hn n (List.mem_cons_self _ _))
      have h2 := ih ns (fun m hm => hn m (List.mem_cons_of_mem _ hm))
      simp only [List.map_cons, List.cons.injEq, foldsToChars, Bool.and_eq_true]
      rw [h1, h2]

/-- The switch on `strings.ToUpper(status)` is a comparison up to letter case: the
upper-cased status is a name written in ASCII capitals exactly when the status is that
name rune by rune, each rune being the capital, its small letter, or the long s for `S`
and the dotless i for `I`. -/
theorem toUpper_eq_iff_foldsTo (s name : String)
    (hn : ∀ n ∈ name.data, 65 ≤ n.toNat ∧ n.toNat ≤ 90) :
    toUpper s = name ↔ foldsTo s name = true := by
  unfold foldsTo
  rw [← map_runeToUpper_eq_iff s.data name.data hn]
  unfold toUpper
  constructor
  · intro h
    have := congrArg String.data h
    simpa using this
  · intro h
    rw [h]

/-! ## Lemmas on the returned error -/

theorem handleDDStatus_error_eq (env : Env) (tr : List Call) (dd : DataDescriptor)
    (taskIDs : StringMap) :
    (handleDDStatus env tr dd taskIDs).1 =
      match statusWriteError env tr dd taskIDs with
      | some err => some ("status update failed: " ++ err)
      | none =>
        if (statusLoopResult env tr dd taskIDs).aggregatedErrors.length > 0 then
          some (aggregatedErrorText (statusLoopResult env tr dd taskIDs).aggregatedErrors)
        else none := by
  unfold handleDDStatus statusWriteError
  dsimp only
  by_cases h : isStatusEqualIgnoringTime dd.Status (buildNewStatus env tr dd taskIDs) = false
  · rw [if_pos h, if_pos h]
    split <;> rename_i h2 <;> simp only [h2]
  · rw [if_neg h, if_neg h]

theorem filterMap_errorOf (l : List (DataSource × SourceStatusResult)) :
    l.filterMap errorOf =
      (l.filter (fun p => p.2.Error.isSome)).map
        (fun p => "data source " ++ p.1.Name ++ " error: " ++ p.2.Error.getD "") := by
  induction l with
  | nil => rfl
  | cons p rest ih =>
    cases hE : p.2.Error with
    | none => simp [List.filterMap_cons, List.filter_cons, errorOf, hE, ih]
    | some e => simp [List.filterMap_cons, List.filter_cons, errorOf, hE, ih]

theorem taskStatusResult_error_iff (source : DataSource) (taskID : String)
    (resp : TaskStatusResponse) :
    (taskStatusResult source taskID resp).Error ≠ none ↔
      (toUpper resp.Status = "FAILURE" ∨ toUpper resp.Status = "RETRY") := by
  unfold taskStatusResult
  dsimp only
  split_ifs <;> simp_all

theorem taskStatusResult_not_ready (source : DataSource) (taskID : String)
    (resp : TaskStatusResponse) (h : toUpper resp.Status ≠ "SUCCESS") :
    (taskStatusResult source taskID resp).Phase ≠ "Ready" := by
  unfold taskStatusResult
  dsimp only
  split_ifs <;> simp_all

theorem checkSourceStatus_polled (env : Env) (tr : List Call) (source : DataSource)
    (taskID : String) (resp : TaskStatusResponse) (hid : taskID ≠ "")
    (hpoll : env.GetTaskStatus tr taskID = Except.ok resp) :
    (checkSourceStatus env tr source taskID).1 = taskStatusResult source taskID resp := by
  unfold checkSourceStatus
  rw [if_pos hid]
  simp only [hpoll]

theorem checkSourceStatus_error_iff (env : Env) (tr : List Call) (source : DataSource)
    (taskID : String) :
    (checkSourceStatus env tr source taskID).1.Error ≠ none ↔
      (taskID ≠ "" ∧
        ((∃ err, env.GetTaskStatus tr taskID = Except.error err) ∨
          ∃ resp, env.GetTaskStatus tr taskID = Except.ok resp ∧
            (foldsTo resp.Status "FAILURE" = true ∨ foldsTo resp.Status "RETRY" = true))) ∨
      (taskID = "" ∧ (checkDataSourceConnectivity env tr source).Error ≠ none) := by
  by_cases hid : taskID = ""
  · subst hid
    simp [checkSourceStatus]
  · cases hG : env.GetTaskStatus tr taskID with
    | error e => simp [checkSourceStatus, hid, hG]
    | ok resp =>
      rw [checkSourceStatus_polled env tr source taskID resp hid hG, taskStatusResult_error_iff,
        toUpper_eq_iff_foldsTo _ "FAILURE" (by decide),
        toUpper_eq_iff_foldsTo _ "RETRY" (by decide)]
      simp [hid]

theorem isStatusEqualIgnoringTime_length (a b : DataDescriptorStatus)
    (h : isStatusEqualIgnoringTime a b = true) :
    a.SourceStatuses.length = b.SourceStatuses.length := by
  unfold isStatusEqualIgnoringTime at h
  by_contra hne
  split_ifs at h

/-! ## Lemmas on `DoAddOrUpdate` -/

theorem DoAddOrUpdate_ok (env : Env) (tr : List Call) (dd : DataDescriptor)
    (taskIDs : StringMap) (h : (handleDD env tr dd).1 = Except.ok taskIDs) :
    (DoAddOrUpdate env tr dd).1 =
        ((handleDDStatus env (handleDD env tr dd).2 dd taskIDs).1).map
          (fun err => "failed to update status: " ++ err) ∧
    (DoAddOrUpdate env tr dd).2 = (handleDDStatus env (handleDD env tr dd).2 dd taskIDs).2 := by
  unfold DoAddOrUpdate
  cases hh : handleDD env tr dd with
  | mk r tr1 =>
    rw [hh] at h
    simp only at h
    subst h
    dsimp only
    cases hs : handleDDStatus env tr1 dd taskIDs with
    | mk e rest =>
      cases rest with
      | mk dd1 tr2 =>
        cases e <;> simp

theorem containsText_of_eq (pre sub post text : String) (h : text = pre ++ sub ++ post) :
    containsText text sub := by
  subst h
  exact ⟨pre.data, post.data, by simp [String.data_append]⟩

/-! ## The claims -/

/-- C1: the status built by `handleDDStatus` has `OverallPhase == "Ready"` exactly when every
entry of the new `SourceStatuses` has phase `Ready`, and `"NotReady"` exactly when some
entry has not; a descriptor without sources is `Ready`; and no per-source check returns
phase `Ready` together with an error. -/
theorem C1_overall_phase_ready_iff_all_sources_ready (env : Env) (tr : List Call)
    (dd : DataDescriptor) (taskIDs : StringMap) :
    ((buildNewStatus env tr dd taskIDs).OverallPhase = "Ready" ↔
        ∀ s ∈ (buildNewStatus env tr dd taskIDs).SourceStatuses, s.Phase = "Ready") ∧
    ((buildNewStatus env tr dd taskIDs).OverallPhase = "NotReady" ↔
        ¬ ∀ s ∈ (buildNewStatus env tr dd taskIDs).SourceStatuses, s.Phase = "Ready") ∧
    (buildNewStatus env tr { dd with Spec := { dd.Spec with Sources := [] } } taskIDs).OverallPhase
        = "Ready" ∧
    (∀ (tr1 : List Call) (source : DataSource) (taskID : String),
        ¬ ((checkSourceStatus env tr1 source taskID).1.Phase = "Ready" ∧
          (checkSourceStatus env tr1 source taskID).1.Error ≠ none)) := by
  have hiff := all_isHealthy_iff env taskIDs dd.Spec.Sources tr
  refine ⟨?_, ?_, ?_, ?_⟩
  · rw [buildNewStatus_overallPhase, buildNewStatus_sourceStatuses, ← hiff]
    split_ifs with h <;> simp [h]
  · rw [buildNewStatus_overallPhase, buildNewStatus_sourceStatuses, ← hiff]
    split_ifs with h <;> simp [h]
  · rw [buildNewStatus_overallPhase]
    simp [checkedSources]
  · intro tr1 source taskID h
    exact h.2 (checkSourceStatus_ready_no_error env tr1 source taskID h.1)

/-- C2: when `handleDD` returns without error, the status built by `handleDDStatus` has as
many source statuses as there are declared sources, and at every index the status carries
the name of the declared source, whatever the checks return. -/
theorem C2_source_statuses_aligned (env : Env) (tr : List Call) (dd : DataDescriptor)
    (taskIDs : StringMap) (_h : (handleDD env tr dd).1 = Except.ok taskIDs) :
    (buildNewStatus env (handleDD env tr dd).2 dd taskIDs).SourceStatuses.length =
        dd.Spec.Sources.length ∧
    ∀ i : Nat,
      ((buildNewStatus env (handleDD env tr dd).2 dd taskIDs).SourceStatuses[i]?).map
          (fun s => s.Name) =
        (dd.Spec.Sources[i]?).map (fun s => s.Name) := by
  have hn : ((buildNewStatus env (handleDD env tr dd).2 dd taskIDs).SourceStatuses).map
      (fun s => s.Name) = dd.Spec.Sources.map (fun s => s.Name) := by
    rw [buildNewStatus_sourceStatuses, List.map_map]
    conv_rhs => rw [← checkedSources_map_fst env taskIDs dd.Spec.Sources (handleDD env tr dd).2]
    rw [List.map_map]
    rfl
  refine ⟨?_, ?_⟩
  · have := congrArg List.length hn
    simpa using this
  · intro i
    have := congrArg (fun l => l[i]?) hn
    simpa using this

/-- Witness of C2 on two sources that the trigger pass accepts. -/
theorem C2_source_statuses_aligned_witness :
    (handleDD startedEnv [] twoSources).1 = Except.ok [("b", "t1"), ("a", "t1")] ∧
    ((buildNewStatus startedEnv (handleDD startedEnv [] twoSources).2 twoSources
        [("b", "t1"), ("a", "t1")]).SourceStatuses.length = twoSources.Spec.Sources.length ∧
      ∀ i : Nat,
        ((buildNewStatus startedEnv (handleDD startedEnv [] twoSources).2 twoSources
            [("b", "t1"), ("a", "t1")]).SourceStatuses[i]?).map (fun s => s.Name) =
          (twoSources.Spec.Sources[i]?).map (fun s => s.Name)) :=
  ⟨rfl, C2_source_statuses_aligned startedEnv [] twoSources [("b", "t1"), ("a", "t1")] rfl⟩

/-- C3, as stated, fails: the second declared source `a` matches the status entry that
records task `t2`, yet `handleDD` takes the first entry of that name, whose task is empty,
and calls `TriggerTask` for the source (twice, once per declared source of that name). -/
theorem C3_counterexample :
    (∃ source ∈ sameNameDescriptor.Spec.Sources,
      ∃ st ∈ sameNameDescriptor.Status.SourceStatuses,
        st.Name = source.Name ∧ st.TaskID = "t2" ∧ st.TaskID ≠ "" ∧
        (handleDD startedEnv [] sameNameDescriptor).2 =
          [Call.TriggerTask (addOrUpdateRequest sameNameDescriptor source none),
           Call.TriggerTask (addOrUpdateRequest sameNameDescriptor source none)]) :=
  ⟨plainSource "mysql" "a" [("host", "db")], by decide,
    { Name := "a", Phase := "STARTED", LastSyncTime := 0, Records := 0, TaskID := "t2" },
    by decide, rfl, rfl, by decide, rfl⟩

/-- C3, amended: for a declared source whose first status entry of that name (the one
`getExistingSourceStatus` returns) has a non-empty TaskID, `handleDD` makes no
`TriggerTask` call for a source of that name, records that TaskID under the name, and the
status pass that follows looks up exactly that TaskID and calls `GetTaskStatus` with it. -/
theorem C3_recorded_task_is_polled_not_triggered (env : Env) (tr : List Call)
    (dd : DataDescriptor) (source : DataSource) (st : SourceStatus)
    (hs : source ∈ dd.Spec.Sources)
    (he : getExistingSourceStatus dd source.Name = some st) (ht : st.TaskID ≠ "") :
    (∃ calls, (handleDD env tr dd).2 = tr ++ calls ∧
      ∀ req, Call.TriggerTask req ∈ calls →
        req.source.map (fun r => r.name) ≠ some source.Name) ∧
    (∀ taskIDs, (handleDD env tr dd).1 = Except.ok taskIDs →
      mapGet taskIDs source.Name = some st.TaskID ∧
      taskFor taskIDs source = st.TaskID ∧
      ∃ calls, (handleDDStatus env (handleDD env tr dd).2 dd taskIDs).2.2 =
          (handleDD env tr dd).2 ++ calls ∧
        Call.GetTaskStatus st.TaskID ∈ calls) := by
  have hex : existingTaskID dd source = some st.TaskID := by
    unfold existingTaskID
    rw [he]
    simp [ht]
  constructor
  · obtain ⟨calls, hc, hcm⟩ := handleDDLoop_trace env dd dd.Spec.Sources [] tr
    refine ⟨calls, hc, ?_⟩
    intro req hreq hname
    obtain ⟨s, _, hnone, prompts, hreq2⟩ := hcm req hreq
    subst hreq2
    simp only [addOrUpdateRequest, Option.map, Option.some.injEq] at hname
    rw [existingTaskID_congr dd s source hname, hex] at hnone
    cases hnone
  · intro taskIDs hok
    have hget : mapGet taskIDs source.Name = some st.TaskID :=
      handleDDLoop_taskIDs env dd dd.Spec.Sources [] tr taskIDs hok source st.TaskID hex
        (Or.inr ⟨source, hs, rfl⟩)
    have htask : taskFor taskIDs source = st.TaskID := by
      unfold taskFor
      rw [hget]
    refine ⟨hget, htask, ?_⟩
    obtain ⟨calls, hc, hcm⟩ := handleDDStatus_trace env (handleDD env tr dd).2 dd taskIDs
    refine ⟨calls, hc, ?_⟩
    have := hcm source hs (by rw [htask]; exact ht)
    rwa [htask] at this

/-- Witness of C3 (amended) on a source whose status entry records task `t1`. -/
theorem C3_recorded_task_is_polled_not_triggered_witness :
    plainSource "mysql" "a" [("host", "db")] ∈ recordedDescriptor.Spec.Sources ∧
    getExistingSourceStatus recordedDescriptor "a" =
      some { Name := "a", Phase := "STARTED", LastSyncTime := 0, Records := 0, TaskID := "t1" } ∧
    ((∃ calls, (handleDD startedEnv [] recordedDescriptor).2 = [] ++ calls ∧
      ∀ req, Call.TriggerTask req ∈ calls → req.source.map (fun r => r.name) ≠ some "a") ∧
    (∀ taskIDs, (handleDD startedEnv [] recordedDescriptor).1 = Except.ok taskIDs →
      mapGet taskIDs "a" = some "t1" ∧
      taskFor taskIDs (plainSource "mysql" "a" [("host", "db")]) = "t1" ∧
      ∃ calls, (handleDDStatus startedEnv (handleDD startedEnv [] recordedDescriptor).2
          recordedDescriptor taskIDs).2.2 =
          (handleDD startedEnv [] recordedDescriptor).2 ++ calls ∧
        Call.GetTaskStatus "t1" ∈ calls)) :=
  ⟨by decide, rfl,
    C3_recorded_task_is_polled_not_triggered startedEnv [] recordedDescriptor
      (plainSource "mysql" "a" [("host", "db")])
      { Name := "a", Phase := "STARTED", LastSyncTime := 0, Records := 0, TaskID := "t1" }
      (by decide) rfl (by decide)⟩

/-- C4 fails on the code: a first pass triggers task `t1` for source `a`, the task reports
`FAILURE`, and the status that the pass persists records an empty TaskID for `a` (the
`FAILURE` branch alone leaves `TaskID` out), so the next pass on the persisted object calls
`TriggerTask` for `a` again. With the answer `STARTED` the persisted entry keeps `t1` and
the next pass makes no call. -/
theorem C4_failure_drops_task_and_retriggers :
    (DoAddOrUpdate failureEnv [] freshDescriptor).2.2 =
      [Call.TriggerTask
          (addOrUpdateRequest freshDescriptor (plainSource "mysql" "a" [("host", "db")]) none),
        Call.GetTaskStatus "t1",
        Call.EventWarning "SomeSourcesTaskErrorOrNotReady"
          "0 data sources task not completed, 1 data sources have issues ",
        Call.StatusUpdate (DoAddOrUpdate failureEnv [] freshDescriptor).2.1] ∧
    (DoAddOrUpdate failureEnv [] freshDescriptor).2.1.Status.SourceStatuses =
      [{ Name := "a", Phase := "FAILURE", LastSyncTime := 0, Records := 0, TaskID := "" }] ∧
    (handleDD failureEnv [] (DoAddOrUpdate failureEnv [] freshDescriptor).2.1).2 =
      [Call.TriggerTask
          (addOrUpdateRequest freshDescriptor (plainSource "mysql" "a" [("host", "db")]) none)] ∧
    (DoAddOrUpdate startedEnv [] freshDescriptor).2.1.Status.SourceStatuses =
      [{ Name := "a", Phase := "STARTED", LastSyncTime := 0, Records := 0, TaskID := "t1" }] ∧
    (handleDD startedEnv [] (DoAddOrUpdate startedEnv [] freshDescriptor).2.1).2 = [] :=
  ⟨rfl, rfl, rfl, rfl, rfl⟩

/-- C5 fails on the code when the observed status has a non-empty ConsumedBy: the pass on
`consumedDescriptor` builds a status with the same overall phase, conditions (times
included) and source statuses as the observed one, yet it issues a status Update and
replaces `dd.Status`, because the new status never carries ConsumedBy. The same descriptor
without ConsumedBy gets no Update and keeps its status. -/
theorem C5_consumed_descriptor_is_rewritten :
    (handleDD successEnv [] consumedDescriptor) = (Except.ok [("a", "t1")], []) ∧
    (buildNewStatus successEnv [] consumedDescriptor [("a", "t1")]).OverallPhase =
      consumedDescriptor.Status.OverallPhase ∧
    (buildNewStatus successEnv [] consumedDescriptor [("a", "t1")]).Conditions =
      consumedDescriptor.Status.Conditions ∧
    (buildNewStatus successEnv [] consumedDescriptor [("a", "t1")]).SourceStatuses =
      consumedDescriptor.Status.SourceStatuses ∧
    (DoAddOrUpdate successEnv [] consumedDescriptor).2.2 =
      [Call.GetTaskStatus "t1",
        Call.EventNormal "TaskTriggered" "Task t1 Completed for data source a",
        Call.EventNormal "AllSourcesHealthy"
          "All data sources healthy and tasks triggered and Completed.",
        Call.StatusUpdate { consumedDescriptor with Status := readyStatus none }] ∧
    (DoAddOrUpdate successEnv [] consumedDescriptor).2.1.Status ≠ consumedDescriptor.Status ∧
    (DoAddOrUpdate successEnv [] unconsumedDescriptor).2.2 =
      [Call.GetTaskStatus "t1",
        Call.EventNormal "TaskTriggered" "Task t1 Completed for data source a",
        Call.EventNormal "AllSourcesHealthy"
          "All data sources healthy and tasks triggered and Completed."] ∧
    (DoAddOrUpdate successEnv [] unconsumedDescriptor).2.1 = unconsumedDescriptor :=
  ⟨rfl, rfl, rfl, rfl, rfl, by decide, rfl, rfl⟩

/-- C6, as stated, fails: two statuses with the same overall phase, the same conditions and
the same source statuses are not equal for `isStatusEqualIgnoringTime` when their
ConsumedBy differ, so another field does influence the result. -/
theorem C6_counterexample :
    (readyStatus none).OverallPhase =
        (readyStatus (some [{ Name := "agent", Namespace := "ns" }])).OverallPhase ∧
    (readyStatus none).Conditions =
        (readyStatus (some [{ Name := "agent", Namespace := "ns" }])).Conditions ∧
    (readyStatus none).SourceStatuses =
        (readyStatus (some [{ Name := "agent", Namespace := "ns" }])).SourceStatuses ∧
    isStatusEqualIgnoringTime (readyStatus none)
        (readyStatus (some [{ Name := "agent", Namespace := "ns" }])) = false :=
  ⟨rfl, rfl, rfl, rfl⟩

/-- C6, amended: `isStatusEqualIgnoringTime a b` is true if and only if the overall phases
are equal, the condition lists have equal length and agree index for index on type,
status, reason and message, the source status lists have equal length and agree index for
index on name, phase, records and TaskID, and the ConsumedBy lists are deeply equal; no
other field (no time field) occurs in the criterion. -/
theorem C6_isStatusEqualIgnoringTime_iff (a b : DataDescriptorStatus) :
    isStatusEqualIgnoringTime a b = true ↔
      a.OverallPhase = b.OverallPhase ∧
      a.Conditions.length = b.Conditions.length ∧
      (∀ (i : Nat) (h1 : i < a.Conditions.length) (h2 : i < b.Conditions.length),
        a.Conditions[i].Typ = b.Conditions[i].Typ ∧
        a.Conditions[i].Status = b.Conditions[i].Status ∧
        a.Conditions[i].Reason = b.Conditions[i].Reason ∧
        a.Conditions[i].Message = b.Conditions[i].Message) ∧
      a.SourceStatuses.length = b.SourceStatuses.length ∧
      (∀ (i : Nat) (h1 : i < a.SourceStatuses.length) (h2 : i < b.SourceStatuses.length),
        a.SourceStatuses[i].Name = b.SourceStatuses[i].Name ∧
        a.SourceStatuses[i].Phase = b.SourceStatuses[i].Phase ∧
        a.SourceStatuses[i].Records = b.SourceStatuses[i].Records ∧
        a.SourceStatuses[i].TaskID = b.SourceStatuses[i].TaskID) ∧
      a.ConsumedBy = b.ConsumedBy := by
  unfold isStatusEqualIgnoringTime
  by_cases hp : a.OverallPhase = b.OverallPhase
  swap
  · simp [hp]
  by_cases hcl : a.Conditions.length = b.Conditions.length
  swap
  · simp [hp, hcl]
  by_cases hsl : a.SourceStatuses.length = b.SourceStatuses.length
  swap
  · simp [hp, hcl, hsl]
  have hc := conditionsEqualLoop_iff a.Conditions b.Conditions hcl
  have hs := sourceStatusesEqualLoop_iff a.SourceStatuses b.SourceStatuses hsl
  rw [← hc, ← hs]
  simp only [ne_eq, hp, not_true_eq_false, if_false, hcl, hsl, true_and]
  cases conditionsEqualLoop a.Conditions b.Conditions <;>
    cases sourceStatusesEqualLoop a.SourceStatuses b.SourceStatuses <;>
    by_cases hcb : a.ConsumedBy = b.ConsumedBy <;> simp [hcb]

/-- C7 fails on the code: the observed status of `consumedStartedDescriptor` lists the
consumer `ns/agent`; after `DoAddOrUpdate` returns (without error) `dd.Status.ConsumedBy`
is nil, and the status Update call of the pass sent a status whose ConsumedBy is nil. -/
theorem C7_consumedBy_is_dropped :
    consumedStartedDescriptor.Status.ConsumedBy = some [{ Name := "agent", Namespace := "ns" }] ∧
    (DoAddOrUpdate successEnv [] consumedStartedDescriptor).1 = none ∧
    (DoAddOrUpdate successEnv [] consumedStartedDescriptor).2.1.Status.ConsumedBy = none ∧
    (DoAddOrUpdate successEnv [] consumedStartedDescriptor).2.2 =
      [Call.GetTaskStatus "t1",
        Call.EventNormal "TaskTriggered" "Task t1 Completed for data source a",
        Call.EventNormal "AllSourcesHealthy"
          "All data sources healthy and tasks triggered and Completed.",
        Call.StatusUpdate
          { consumedStartedDescriptor with
            Status :=
              { SourceStatuses := [{ Name := "a", Phase := "Ready", LastSyncTime := 0,
                                     Records := 0, TaskID := "t1" }],
                ConsumedBy := none, OverallPhase := "Ready",
                Conditions := [{ Typ := "Available", Status := "True", LastTransitionTime := 3,
                                 Reason := "Available",
                                 Message := "All data sources healthy." }] } }] :=
  ⟨rfl, rfl, rfl, rfl⟩

/-- C8: for a non-empty task ID whose status poll succeeds with status string `s`,
`checkSourceStatus` returns the phase of the case-insensitive mapping: SUCCESS gives
`Ready`; STARTED, PENDING, RETRY and REVOKED give the same upper-case name; FAILURE gives
`FAILURE` with an error whose text contains the result field of the poll response; every
other string gives `OTHERS`. A string is one of the six names up to letter case when
`strings.ToUpper` turns it into the name: rune by rune it holds the capital, its small
letter, or the long s for `S` and the dotless i for `I`. -/
theorem C8_task_status_phase_mapping (env : Env) (tr : List Call) (source : DataSource)
    (taskID : String) (resp : TaskStatusResponse) (hid : taskID ≠ "")
    (hpoll : env.GetTaskStatus tr taskID = Except.ok resp) :
    (foldsTo resp.Status "SUCCESS" = true →
      (checkSourceStatus env tr source taskID).1.Phase = "Ready") ∧
    (∀ name ∈ ["STARTED", "PENDING", "RETRY", "REVOKED"], foldsTo resp.Status name = true →
      (checkSourceStatus env tr source taskID).1.Phase = name) ∧
    (foldsTo resp.Status "FAILURE" = true →
      (checkSourceStatus env tr source taskID).1.Phase = "FAILURE" ∧
      ∃ pre post, (checkSourceStatus env tr source taskID).1.Error =
        some (pre ++ resp.Result ++ post)) ∧
    ((∀ name ∈ ["SUCCESS", "STARTED", "FAILURE", "PENDING", "RETRY", "REVOKED"],
        foldsTo resp.Status name = false) →
      (checkSourceStatus env tr source taskID).1.Phase = "OTHERS") := by
  have hr : (checkSourceStatus env tr source taskID).1 = taskStatusResult source taskID resp := by
    unfold checkSourceStatus
    rw [if_pos hid]
    simp only [hpoll]
  rw [hr]
  have e1 := toUpper_eq_iff_foldsTo resp.Status "SUCCESS" (by decide)
  have e2 := toUpper_eq_iff_foldsTo resp.Status "STARTED" (by decide)
  have e3 := toUpper_eq_iff_foldsTo resp.Status "FAILURE" (by decide)
  have e4 := toUpper_eq_iff_foldsTo resp.Status "PENDING" (by decide)
  have e5 := toUpper_eq_iff_foldsTo resp.Status "RETRY" (by decide)
  have e6 := toUpper_eq_iff_foldsTo resp.Status "REVOKED" (by decide)
  have hno : ∀ name : String, foldsTo resp.Status name = false →
      (toUpper resp.Status = name ↔ foldsTo resp.Status name = true) →
      toUpper resp.Status ≠ name := by
    intro name hf hiff hh
    rw [hiff.mp hh] at hf
    exact absurd hf (by decide)
  refine ⟨?_, ?_, ?_, ?_⟩
  · intro h
    have h1 := e1.mpr h
    simp [taskStatusResult, h1]
  · intro name hname h
    simp only [List.mem_cons, List.mem_singleton, List.not_mem_nil, or_false] at hname
    rcases hname with rfl | rfl | rfl | rfl
    · have h1 := e2.mpr h
      simp [taskStatusResult, h1]
    · have h1 := e4.mpr h
      simp [taskStatusResult, h1]
    · have h1 := e5.mpr h
      simp [taskStatusResult, h1]
    · have h1 := e6.mpr h
      simp [taskStatusResult, h1]
  · intro h
    have h1 := e3.mpr h
    refine ⟨by simp [taskStatusResult, h1], "task " ++ taskID ++ " failed: ", "", ?_⟩
    simp [taskStatusResult, h1]
  · intro h
    have n1 := hno "SUCCESS" (h _ (by simp)) e1
    have n2 := hno "STARTED" (h _ (by simp)) e2
    have n3 := hno "FAILURE" (h _ (by simp)) e3
    have n4 := hno "PENDING" (h _ (by simp)) e4
    have n5 := hno "RETRY" (h _ (by simp)) e5
    have n6 := hno "REVOKED" (h _ (by simp)) e6
    simp [taskStatusResult, n1, n2, n3, n4, n5, n6]

/-- Witness of C8 on the status string `sUcCeSs`, which yields phase `Ready`; so do the
status written with a long s, and `pendıng` with a dotless i yields `PENDING`, while
`done` yields `OTHERS`. -/
theorem C8_task_status_phase_mapping_witness :
    "t1" ≠ "" ∧
    mixedCaseEnv.GetTaskStatus [] "t1" = Except.ok { Status := "sUcCeSs", Result := "" } ∧
    foldsTo "sUcCeSs" "SUCCESS" = true ∧
    (checkSourceStatus mixedCaseEnv [] (plainSource "mysql" "a" []) "t1").1.Phase = "Ready" ∧
    (checkSourceStatus (statusEnv "ſuccess") [] (plainSource "mysql" "a" []) "t1").1.Phase =
      "Ready" ∧
    (checkSourceStatus (statusEnv "pendıng") [] (plainSource "mysql" "a" []) "t1").1.Phase =
      "PENDING" ∧
    (checkSourceStatus (statusEnv "done") [] (plainSource "mysql" "a" []) "t1").1.Phase =
      "OTHERS" :=
  ⟨by decide, rfl, by decide,
    (C8_task_status_phase_mapping mixedCaseEnv [] (plainSource "mysql" "a" []) "t1"
      { Status := "sUcCeSs", Result := "" } (by decide) rfl).1 (by decide),
    by decide, by decide, by decide⟩

/-- C9: when the status write succeeds or is skipped, `handleDDStatus` returns an error if
and only if the check of at least one declared source carried an error; the text of that
error gives the number of such sources and, in declared order, the name of each with its
own error. A check carries an error exactly when its status poll failed, its remote
status was FAILURE or RETRY up to letter case, or (without a task) its connectivity probe
failed. A polled source whose status is none of SUCCESS, FAILURE, RETRY carries no error
and is not `Ready`, and any source that is not `Ready` makes the result `NotReady`.
Letter case is that of `strings.ToUpper`: a rune stands for a capital when it is the
capital, its small letter, or the long s for `S` and the dotless i for `I`. -/
theorem C9_error_iff_some_source_error (env : Env) (tr : List Call) (dd : DataDescriptor)
    (taskIDs : StringMap) (hw : statusWriteError env tr dd taskIDs = none) :
    ((handleDDStatus env tr dd taskIDs).1 ≠ none ↔
      ∃ p ∈ checkedSources env taskIDs dd.Spec.Sources tr, p.2.Error ≠ none) ∧
    ((∃ p ∈ checkedSources env taskIDs dd.Spec.Sources tr, p.2.Error ≠ none) →
      (handleDDStatus env tr dd taskIDs).1 =
        some (toString ((checkedSources env taskIDs dd.Spec.Sources tr).filter
            (fun p => p.2.Error.isSome)).length ++ " errors: " ++ "[" ++
          " ".intercalate (((checkedSources env taskIDs dd.Spec.Sources tr).filter
            (fun p => p.2.Error.isSome)).map
              (fun p => "data source " ++ p.1.Name ++ " error: " ++ p.2.Error.getD "")) ++
          "]")) ∧
    (∀ (tr1 : List Call) (source : DataSource) (taskID : String),
      (checkSourceStatus env tr1 source taskID).1.Error ≠ none ↔
        (taskID ≠ "" ∧
          ((∃ err, env.GetTaskStatus tr1 taskID = Except.error err) ∨
            ∃ resp, env.GetTaskStatus tr1 taskID = Except.ok resp ∧
              (foldsTo resp.Status "FAILURE" = true ∨ foldsTo resp.Status "RETRY" = true))) ∨
        (taskID = "" ∧ (checkDataSourceConnectivity env tr1 source).Error ≠ none)) ∧
    (∀ (tr1 : List Call) (source : DataSource) (taskID : String) (resp : TaskStatusResponse),
      taskID ≠ "" → env.GetTaskStatus tr1 taskID = Except.ok resp →
      foldsTo resp.Status "SUCCESS" = false → foldsTo resp.Status "FAILURE" = false →
      foldsTo resp.Status "RETRY" = false →
        (checkSourceStatus env tr1 source taskID).1.Error = none ∧
        (checkSourceStatus env tr1 source taskID).1.Phase ≠ "Ready") ∧
    ((∃ p ∈ checkedSources env taskIDs dd.Spec.Sources tr, p.2.Phase ≠ "Ready") →
      (buildNewStatus env tr dd taskIDs).OverallPhase = "NotReady") := by
  have herr := handleDDStatus_error_eq env tr dd taskIDs
  rw [hw] at herr
  simp only [statusLoopResult_eq] at herr
  have hex : (∃ p ∈ checkedSources env taskIDs dd.Spec.Sources tr, p.2.Error ≠ none) ↔
      (List.filterMap errorOf (checkedSources env taskIDs dd.Spec.Sources tr)).length > 0 := by
    constructor
    · rintro ⟨p, hp, hpe⟩
      cases he : p.2.Error with
      | none => exact absurd he hpe
      | some e =>
        exact List.length_pos_of_mem
          (List.mem_filterMap.mpr ⟨p, hp, by unfold errorOf; rw [he]⟩)
    · intro h
      obtain ⟨b, hb⟩ := List.exists_mem_of_length_pos h
      obtain ⟨p, hp, hpe⟩ := List.mem_filterMap.mp hb
      refine ⟨p, hp, ?_⟩
      intro hn
      unfold errorOf at hpe
      rw [hn] at hpe
      cases hpe
  refine ⟨?_, ?_, ?_, ?_, ?_⟩
  · rw [herr, hex]
    split_ifs with h <;> simp [h]
  · intro h
    rw [herr, if_pos (hex.mp h)]
    unfold aggregatedErrorText
    rw [filterMap_errorOf, List.length_map]
  · intro tr1 source taskID
    exact checkSourceStatus_error_iff env tr1 source taskID
  · intro tr1 source taskID resp hid hpoll h1 h2 h3
    rw [checkSourceStatus_polled env tr1 source taskID resp hid hpoll]
    have hno : ∀ name : String, foldsTo resp.Status name = false →
        (toUpper resp.Status = name ↔ foldsTo resp.Status name = true) →
        toUpper resp.Status ≠ name := by
      intro name hf hiff hh
      rw [hiff.mp hh] at hf
      exact absurd hf (by decide)
    have n1 := hno "SUCCESS" h1 (toUpper_eq_iff_foldsTo _ _ (by decide))
    have n2 := hno "FAILURE" h2 (toUpper_eq_iff_foldsTo _ _ (by decide))
    have n3 := hno "RETRY" h3 (toUpper_eq_iff_foldsTo _ _ (by decide))
    refine ⟨?_, taskStatusResult_not_ready source taskID resp n1⟩
    by_contra hne
    rcases (taskStatusResult_error_iff source taskID resp).mp hne with h | h
    · exact n2 h
    · exact n3 h
  · rintro ⟨p, hp, hne⟩
    rw [buildNewStatus_overallPhase]
    have : (checkedSources env taskIDs dd.Spec.Sources tr).all isHealthy = false := by
      rw [Bool.eq_false_iff]
      intro hall
      have := List.all_eq_true.mp hall p hp
      simp [isHealthy] at this
      exact hne this.2
    simp [this]

set_option maxRecDepth 100000

/-- Witness of C9 on a recorded task that reports `FAILURE` with result `boom`; a status
`faılure` written with a dotless i counts as FAILURE too. -/
theorem C9_error_iff_some_source_error_witness :
    statusWriteError failureEnv [] recordedDescriptor [("a", "t1")] = none ∧
    ((handleDDStatus failureEnv [] recordedDescriptor [("a", "t1")]).1 ≠ none ↔
      ∃ p ∈ checkedSources failureEnv [("a", "t1")] recordedDescriptor.Spec.Sources [],
        p.2.Error ≠ none) ∧
    (handleDDStatus failureEnv [] recordedDescriptor [("a", "t1")]).1 =
      some "1 errors: [data source a error: task t1 failed: boom]" ∧
    foldsTo "faılure" "FAILURE" = true ∧
    (handleDDStatus (statusEnv "faılure") [] recordedDescriptor [("a", "t1")]).1 =
      some "1 errors: [data source a error: task t1 failed: ]" :=
  ⟨rfl, (C9_error_iff_some_source_error failureEnv [] recordedDescriptor [("a", "t1")] rfl).1,
    rfl, by decide, rfl⟩

/-- C10, as stated, fails. (1) When the trigger call succeeds with task `t1`, the source is
polled instead of probed: with a `SUCCESS` answer the phase is `Ready`, the overall phase
`Ready` and no error is returned. (2) With an empty task identifier but an empty source
name, the error is about the name and does not mention the host. (3) With an empty task
identifier and a failing status write, the returned error is that of the write. -/
theorem C10_counterexample :
    ((DoAddOrUpdate successEnv [] (noHostDescriptor "a")).1 = none ∧
      (DoAddOrUpdate successEnv [] (noHostDescriptor "a")).2.1.Status.SourceStatuses =
        [{ Name := "a", Phase := "Ready", LastSyncTime := 0, Records := 0, TaskID := "t1" }] ∧
      (DoAddOrUpdate successEnv [] (noHostDescriptor "a")).2.1.Status.OverallPhase = "Ready") ∧
    ((DoAddOrUpdate (emptyTaskEnv none) [] (noHostDescriptor "")).1 =
        some ("failed to update status: 1 errors: " ++
          "[data source  error: data source name cannot be empty]") ∧
      ¬ containsText ("failed to update status: 1 errors: " ++
          "[data source  error: data source name cannot be empty]") "host not configured") ∧
    ((DoAddOrUpdate (emptyTaskEnv (some "conflict")) [] (noHostDescriptor "a")).1 =
        some "failed to update status: status update failed: conflict" ∧
      ¬ containsText "failed to update status: status update failed: conflict"
          "host not configured") :=
  ⟨⟨rfl, rfl, rfl⟩, ⟨rfl, by decide⟩, ⟨rfl, by decide⟩⟩

/-- C10, amended: for a Data Descriptor with exactly one MySQL source, of non-empty name,
whose metadata has no `host` key, and with no prior source status, when the trigger call
succeeds with an empty task identifier and the status write succeeds (or is skipped),
`DoAddOrUpdate` leaves `SourceStatuses[0].Phase == "Invalid"` (the only entry),
`OverallPhase == "NotReady"`, and returns an error whose text contains
`host not configured`. -/
theorem C10_missing_host_is_invalid (env : Env) (tr : List Call) (dd : DataDescriptor)
    (source : DataSource) (hsrc : dd.Spec.Sources = [source])
    (hty : source.Typ = DataSourceMySQL) (hhost : mapGet source.Metadata "host" = none)
    (hname : source.Name ≠ "") (hst : dd.Status.SourceStatuses = [])
    (htrig : env.TriggerTask (resolvePrompts env tr dd source).2
      (addOrUpdateRequest dd source (resolvePrompts env tr dd source).1) = Except.ok "")
    (hw : statusWriteError env (handleDD env tr dd).2 dd [(source.Name, "")] = none) :
    (DoAddOrUpdate env tr dd).2.1.Status.SourceStatuses.map (fun s => s.Phase) = ["Invalid"] ∧
    (DoAddOrUpdate env tr dd).2.1.Status.OverallPhase = "NotReady" ∧
    (DoAddOrUpdate env tr dd).1 =
      some ("failed to update status: 1 errors: [data source " ++ source.Name ++
        " error: MySQL host not configured in metadata]") ∧
    ∃ text, (DoAddOrUpdate env tr dd).1 = some text ∧ containsText text "host not configured" := by
  have hex : existingTaskID dd source = none := by
    unfold existingTaskID getExistingSourceStatus
    rw [hst]
    rfl
  have hDD : (handleDD env tr dd).1 = Except.ok [(source.Name, "")] := by
    unfold handleDD
    rw [hsrc, handleDDLoop]
    dsimp only
    rw [hex]
    dsimp only
    rw [htrig]
    rfl
  obtain ⟨h1, h2⟩ := DoAddOrUpdate_ok env tr dd [(source.Name, "")] hDD
  generalize (handleDD env tr dd).2 = tr1 at h1 h2 hw
  have htask : taskFor [(source.Name, "")] source = "" := by
    simp [taskFor, mapGet]
  have hcheck : sourceCheck env [(source.Name, "")] tr1 source =
      { Name := source.Name, Phase := "Invalid",
        Error := some ("MySQL" ++ " host not configured in metadata") } := by
    unfold sourceCheck
    rw [htask]
    unfold checkSourceStatus
    simp only [ne_eq, not_true_eq_false, if_false]
    unfold checkDataSourceConnectivity
    rw [if_neg hname, if_pos hty]
    unfold checkMySQLStatus checkHost
    rw [hhost]
  have hchecked : checkedSources env [(source.Name, "")] dd.Spec.Sources tr1 =
      [(source, { Name := source.Name, Phase := "Invalid",
                  Error := some ("MySQL" ++ " host not configured in metadata") })] := by
    rw [hsrc]
    simp only [checkedSources, hcheck]
  have hnew1 := buildNewStatus_sourceStatuses env tr1 dd [(source.Name, "")]
  have hnew2 := buildNewStatus_overallPhase env tr1 dd [(source.Name, "")]
  rw [hchecked] at hnew1 hnew2
  have hneq : isStatusEqualIgnoringTime dd.Status (buildNewStatus env tr1 dd [(source.Name, "")])
      = false := by
    rw [Bool.eq_false_iff]
    intro heq
    have := isStatusEqualIgnoringTime_length _ _ heq
    rw [hst, hnew1] at this
    simp at this
  have hdd := handleDDStatus_dd_eq env tr1 dd [(source.Name, "")]
  rw [if_pos hneq] at hdd
  have herr := handleDDStatus_error_eq env tr1 dd [(source.Name, "")]
  rw [hw] at herr
  simp only [statusLoopResult_eq, hchecked] at herr
  have herr2 : (handleDDStatus env tr1 dd [(source.Name, "")]).1 =
      some ("1 errors: [data source " ++ source.Name ++
        " error: MySQL host not configured in metadata]") := by
    rw [herr]
    simp [errorOf, aggregatedErrorText, String.intercalate, String.intercalate.go,
      String.append_assoc]
    rfl
  have hres : (DoAddOrUpdate env tr dd).1 =
      some ("failed to update status: 1 errors: [data source " ++ source.Name ++
        " error: MySQL host not configured in metadata]") := by
    rw [h1, herr2]
    simp [String.append_assoc]
    rfl
  have hdd2 : (DoAddOrUpdate env tr dd).2.1 =
      { dd with Status := buildNewStatus env tr1 dd [(source.Name, "")] } := by
    rw [h2, hdd]
  refine ⟨?_, ?_, hres, _, hres, ?_⟩
  · rw [hdd2]
    simp only [hnew1]
    rfl
  · rw [hdd2]
    simp only [hnew2]
    rfl
  · exact containsText_of_eq
      ("failed to update status: 1 errors: [data source " ++ source.Name ++ " error: MySQL ")
      "host not configured" " in metadata]" _ (by simp [String.append_assoc])

/-- Witness of C10 (amended) on the source `a` without a host, with a trigger that answers
the empty task identifier. -/
theorem C10_missing_host_is_invalid_witness :
    (noHostDescriptor "a").Spec.Sources = [plainSource "mysql" "a" [("port", "3306")]] ∧
    mapGet (plainSource "mysql" "a" [("port", "3306")]).Metadata "host" = none ∧
    (noHostDescriptor "a").Status.SourceStatuses = [] ∧
    ((DoAddOrUpdate (emptyTaskEnv none) [] (noHostDescriptor "a")).2.1.Status.SourceStatuses.map
        (fun s => s.Phase) = ["Invalid"] ∧
      (DoAddOrUpdate (emptyTaskEnv none) [] (noHostDescriptor "a")).2.1.Status.OverallPhase =
        "NotReady" ∧
      (DoAddOrUpdate (emptyTaskEnv none) [] (noHostDescriptor "a")).1 =
        some ("failed to update status: 1 errors: [data source " ++ "a" ++
          " error: MySQL host not configured in metadata]") ∧
      ∃ text, (DoAddOrUpdate (emptyTaskEnv none) [] (noHostDescriptor "a")).1 = some text ∧
        containsText text "host not configured") :=
  ⟨rfl, rfl, rfl,
    C10_missing_host_is_invalid (emptyTaskEnv none) [] (noHostDescriptor "a")
      (plainSource "mysql" "a" [("port", "3306")]) rfl rfl rfl (by decide) rfl rfl rfl⟩

/-! ## Lemmas for the later claims on the coordinator -/

theorem checkedSources_getElem (env : Env) (taskIDs : StringMap) (srcs : List DataSource) :
    ∀ (tr : List Call) (i : Nat) (s : DataSource), srcs[i]? = some s →
      ∃ tr1, (checkedSources env taskIDs srcs tr)[i]? = some (s, sourceCheck env taskIDs tr1 s) := by
  induction srcs with
  | nil => intro tr i s h; simp at h
  | cons source rest ih =>
    intro tr i s h
    cases i with
    | zero =>
      simp only [List.getElem?_cons_zero, Option.some.injEq] at h
      subst h
      exact ⟨tr, by simp [checkedSources]⟩
    | succ j =>
      simp only [List.getElem?_cons_succ] at h
      obtain ⟨tr1, h1⟩ := ih (traceAfterCheck env taskIDs tr source) j s h
      exact ⟨tr1, by simpa [checkedSources] using h1⟩

theorem handleDDLoop_append (env : Env) (dd : DataDescriptor) (pre rest : List DataSource) :
    ∀ (m : StringMap) (tr : List Call),
      handleDDLoop env dd (pre ++ rest) m tr =
        match handleDDLoop env dd pre m tr with
        | (Except.ok m1, tr1) => handleDDLoop env dd rest m1 tr1
        | (Except.error e, tr1) => (Except.error e, tr1) := by
  induction pre with
  | nil => intro m tr; simp [handleDDLoop]
  | cons s pre ih =>
    intro m tr
    rw [List.cons_append, handleDDLoop, handleDDLoop]
    dsimp only
    cases existingTaskID dd s with
    | some taskID => exact ih _ _
    | none =>
      dsimp only
      cases env.TriggerTask (resolvePrompts env tr dd s).2
          (addOrUpdateRequest dd s (resolvePrompts env tr dd s).1) with
      | error err => rfl
      | ok taskID => exact ih _ _

/-- The trigger pass makes prompt lookups and trigger calls only. -/
theorem handleDDLoop_calls_kind (env : Env) (dd : DataDescriptor) (srcs : List DataSource) :
    ∀ (taskIDs : StringMap) (tr : List Call),
      ∃ calls, (handleDDLoop env dd srcs taskIDs tr).2 = tr ++ calls ∧
        ∀ c ∈ calls, (∃ ns n, c = Call.GetConfigMap ns n) ∨ ∃ req, c = Call.TriggerTask req := by
  induction srcs with
  | nil => intro taskIDs tr; exact ⟨[], by simp [handleDDLoop], by simp⟩
  | cons source rest ih =>
    intro taskIDs tr
    obtain ⟨c1, hc1, hc1m⟩ := resolvePrompts_trace env tr dd source
    have hk1 : ∀ c ∈ c1, (∃ ns n, c = Call.GetConfigMap ns n) ∨ ∃ req, c = Call.TriggerTask req :=
      fun c hc => Or.inl ⟨_, _, hc1m c hc⟩
    rw [handleDDLoop]
    dsimp only
    generalize resolvePrompts env tr dd source = p at hc1 ⊢
    cases existingTaskID dd source with
    | some taskID =>
      dsimp only
      obtain ⟨c2, hc2, hc2m⟩ := ih (mapSet taskIDs source.Name taskID) p.2
      refine ⟨c1 ++ c2, by rw [hc2, hc1, List.append_assoc], ?_⟩
      intro c hc
      rcases List.mem_append.mp hc with h | h
      · exact hk1 c h
      · exact hc2m c h
    | none =>
      dsimp only
      generalize addOrUpdateRequest dd source p.1 = rq
      cases env.TriggerTask p.2 rq with
      | error err =>
        dsimp only
        refine ⟨c1 ++ [Call.TriggerTask rq], by rw [hc1, List.append_assoc], ?_⟩
        intro c hc
        rcases List.mem_append.mp hc with h | h
        · exact hk1 c h
        · exact Or.inr ⟨rq, by simpa using h⟩
      | ok taskID =>
        dsimp only
        obtain ⟨c2, hc2, hc2m⟩ := ih (mapSet taskIDs source.Name taskID)
          (p.2 ++ [Call.TriggerTask rq])
        refine ⟨c1 ++ [Call.TriggerTask rq] ++ c2, by rw [hc2, hc1]; simp, ?_⟩
        intro c hc
        rcases List.mem_append.mp hc with h | h
        · rcases List.mem_append.mp h with h | h
          · exact hk1 c h
          · exact Or.inr ⟨rq, by simpa using h⟩
        · exact hc2m c h

/-- C11, as stated, fails: the entry of `a` records task `t1` and 5000 records; the pass
polls `t1`, which reports `SUCCESS`, and the status it writes has `Records == 0`. -/
theorem C11_counterexample :
    countedDescriptor.Status.SourceStatuses =
      [{ Name := "a", Phase := "Ready", LastSyncTime := 7, Records := 5000, TaskID := "t1" }] ∧
    (DoAddOrUpdate successEnv [] countedDescriptor).2.1.Status.SourceStatuses =
      [{ Name := "a", Phase := "Ready", LastSyncTime := 0, Records := 0, TaskID := "t1" }] ∧
    (DoAddOrUpdate successEnv [] countedDescriptor).2.2 =
      [Call.GetTaskStatus "t1",
        Call.EventNormal "TaskTriggered" "Task t1 Completed for data source a",
        Call.EventNormal "AllSourcesHealthy"
          "All data sources healthy and tasks triggered and Completed.",
        Call.StatusUpdate (DoAddOrUpdate successEnv [] countedDescriptor).2.1] :=
  ⟨rfl, rfl, rfl⟩

/-- C11, amended: for a declared source whose recorded status entry has a non-empty TaskID
(and any record count), a pass in which that task reports SUCCESS (in any letter case)
builds for the source the entry with phase `Ready`, that TaskID, the zero time and
`Records == 0`: the polled result carries no record count and the previous one is not
carried over. -/
theorem C11_polled_entry_has_zero_records (env : Env) (tr : List Call) (dd : DataDescriptor)
    (source : DataSource) (st : SourceStatus) (taskIDs : StringMap)
    (he : getExistingSourceStatus dd source.Name = some st) (ht : st.TaskID ≠ "")
    (hok : (handleDD env tr dd).1 = Except.ok taskIDs)
    (hpoll : ∀ tr1, ∃ resp, env.GetTaskStatus tr1 st.TaskID = Except.ok resp ∧
      equalFold resp.Status "SUCCESS") :
    ∀ i : Nat, dd.Spec.Sources[i]? = some source →
      (buildNewStatus env (handleDD env tr dd).2 dd taskIDs).SourceStatuses[i]? =
        some { Name := source.Name, Phase := "Ready", LastSyncTime := 0, Records := 0,
               TaskID := st.TaskID } := by
  intro i hi
  have hs : source ∈ dd.Spec.Sources := List.getElem?_mem hi
  have hex : existingTaskID dd source = some st.TaskID := by
    unfold existingTaskID
    rw [he]
    simp [ht]
  have hget : mapGet taskIDs source.Name = some st.TaskID :=
    handleDDLoop_taskIDs env dd dd.Spec.Sources [] tr taskIDs hok source st.TaskID hex
      (Or.inr ⟨source, hs, rfl⟩)
  have htask : taskFor taskIDs source = st.TaskID := by
    unfold taskFor
    rw [hget]
  obtain ⟨tr1, h1⟩ := checkedSources_getElem env taskIDs dd.Spec.Sources
    (handleDD env tr dd).2 i source hi
  obtain ⟨resp, hresp, hfold⟩ := hpoll tr1
  have hup : toUpper resp.Status = "SUCCESS" :=
    toUpper_of_equalFold resp.Status "SUCCESS" (by decide) hfold
  have hcheck : sourceCheck env taskIDs tr1 source =
      { Name := source.Name, Phase := "Ready", TaskID := st.TaskID } := by
    unfold sourceCheck
    rw [htask, checkSourceStatus_polled env tr1 source st.TaskID resp ht hresp]
    simp [taskStatusResult, hup]
  rw [buildNewStatus_sourceStatuses, List.getElem?_map, h1, hcheck]
  rfl

/-- Witness of C11 (amended) on the entry that records 5000 records. -/
theorem C11_polled_entry_has_zero_records_witness :
    getExistingSourceStatus countedDescriptor "a" =
      some { Name := "a", Phase := "Ready", LastSyncTime := 7, Records := 5000, TaskID := "t1" } ∧
    (handleDD successEnv [] countedDescriptor).1 = Except.ok [("a", "t1")] ∧
    (∀ i : Nat, countedDescriptor.Spec.Sources[i]? = some (plainSource "mysql" "a" [("host", "db")]) →
      (buildNewStatus successEnv (handleDD successEnv [] countedDescriptor).2 countedDescriptor
          [("a", "t1")]).SourceStatuses[i]? =
        some { Name := "a", Phase := "Ready", LastSyncTime := 0, Records := 0, TaskID := "t1" }) :=
  ⟨rfl, rfl,
    C11_polled_entry_has_zero_records successEnv [] countedDescriptor
      (plainSource "mysql" "a" [("host", "db")])
      { Name := "a", Phase := "Ready", LastSyncTime := 7, Records := 5000, TaskID := "t1" }
      [("a", "t1")] rfl (by decide) rfl
      (fun _ => ⟨{ Status := "SUCCESS", Result := "" }, rfl, by decide⟩)⟩

/-- C19: for every namespace and name, `DoDelete` makes exactly one call, a `TriggerTask`
whose request has operation `Delete`, the descriptor of exactly that name and namespace
and none of the source, extract, prompts, processing and classification fields; it
makes no status Update call; it returns the task identifier of the call when the call
succeeds, and the empty string with an error when the call fails. -/
theorem C19_delete_makes_one_trigger_call (env : Env) (tr : List Call) (ns name : String) :
    (DoDelete env tr ns name).2 =
      tr ++ [Call.TriggerTask
        { operation := "Delete", source := none, descriptor := { name := name, ns := ns },
          extract := none, prompts := none, processing := none, classification := none }] ∧
    (∀ d, Call.StatusUpdate d ∉ (DoDelete env tr ns name).2.drop tr.length) ∧
    (DoDelete env tr ns name).1 =
      (match env.TriggerTask tr (deleteRequest ns name) with
        | Except.ok taskID => (taskID, none)
        | Except.error err =>
          ("", some ("failed to delete data descriptor: " ++
            ("failed to trigger task to delete dd, namespace:" ++ ns ++ ", name:" ++ name ++ " "
              ++ err)))) ∧
    (∀ err, env.TriggerTask tr (deleteRequest ns name) = Except.error err →
      (DoDelete env tr ns name).1.1 = "" ∧ (DoDelete env tr ns name).1.2 ≠ none) := by
  have htr : (DoDelete env tr ns name).2 = tr ++ [Call.TriggerTask (deleteRequest ns name)] := by
    unfold DoDelete handleDDDelete
    dsimp only
    cases env.TriggerTask tr (deleteRequest ns name) <;> rfl
  have hres : (DoDelete env tr ns name).1 =
      (match env.TriggerTask tr (deleteRequest ns name) with
        | Except.ok taskID => (taskID, none)
        | Except.error err =>
          ("", some ("failed to delete data descriptor: " ++
            ("failed to trigger task to delete dd, namespace:" ++ ns ++ ", name:" ++ name ++ " "
              ++ err)))) := by
    unfold DoDelete handleDDDelete
    dsimp only
    cases env.TriggerTask tr (deleteRequest ns name) <;> rfl
  refine ⟨htr, ?_, hres, ?_⟩
  · intro d hd
    rw [htr] at hd
    simp at hd
  · intro err herr
    rw [hres, herr]
    simp

/-- C20: when the trigger pass has handled the sources before `s` without error, `s` has
no recorded TaskID and the `TriggerTask` call for `s` fails, `DoAddOrUpdate` returns an
error that names `s`, returns the descriptor (its status included) as it was on entry,
and stops at the failing call: that call is the last one, so no later source is
triggered, and the pass makes no `GetTaskStatus` call, no status Update call and emits
no event. -/
theorem C20_trigger_failure_aborts_pass (env : Env) (tr tr0 : List Call) (dd : DataDescriptor)
    (pre post : List DataSource) (s : DataSource) (m : StringMap) (err : String)
    (hsrc : dd.Spec.Sources = pre ++ s :: post)
    (hpre : handleDDLoop env dd pre [] tr = (Except.ok m, tr0))
    (hno : existingTaskID dd s = none)
    (hfail : env.TriggerTask (resolvePrompts env tr0 dd s).2
      (addOrUpdateRequest dd s (resolvePrompts env tr0 dd s).1) = Except.error err) :
    DoAddOrUpdate env tr dd =
      (some ("failed to handle data descriptor: " ++
          ("failed to trigger task for source " ++ s.Name ++ ": " ++ err)),
        dd,
        (resolvePrompts env tr0 dd s).2 ++
          [Call.TriggerTask (addOrUpdateRequest dd s (resolvePrompts env tr0 dd s).1)]) ∧
    ∃ calls, (DoAddOrUpdate env tr dd).2.2 = tr ++ calls ∧
      ∀ c ∈ calls, (∀ t, c ≠ Call.GetTaskStatus t) ∧ (∀ d, c ≠ Call.StatusUpdate d) ∧
        (∀ r msg, c ≠ Call.EventNormal r msg) ∧ (∀ r msg, c ≠ Call.EventWarning r msg) := by
  have hDD : handleDD env tr dd =
      (Except.error ("failed to trigger task for source " ++ s.Name ++ ": " ++ err),
        (resolvePrompts env tr0 dd s).2 ++
          [Call.TriggerTask (addOrUpdateRequest dd s (resolvePrompts env tr0 dd s).1)]) := by
    unfold handleDD
    rw [hsrc, handleDDLoop_append, hpre]
    dsimp only
    rw [handleDDLoop]
    dsimp only
    rw [hno]
    dsimp only
    rw [hfail]
  have hDo : DoAddOrUpdate env tr dd =
      (some ("failed to handle data descriptor: " ++
          ("failed to trigger task for source " ++ s.Name ++ ": " ++ err)),
        dd,
        (resolvePrompts env tr0 dd s).2 ++
          [Call.TriggerTask (addOrUpdateRequest dd s (resolvePrompts env tr0 dd s).1)]) := by
    unfold DoAddOrUpdate
    rw [hDD]
  refine ⟨hDo, ?_⟩
  obtain ⟨calls, hc, hk⟩ := handleDDLoop_calls_kind env dd dd.Spec.Sources [] tr
  refine ⟨calls, ?_, ?_⟩
  · rw [hDo]
    have : (handleDD env tr dd).2 = tr ++ calls := hc
    rw [hDD] at this
    exact this
  · intro c hcm
    rcases hk c hcm with ⟨ns, n, rfl⟩ | ⟨req, rfl⟩
    · refine ⟨?_, ?_, ?_, ?_⟩ <;> intros <;> simp
    · refine ⟨?_, ?_, ?_, ?_⟩ <;> intros <;> simp

/-- Witness of C20 on two sources whose trigger calls are refused: the pass stops at the
first source. -/
theorem C20_trigger_failure_aborts_pass_witness :
    twoSources.Spec.Sources =
      [] ++ plainSource "mysql" "a" [("host", "db")] :: [plainSource "mysql" "b" [("host", "db")]] ∧
    DoAddOrUpdate refusingEnv [] twoSources =
      (some ("failed to handle data descriptor: " ++
          ("failed to trigger task for source " ++ "a" ++ ": " ++ "refused")),
        twoSources,
        [Call.TriggerTask
          (addOrUpdateRequest twoSources (plainSource "mysql" "a" [("host", "db")]) none)]) :=
  ⟨rfl,
    (C20_trigger_failure_aborts_pass refusingEnv [] [] twoSources []
      [plainSource "mysql" "b" [("host", "db")]] (plainSource "mysql" "a" [("host", "db")])
      [] "refused" rfl rfl rfl rfl).1⟩

/-! ## The claims on the generator -/

/-- The deployment that `GenerateDataAgentContainerDeployment` returns is the one built
from the platform configuration, the planner and expert model configurations and the
descriptor types that it resolved. -/
theorem GenerateDataAgentContainerDeployment_ok (env : GenEnv) (tr : List GenCall)
    (dac : DataAgentContainer) (labels : StringMap) (ownerRefs : List OwnerReference)
    (d : Deployment)
    (h : (GenerateDataAgentContainerDeployment env tr dac labels ownerRefs).1 = Except.ok d) :
    ∃ tr1 tr2 tr3 tr4 dacConfig plannerLLMConfig expertLLMConfig ddDescriptorTypes,
      (getDACConfig env tr1).1 = Except.ok dacConfig ∧
      (getPlannerLLMConfig env tr2 dac).1 = Except.ok plannerLLMConfig ∧
      (getExpertLLMConfig env tr3 dac).1 = Except.ok expertLLMConfig ∧
      (getDDDescriptorTypes env tr4 dac).1 = Except.ok ddDescriptorTypes ∧
      d = buildDeployment dac labels ownerRefs dacConfig plannerLLMConfig expertLLMConfig
        ddDescriptorTypes := by
  unfold GenerateDataAgentContainerDeployment at h
  dsimp only at h
  split at h
  · cases h
  · split at h
    · cases h
    · rename_i dacConfig h1
      split at h
      · cases h
      · rename_i planner h2
        split at h
        · cases h
        · rename_i expert h3
          split at h
          · cases h
          · rename_i types h4
            simp only [Except.ok.injEq] at h
            exact ⟨_, _, _, _, dacConfig, planner, expert, types, h1, h2, h3, h4, h.symm⟩

/-- C17: the orchestrator argument list has `--redis-db` followed by `0` and the expert
list `--redis-db` followed by `1`; the expert list ends with `--max-steps` followed by
`Spec.ExpertAgentMaxSteps`, and no flag of the orchestrator list is `--max-steps`; the
flags of the expert list are those of the orchestrator list, in the same order, followed
by `--max-steps`; for one model configuration the two lists agree at every position
before the end of the orchestrator list except the port value and the cache index; each
list carries the provider, api key, base url and model of the model configuration it is
given, and the deployment gives the planner model to the orchestrator and the expert
model to the expert. -/
theorem C17_argument_lists (env : GenEnv) (tr : List GenCall) (dac : DataAgentContainer)
    (planner expert llm : LLMConfig)
    (dacConfig : Option DACConfig) (labels : StringMap) (ownerRefs : List OwnerReference)
    (ddDescriptorTypes : String) :
    ((generateOrchestratorAgentArgs dac llm dacConfig)[6]? = some "--redis-db" ∧
      (generateOrchestratorAgentArgs dac llm dacConfig)[7]? = some "0") ∧
    ((generateExpertAgentArgs dac llm dacConfig)[6]? = some "--redis-db" ∧
      (generateExpertAgentArgs dac llm dacConfig)[7]? = some "1") ∧
    (generateExpertAgentArgs dac llm dacConfig =
      (generateExpertAgentArgs dac llm dacConfig).take 18 ++
        ["--max-steps", dac.Spec.ExpertAgentMaxSteps]) ∧
    (flagsOf (generateOrchestratorAgentArgs dac llm dacConfig) =
      ["--port", "--redis-host", "--redis-port", "--redis-db", "--password", "--provider",
       "--api-key", "--base-url", "--model"] ∧
      "--max-steps" ∉ flagsOf (generateOrchestratorAgentArgs dac llm dacConfig)) ∧
    (flagsOf (generateExpertAgentArgs dac expert dacConfig) =
      flagsOf (generateOrchestratorAgentArgs dac planner dacConfig) ++ ["--max-steps"]) ∧
    ((generateOrchestratorAgentArgs dac llm dacConfig).length = 18 ∧
      ∀ i : Nat, i < 18 → i ≠ 1 → i ≠ 7 →
        (generateOrchestratorAgentArgs dac llm dacConfig)[i]? =
          (generateExpertAgentArgs dac llm dacConfig)[i]?) ∧
    ((generateOrchestratorAgentArgs dac planner dacConfig).drop 10 =
        ["--provider", planner.Provider, "--api-key", planner.APIKey, "--base-url",
         planner.BaseURL, "--model", planner.Model] ∧
      ((generateExpertAgentArgs dac expert dacConfig).drop 10).take 8 =
        ["--provider", expert.Provider, "--api-key", expert.APIKey, "--base-url",
         expert.BaseURL, "--model", expert.Model]) ∧
    ((buildDeployment dac labels ownerRefs dacConfig planner expert
        ddDescriptorTypes).Spec.Containers.map (fun c => (c.Name, c.Args)) =
      [("orchestrator", generateOrchestratorAgentArgs dac planner dacConfig),
       ("expert", generateExpertAgentArgs dac expert dacConfig)]) ∧
    (∀ d, (GenerateDataAgentContainerDeployment env tr dac labels ownerRefs).1 = Except.ok d →
      ∃ tr1 tr2 tr3 tr4 cfg plannerLLMConfig expertLLMConfig types,
        (getDACConfig env tr1).1 = Except.ok cfg ∧
        (getPlannerLLMConfig env tr2 dac).1 = Except.ok plannerLLMConfig ∧
        (getExpertLLMConfig env tr3 dac).1 = Except.ok expertLLMConfig ∧
        (getDDDescriptorTypes env tr4 dac).1 = Except.ok types ∧
        d = buildDeployment dac labels ownerRefs cfg plannerLLMConfig expertLLMConfig types) := by
  refine ⟨⟨rfl, rfl⟩, ⟨rfl, rfl⟩, rfl, ⟨rfl, ?_⟩, rfl, ⟨rfl, ?_⟩, ⟨rfl, rfl⟩, rfl,
    fun d hd => GenerateDataAgentContainerDeployment_ok env tr dac labels ownerRefs d hd⟩
  · simp [generateOrchestratorAgentArgs, flagsOf]
  · intro i hi h1 h7
    interval_cases i <;> first | rfl | exact absurd rfl h1 | exact absurd rfl h7

/-- C18: `getDACConfig` returns no configuration exactly when the lookup of the platform
artifact reports not-found, the configuration read key by key when the artifact is
present (an absent key gives the empty string), and an error otherwise. Without a
configuration, the cache host, port and password of both argument lists, the two images
and the DataServicesURL and AgentRegistry of the orchestrator are the hard-coded defaults,
and neither environment has a `LANGFUSE_*` variable; with a configuration each of these
settings is the value of the configuration, and both environments end with the three
`LANGFUSE_*` variables. -/
theorem C18_platform_configuration_fallback (env : GenEnv) (tr : List GenCall)
    (dac : DataAgentContainer) (labels : StringMap) (ownerRefs : List OwnerReference)
    (planner expert : LLMConfig) (types : String) (cm : ConfigMap) (c : DACConfig) :
    ((getDACConfig env tr).1 =
      match env.GetConfigMap tr "dac" "dac-configuration" with
      | Except.ok configMap => Except.ok (some (configOf configMap))
      | Except.error err =>
        if err.notFound then Except.ok none
        else Except.error ("failed to get ConfigMap: " ++ err.text)) ∧
    (∀ key, mapGet cm.Data key = none → dataOf cm key = "") ∧
    (∀ key value, mapGet cm.Data key = some value → dataOf cm key = value) ∧
    (((generateOrchestratorAgentArgs dac planner none).take 10 =
        ["--port", "10100", "--redis-host", "redis-server.dac.svc.cluster.local",
         "--redis-port", "6379", "--redis-db", "0", "--password", "123"] ∧
      (generateExpertAgentArgs dac expert none).take 10 =
        ["--port", "10101", "--redis-host", "redis-server.dac.svc.cluster.local",
         "--redis-port", "6379", "--redis-db", "1", "--password", "123"]) ∧
      (buildDeployment dac labels ownerRefs none planner expert types).Spec.Containers.map
          (fun k => k.Image) =
        ["registry.cn-shanghai.aliyuncs.com/jamesxiong/orchestrator-agent:v0.2.0-amd64",
         "registry.cn-shanghai.aliyuncs.com/jamesxiong/expert-agent:v0.2.0-amd64"] ∧
      envValue (generateOrchestratorAgentEnvs dac (GenerateDataAgentContainerServiceName dac)
          types none) "DataServicesURL" =
        some "http://data-services.dac.svc.cluster.local:8000" ∧
      envValue (generateOrchestratorAgentEnvs dac (GenerateDataAgentContainerServiceName dac)
          types none) "AgentRegistry" =
        some "http://expert-registry.dac.svc.cluster.local:8000" ∧
      (generateOrchestratorAgentEnvs dac (GenerateDataAgentContainerServiceName dac)
          types none).drop 9 = [] ∧
      (generateExpertAgentEnvs dac (GenerateDataAgentContainerServiceName dac)
          types none).drop 8 = []) ∧
    (((generateOrchestratorAgentArgs dac planner (some c)).take 10 =
        ["--port", "10100", "--redis-host", c.RedisHost, "--redis-port", c.RedisPort,
         "--redis-db", "0", "--password", c.RedisPassword] ∧
      (generateExpertAgentArgs dac expert (some c)).take 10 =
        ["--port", "10101", "--redis-host", c.RedisHost, "--redis-port", c.RedisPort,
         "--redis-db", "1", "--password", c.RedisPassword]) ∧
      (buildDeployment dac labels ownerRefs (some c) planner expert types).Spec.Containers.map
          (fun k => k.Image) = [c.OrchestratorAgentImage, c.ExpertAgentImage] ∧
      envValue (generateOrchestratorAgentEnvs dac (GenerateDataAgentContainerServiceName dac)
          types (some c)) "DataServicesURL" = some c.DataServicesURL ∧
      envValue (generateOrchestratorAgentEnvs dac (GenerateDataAgentContainerServiceName dac)
          types (some c)) "AgentRegistry" = some c.ExpertAgentRegistry ∧
      (generateOrchestratorAgentEnvs dac (GenerateDataAgentContainerServiceName dac)
          types (some c)).drop 9 =
        [{ Name := "LANGFUSE_BASE_URL", Value := c.ObservationBaseURL },
         { Name := "LANGFUSE_SECRET_KEY", Value := c.ObservationSecretKey },
         { Name := "LANGFUSE_PUBLIC_KEY", Value := c.ObservationPublicKey }] ∧
      (generateExpertAgentEnvs dac (GenerateDataAgentContainerServiceName dac)
          types (some c)).drop 8 =
        [{ Name := "LANGFUSE_BASE_URL", Value := c.ObservationBaseURL },
         { Name := "LANGFUSE_SECRET_KEY", Value := c.ObservationSecretKey },
         { Name := "LANGFUSE_PUBLIC_KEY", Value := c.ObservationPublicKey }]) ∧
    ((buildDeployment dac labels ownerRefs (some c) planner expert types).Spec.Containers.map
        (fun k => (k.Args, k.Env)) =
      [(generateOrchestratorAgentArgs dac planner (some c),
         generateOrchestratorAgentEnvs dac (GenerateDataAgentContainerServiceName dac) types
           (some c)),
       (generateExpertAgentArgs dac expert (some c),
         generateExpertAgentEnvs dac (GenerateDataAgentContainerServiceName dac) types
           (some c))]) ∧
    (∀ d, (GenerateDataAgentContainerDeployment env tr dac labels ownerRefs).1 = Except.ok d →
      ∃ tr1 tr2 tr3 tr4 cfg plannerLLMConfig expertLLMConfig ddDescriptorTypes,
        (getDACConfig env tr1).1 = Except.ok cfg ∧
        (getPlannerLLMConfig env tr2 dac).1 = Except.ok plannerLLMConfig ∧
        (getExpertLLMConfig env tr3 dac).1 = Except.ok expertLLMConfig ∧
        (getDDDescriptorTypes env tr4 dac).1 = Except.ok ddDescriptorTypes ∧
        d = buildDeployment dac labels ownerRefs cfg plannerLLMConfig expertLLMConfig
          ddDescriptorTypes) := by
  refine ⟨?_, ?_, ?_, ⟨⟨rfl, rfl⟩, rfl, ?_, ?_, rfl, rfl⟩, ⟨⟨rfl, rfl⟩, rfl, ?_, ?_, rfl, rfl⟩,
    rfl, fun d hd => GenerateDataAgentContainerDeployment_ok env tr dac labels ownerRefs d hd⟩
  · unfold getDACConfig
    dsimp only
    cases env.GetConfigMap tr "dac" "dac-configuration" with
    | error err => by_cases hn : err.notFound <;> simp [hn]
    | ok configMap => rfl
  · intro key h
    simp [dataOf, h]
  · intro key value h
    simp [dataOf, h]
  · simp [envValue, generateOrchestratorAgentEnvs, List.find?]
  · simp [envValue, generateOrchestratorAgentEnvs, List.find?]
  · simp [envValue, generateOrchestratorAgentEnvs, List.find?]
  · simp [envValue, generateOrchestratorAgentEnvs, List.find?]

/-! ## Lemmas on the descriptor-type encoding -/

theorem writeMetadata_append (m : StringMap) :
    ∀ result : String, writeMetadata result m = result ++ writeMetadata "" m := by
  induction m with
  | nil => intro result; simp [writeMetadata]
  | cons e rest ih =>
    intro result
    obtain ⟨key, value⟩ := e
    simp only [writeMetadata]
    rw [ih (result ++ ":" ++ key ++ ":" ++ value), ih ("" ++ ":" ++ key ++ ":" ++ value)]
    simp [String.append_assoc]

theorem writeRecord_eq (result item : String) (dataDescriptor : DataDescriptor) (seed : Nat) :
    writeRecord result item dataDescriptor seed =
      result ++ (item ++ ":" ++ dataDescriptor.Spec.DescriptorType ++
        metadataSuffix dataDescriptor seed) := by
  unfold writeRecord metadataSuffix
  dsimp only
  split
  · split_ifs
    · rw [writeMetadata_append]
      simp [String.append_assoc]
    · simp [String.append_assoc]
  · simp [String.append_assoc]

theorem intercalate_go_eq (l : List String) :
    ∀ acc : String, String.intercalate.go acc ";" l = acc ++ sepAll l := by
  induction l with
  | nil => intro acc; simp [String.intercalate.go, sepAll]
  | cons r rs ih =>
    intro acc
    simp only [String.intercalate.go, sepAll]
    rw [ih]
    simp [String.append_assoc]

theorem intercalate_cons_eq (r : String) (rs : List String) :
    ";".intercalate (r :: rs) = r ++ sepAll rs := by
  simp only [String.intercalate]
  exact intercalate_go_eq rs r

/-- The encoding, when every name can be fetched: one record per fetched name, in the
order of the selector, each made of the name, the type of the descriptor and the suffix of
its metadata under some order of the map. -/
theorem getDDDescriptorTypesLoop_ok (env : GenEnv) (dac : DataAgentContainer)
    (cluster : String → DataDescriptor) (selector : List String) :
    ∀ (result : String) (first : Bool) (tr : List GenCall),
      (∀ tr1, ∀ n ∈ selectedNames selector,
        env.GetDataDescriptor tr1 dac.Namespace n = Except.ok (cluster n)) →
      ∃ seeds : List Nat, seeds.length = (selectedNames selector).length ∧
        (getDDDescriptorTypesLoop env dac selector result first tr).1 =
          Except.ok (result ++
            (if first then
              ";".intercalate (List.zipWith
                (fun n seed => n ++ ":" ++ (cluster n).Spec.DescriptorType ++
                  metadataSuffix (cluster n) seed) (selectedNames selector) seeds)
            else
              sepAll (List.zipWith
                (fun n seed => n ++ ":" ++ (cluster n).Spec.DescriptorType ++
                  metadataSuffix (cluster n) seed) (selectedNames selector) seeds))) := by
  induction selector with
  | nil =>
    intro result first tr _
    refine ⟨[], rfl, ?_⟩
    cases first <;> simp [getDDDescriptorTypesLoop, selectedNames, sepAll, String.intercalate]
  | cons item rest ih =>
    intro result first tr hget
    by_cases hb : TrimSpace item = ""
    · have hsel : selectedNames (item :: rest) = selectedNames rest := by
        simp [selectedNames, hb]
      rw [hsel] at hget ⊢
      obtain ⟨seeds, hl, hres⟩ := ih result first tr hget
      refine ⟨seeds, hl, ?_⟩
      rw [getDDDescriptorTypesLoop]
      simp only [hb, if_true]
      exact hres
    · have hsel : selectedNames (item :: rest) = TrimSpace item :: selectedNames rest := by
        simp [selectedNames, hb]
      have hrest : ∀ tr1, ∀ n ∈ selectedNames rest,
          env.GetDataDescriptor tr1 dac.Namespace n = Except.ok (cluster n) := by
        intro tr1 n hn
        exact hget tr1 n (by rw [hsel]; exact List.mem_cons_of_mem _ hn)
      have hhead := hget tr (TrimSpace item) (by rw [hsel]; exact List.mem_cons_self _ _)
      rw [hsel]
      rw [getDDDescriptorTypesLoop]
      simp only [hb, if_false, hhead]
      obtain ⟨seeds, hl, hres⟩ := ih
        (writeRecord (if first = false then result ++ ";" else result) (TrimSpace item)
          (cluster (TrimSpace item))
          (env.MapOrder (tr ++ [GenCall.GetDataDescriptor dac.Namespace (TrimSpace item)])))
        false (tr ++ [GenCall.GetDataDescriptor dac.Namespace (TrimSpace item)]) hrest
      refine ⟨env.MapOrder (tr ++ [GenCall.GetDataDescriptor dac.Namespace (TrimSpace item)])
        :: seeds, by simp [hl], ?_⟩
      rw [hres, writeRecord_eq]
      simp only [Bool.false_eq_true, if_false, List.zipWith_cons_cons]
      cases first
      · simp [sepAll, String.append_assoc]
      · simp [intercalate_cons_eq, String.append_assoc]

/-- A `range` visits every entry of the map exactly once: the order is a permutation. -/
theorem rangeOrder_perm : ∀ (fuel seed : Nat) (m : StringMap), m.length ≤ fuel →
    (rangeOrder fuel seed m).Perm m := by
  intro fuel
  induction fuel with
  | zero =>
    intro seed m h
    have : m = [] := List.eq_nil_of_length_eq_zero (Nat.le_zero.mp h)
    subst this
    exact List.Perm.refl _
  | succ k ih =>
    intro seed m h
    cases m with
    | nil => exact List.Perm.refl _
    | cons e rest =>
      have hi : seed % (e :: rest).length < (e :: rest).length :=
        Nat.mod_lt _ (by simp)
      have hrec : rangeOrder (k + 1) seed (e :: rest) =
          (e :: rest).getD (seed % (e :: rest).length) e ::
            rangeOrder k (seed / (e :: rest).length)
              ((e :: rest).eraseIdx (seed % (e :: rest).length)) := rfl
      rw [hrec]
      generalize seed % (e :: rest).length = i at hi
      generalize seed / (e :: rest).length = q
      generalize e :: rest = m at hi h
      have hlen : (m.eraseIdx i).length ≤ k := by
        rw [List.length_eraseIdx, if_pos hi]
        omega
      have h1 : (m.getD i e :: rangeOrder k q (m.eraseIdx i)).Perm
          (m.getD i e :: m.eraseIdx i) := List.Perm.cons _ (ih q _ hlen)
      refine h1.trans ?_
      have hg : m.getD i e = m[i] := by
        rw [List.getD_eq_getElem?_getD, List.getElem?_eq_getElem hi]
        rfl
      rw [hg, List.eraseIdx_eq_take_drop_succ]
      have hm : m = m.take i ++ m[i] :: m.drop (i + 1) := by
        rw [← List.drop_eq_getElem_cons hi, List.take_append_drop]
      conv_rhs => rw [hm]
      exact List.perm_middle.symm

/-- C12: when every entry of the selector is non-blank and names an existing descriptor,
`getDDDescriptorTypes` returns as many records as there are entries, joined by single
`;` characters, and the i-th record begins with the (trimmed) i-th name, `:` and the
DescriptorType of that descriptor. -/
theorem C12_records_in_selector_order (env : GenEnv) (tr : List GenCall)
    (dac : DataAgentContainer) (cluster : String → DataDescriptor)
    (hnb : ∀ d ∈ dac.Spec.DataPolicy.SourceNameSelector, TrimSpace d ≠ "")
    (hget : ∀ tr1, ∀ d ∈ dac.Spec.DataPolicy.SourceNameSelector,
      env.GetDataDescriptor tr1 dac.Namespace (TrimSpace d) = Except.ok (cluster (TrimSpace d))) :
    ∃ records : List String,
      records.length = dac.Spec.DataPolicy.SourceNameSelector.length ∧
      (getDDDescriptorTypes env tr dac).1 = Except.ok (";".intercalate records) ∧
      ∀ (i : Nat) (h : i < dac.Spec.DataPolicy.SourceNameSelector.length),
        ∃ rest, records[i]? =
          some (TrimSpace dac.Spec.DataPolicy.SourceNameSelector[i] ++ ":" ++
            (cluster (TrimSpace dac.Spec.DataPolicy.SourceNameSelector[i])).Spec.DescriptorType
            ++ rest) := by
  have hsel : selectedNames dac.Spec.DataPolicy.SourceNameSelector =
      dac.Spec.DataPolicy.SourceNameSelector.map TrimSpace := by
    unfold selectedNames
    rw [List.filter_eq_self]
    intro n hn
    obtain ⟨d, hd, rfl⟩ := List.mem_map.mp hn
    simpa using hnb d hd
  have hget2 : ∀ tr1, ∀ n ∈ selectedNames dac.Spec.DataPolicy.SourceNameSelector,
      env.GetDataDescriptor tr1 dac.Namespace n = Except.ok (cluster n) := by
    intro tr1 n hn
    rw [hsel] at hn
    obtain ⟨d, hd, rfl⟩ := List.mem_map.mp hn
    exact hget tr1 d hd
  obtain ⟨seeds, hl, hres⟩ := getDDDescriptorTypesLoop_ok env dac cluster
    dac.Spec.DataPolicy.SourceNameSelector "" true tr hget2
  rw [hsel] at hl hres
  simp only [List.length_map] at hl
  refine ⟨List.zipWith
    (fun n seed => n ++ ":" ++ (cluster n).Spec.DescriptorType ++ metadataSuffix (cluster n) seed)
    (dac.Spec.DataPolicy.SourceNameSelector.map TrimSpace) seeds, ?_, ?_, ?_⟩
  · simp [hl]
  · unfold getDDDescriptorTypes
    rw [hres]
    simp only [if_true, String.empty_append]
  · intro i h
    have hs : i < seeds.length := by rw [hl]; exact h
    refine ⟨metadataSuffix (cluster (TrimSpace dac.Spec.DataPolicy.SourceNameSelector[i]))
      seeds[i], ?_⟩
    rw [List.getElem?_eq_getElem (by simp [hl, h])]
    simp

/-- Witness of C12 on the selector `["db1", "db2"]`: the record of `db1` precedes the
record of `db2`. -/
theorem C12_records_in_selector_order_witness :
    (∀ d ∈ sampleAgent.Spec.DataPolicy.SourceNameSelector, TrimSpace d ≠ "") ∧
    (∃ records : List String,
      records.length = sampleAgent.Spec.DataPolicy.SourceNameSelector.length ∧
      (getDDDescriptorTypes (sampleCluster 0) [] sampleAgent).1 =
        Except.ok (";".intercalate records) ∧
      ∀ (i : Nat) (h : i < sampleAgent.Spec.DataPolicy.SourceNameSelector.length),
        ∃ rest, records[i]? =
          some (TrimSpace sampleAgent.Spec.DataPolicy.SourceNameSelector[i] ++ ":" ++
            (sampleContents
              (TrimSpace sampleAgent.Spec.DataPolicy.SourceNameSelector[i])).Spec.DescriptorType
            ++ rest)) ∧
    (getDDDescriptorTypes (sampleCluster 0) [] sampleAgent).1 =
      Except.ok "db1:mysql:host:db:port:3306;db2:postgres" :=
  ⟨by decide,
    C12_records_in_selector_order (sampleCluster 0) [] sampleAgent sampleContents (by decide)
      (fun _ d hd => by
        simp only [sampleAgent, List.mem_cons, List.mem_singleton, List.not_mem_nil,
          or_false] at hd
        rcases hd with rfl | rfl <;> rfl),
    rfl⟩

/-- C13 fails on the code: `getDDDescriptorTypes` writes the metadata of the first source
with a `range` over the map, so with the same Agent Container and the same cluster
contents two invocations that differ only in the order of that `range` return different
strings. -/
theorem C13_encoding_depends_on_map_order :
    (getDDDescriptorTypes (sampleCluster 0) [] sampleAgent).1 =
      Except.ok "db1:mysql:host:db:port:3306;db2:postgres" ∧
    (getDDDescriptorTypes (sampleCluster 1) [] sampleAgent).1 =
      Except.ok "db1:mysql:port:3306:host:db;db2:postgres" ∧
    (getDDDescriptorTypes (sampleCluster 0) [] sampleAgent).1 ≠
      (getDDDescriptorTypes (sampleCluster 1) [] sampleAgent).1 := by
  refine ⟨rfl, rfl, ?_⟩
  intro h
  have h0 : (getDDDescriptorTypes (sampleCluster 0) [] sampleAgent).1 =
      Except.ok "db1:mysql:host:db:port:3306;db2:postgres" := rfl
  have h1 : (getDDDescriptorTypes (sampleCluster 1) [] sampleAgent).1 =
      Except.ok "db1:mysql:port:3306:host:db;db2:postgres" := rfl
  rw [h0, h1] at h
  exact absurd (Except.ok.inj h) (by decide)

/-! ## Lemmas on the calls of the generator -/

theorem createConfigMapForSkills_kind (env : GenEnv) (tr : List GenCall)
    (dac : DataAgentContainer) :
    ∀ c ∈ (createConfigMapForSkills env tr dac).2, c.kind = "CreateIfNotExistsConfigMap" := by
  unfold createConfigMapForSkills
  intro c hc
  split at hc
  · split at hc
    · simp at hc
    · simp only [List.mem_singleton] at hc
      subst hc
      rfl
  · simp at hc

theorem getDACConfig_calls (env : GenEnv) (tr : List GenCall) :
    (getDACConfig env tr).2 = [GenCall.GetConfigMap "dac" "dac-configuration"] := by
  unfold getDACConfig
  dsimp only
  split
  · split_ifs <;> rfl
  · rfl

theorem getLLMConfig_calls (env : GenEnv) (tr : List GenCall) (dac : DataAgentContainer)
    (name : String) :
    (getLLMConfig env tr dac name).2 = [GenCall.GetConfigMap dac.Namespace name] := by
  unfold getLLMConfig
  split <;> rfl

theorem getLLMConfig_error (env : GenEnv) (tr : List GenCall) (dac : DataAgentContainer)
    (name : String) (e : K8sError) (h : env.GetConfigMap tr dac.Namespace name = Except.error e) :
    (getLLMConfig env tr dac name).1 = Except.error ("failed to get ConfigMap: " ++ e.text) := by
  unfold getLLMConfig
  rw [h]

theorem getDDDescriptorTypesLoop_kind (env : GenEnv) (dac : DataAgentContainer)
    (selector : List String) :
    ∀ (result : String) (first : Bool) (tr : List GenCall),
      ∀ c ∈ (getDDDescriptorTypesLoop env dac selector result first tr).2,
        c.kind = "GetDataDescriptor" := by
  induction selector with
  | nil => intro result first tr c hc; simp [getDDDescriptorTypesLoop] at hc
  | cons item rest ih =>
    intro result first tr c hc
    rw [getDDDescriptorTypesLoop] at hc
    dsimp only at hc
    by_cases hb : TrimSpace item = ""
    · rw [if_pos hb] at hc
      exact ih _ _ _ c hc
    · rw [if_neg hb] at hc
      cases hG : env.GetDataDescriptor tr dac.Namespace (TrimSpace item) with
      | error err =>
        rw [hG] at hc
        simp only [List.mem_singleton] at hc
        subst hc
        rfl
      | ok dataDescriptor =>
        rw [hG] at hc
        simp only [List.mem_cons] at hc
        rcases hc with rfl | hc
        · rfl
        · exact ih _ _ _ c hc

/-- The calls of `GenerateDataAgentContainerDeployment` are the skills ConfigMap creation
and lookups of ConfigMaps and Data Descriptors. -/
theorem GenerateDataAgentContainerDeployment_kind (env : GenEnv) (tr : List GenCall)
    (dac : DataAgentContainer) (labels : StringMap) (ownerRefs : List OwnerReference) :
    ∀ c ∈ (GenerateDataAgentContainerDeployment env tr dac labels ownerRefs).2,
      c.kind = "CreateIfNotExistsConfigMap" ∨ c.kind = "GetConfigMap" ∨
        c.kind = "GetDataDescriptor" := by
  have k0 : ∀ c ∈ (if dac.Spec.AgentCard.Skills ≠ none then createConfigMapForSkills env tr dac
      else ((none : Option String), ([] : List GenCall))).2,
      c.kind = "CreateIfNotExistsConfigMap" := by
    intro c hc
    split_ifs at hc
    · exact createConfigMapForSkills_kind env tr dac c hc
    · simp at hc
  have k1 : ∀ tr1, ∀ c ∈ (getDACConfig env tr1).2, c.kind = "GetConfigMap" := by
    intro tr1 c hc
    rw [getDACConfig_calls] at hc
    simp only [List.mem_singleton] at hc
    subst hc
    rfl
  have k2 : ∀ tr1 name, ∀ c ∈ (getLLMConfig env tr1 dac name).2, c.kind = "GetConfigMap" := by
    intro tr1 name c hc
    rw [getLLMConfig_calls] at hc
    simp only [List.mem_singleton] at hc
    subst hc
    rfl
  have k4 : ∀ tr1, ∀ c ∈ (getDDDescriptorTypes env tr1 dac).2, c.kind = "GetDataDescriptor" :=
    fun tr1 c hc => getDDDescriptorTypesLoop_kind env dac _ _ _ _ c hc
  intro c hc
  unfold GenerateDataAgentContainerDeployment at hc
  dsimp only at hc
  split at hc
  · exact Or.inl (k0 c hc)
  · split at hc
    · rcases List.mem_append.mp hc with h | h
      · exact Or.inl (k0 c h)
      · exact Or.inr (Or.inl (k1 _ c h))
    · split at hc
      · simp only [List.mem_append] at hc
        rcases hc with (h | h) | h
        · exact Or.inl (k0 c h)
        · exact Or.inr (Or.inl (k1 _ c h))
        · exact Or.inr (Or.inl (k2 _ _ c h))
      · split at hc
        · simp only [List.mem_append] at hc
          rcases hc with ((h | h) | h) | h
          · exact Or.inl (k0 c h)
          · exact Or.inr (Or.inl (k1 _ c h))
          · exact Or.inr (Or.inl (k2 _ _ c h))
          · exact Or.inr (Or.inl (k2 _ _ c h))
        · have hall : c ∈ (if dac.Spec.AgentCard.Skills ≠ none then
                createConfigMapForSkills env tr dac
              else ((none : Option String), ([] : List GenCall))).2 ∨
              c.kind = "GetConfigMap" ∨ c.kind = "GetDataDescriptor" := by
            split at hc
            all_goals
              simp only [List.mem_append] at hc
              rcases hc with (((h | h) | h) | h) | h
              · exact Or.inl h
              · exact Or.inr (Or.inl (k1 _ c h))
              · exact Or.inr (Or.inl (k2 _ _ c h))
              · exact Or.inr (Or.inl (k2 _ _ c h))
              · exact Or.inr (Or.inr (k4 _ c h))
          rcases hall with h | h
          · exact Or.inl (k0 c h)
          · exact Or.inr h

theorem ensureService_cases (env : GenEnv) (tr : List GenCall) (dac : DataAgentContainer)
    (service : Service) :
    ((∃ err, env.GetService tr dac.Namespace (GenerateDataAgentContainerServiceName dac) =
          Except.error err ∧ err.notFound = true) ∧
      (ensureService env tr dac service).2 =
        [GenCall.GetService dac.Namespace (GenerateDataAgentContainerServiceName dac),
         GenCall.CreateService dac.Namespace service]) ∨
    ((¬ ∃ err, env.GetService tr dac.Namespace (GenerateDataAgentContainerServiceName dac) =
          Except.error err ∧ err.notFound = true) ∧
      (ensureService env tr dac service).1 = none ∧
      (ensureService env tr dac service).2 =
        [GenCall.GetService dac.Namespace (GenerateDataAgentContainerServiceName dac)]) := by
  unfold ensureService
  dsimp only
  cases h : env.GetService tr dac.Namespace (GenerateDataAgentContainerServiceName dac) with
  | error err =>
    by_cases hn : err.notFound = true
    · left
      exact ⟨⟨err, rfl, hn⟩, by simp [hn]⟩
    · right
      refine ⟨?_, by simp [hn], by simp [hn]⟩
      rintro ⟨e, he, hne⟩
      cases he
      exact hn hne
  | ok svc =>
    right
    refine ⟨?_, rfl, rfl⟩
    rintro ⟨e, he, _⟩
    cases he

theorem ensureDeployment_cases (env : GenEnv) (tr : List GenCall) (dac : DataAgentContainer)
    (deployment : Deployment) :
    ((∃ err, env.GetDeployment tr dac.Namespace (GenerateDataAgentContainerDeploymentName dac) =
          Except.error err ∧ err.notFound = true) ∧
      (ensureDeployment env tr dac deployment).2 =
        [GenCall.GetDeployment dac.Namespace (GenerateDataAgentContainerDeploymentName dac),
         GenCall.CreateDeployment dac.Namespace deployment]) ∨
    ((¬ ∃ err, env.GetDeployment tr dac.Namespace
          (GenerateDataAgentContainerDeploymentName dac) =
          Except.error err ∧ err.notFound = true) ∧
      (ensureDeployment env tr dac deployment).1 = none ∧
      (ensureDeployment env tr dac deployment).2 =
        [GenCall.GetDeployment dac.Namespace (GenerateDataAgentContainerDeploymentName dac)]) := by
  unfold ensureDeployment
  dsimp only
  cases h : env.GetDeployment tr dac.Namespace (GenerateDataAgentContainerDeploymentName dac) with
  | error err =>
    by_cases hn : err.notFound = true
    · left
      exact ⟨⟨err, rfl, hn⟩, by simp [hn]⟩
    · right
      refine ⟨?_, by simp [hn], by simp [hn]⟩
      rintro ⟨e, he, hne⟩
      cases he
      exact hn hne
  | ok d =>
    right
    refine ⟨?_, rfl, rfl⟩
    rintro ⟨e, he, _⟩
    cases he

theorem ensureService_kind (env : GenEnv) (tr : List GenCall) (dac : DataAgentContainer)
    (service : Service) :
    ∀ c ∈ (ensureService env tr dac service).2,
      c.kind = "GetService" ∨ c.kind = "CreateService" := by
  intro c hc
  rcases ensureService_cases env tr dac service with ⟨_, h⟩ | ⟨_, _, h⟩
  · rw [h] at hc
    simp only [List.mem_cons, List.mem_singleton, List.not_mem_nil, or_false] at hc
    rcases hc with rfl | rfl
    · exact Or.inl rfl
    · exact Or.inr rfl
  · rw [h] at hc
    simp only [List.mem_singleton] at hc
    subst hc
    exact Or.inl rfl

/-- The calls of `Do`: the service block, then the calls of the deployment generation,
then, when the generation succeeded, the deployment block. -/
theorem Do_calls (env : GenEnv) (tr : List GenCall) (dac : DataAgentContainer) :
    (Do env tr dac).2 =
        (ensureService env tr dac
          (GenerateDataAgentContainerService dac (labelsOf dac) (ownerRefsOf dac))).2 ∨
    (Do env tr dac).2 =
        (ensureService env tr dac
          (GenerateDataAgentContainerService dac (labelsOf dac) (ownerRefsOf dac))).2 ++
        (GenerateDataAgentContainerDeployment env
          (tr ++ (ensureService env tr dac
            (GenerateDataAgentContainerService dac (labelsOf dac) (ownerRefsOf dac))).2)
          dac (labelsOf dac) (ownerRefsOf dac)).2 ∨
    ∃ deployment,
      (GenerateDataAgentContainerDeployment env
          (tr ++ (ensureService env tr dac
            (GenerateDataAgentContainerService dac (labelsOf dac) (ownerRefsOf dac))).2)
          dac (labelsOf dac) (ownerRefsOf dac)).1 = Except.ok deployment ∧
      (Do env tr dac).1 =
        (ensureDeployment env
          (tr ++ (ensureService env tr dac
              (GenerateDataAgentContainerService dac (labelsOf dac) (ownerRefsOf dac))).2 ++
            (GenerateDataAgentContainerDeployment env
              (tr ++ (ensureService env tr dac
                (GenerateDataAgentContainerService dac (labelsOf dac) (ownerRefsOf dac))).2)
              dac (labelsOf dac) (ownerRefsOf dac)).2)
          dac deployment).1 ∧
      (Do env tr dac).2 =
        (ensureService env tr dac
          (GenerateDataAgentContainerService dac (labelsOf dac) (ownerRefsOf dac))).2 ++
        (GenerateDataAgentContainerDeployment env
          (tr ++ (ensureService env tr dac
            (GenerateDataAgentContainerService dac (labelsOf dac) (ownerRefsOf dac))).2)
          dac (labelsOf dac) (ownerRefsOf dac)).2 ++
        (ensureDeployment env
          (tr ++ (ensureService env tr dac
              (GenerateDataAgentContainerService dac (labelsOf dac) (ownerRefsOf dac))).2 ++
            (GenerateDataAgentContainerDeployment env
              (tr ++ (ensureService env tr dac
                (GenerateDataAgentContainerService dac (labelsOf dac) (ownerRefsOf dac))).2)
              dac (labelsOf dac) (ownerRefsOf dac)).2)
          dac deployment).2 := by
  unfold Do
  dsimp only
  split
  · exact Or.inl rfl
  · split
    · exact Or.inr (Or.inl rfl)
    · rename_i deployment hd
      exact Or.inr (Or.inr ⟨deployment, hd, rfl, rfl⟩)

theorem serviceName_eq (dac : DataAgentContainer) :
    GenerateDataAgentContainerServiceName dac = dac.Name ++ "-service" := by
  unfold GenerateDataAgentContainerServiceName
  rw [String.append_assoc]
  rfl

theorem deploymentName_eq (dac : DataAgentContainer) :
    GenerateDataAgentContainerDeploymentName dac = dac.Name ++ "-deployment" := by
  unfold GenerateDataAgentContainerDeploymentName
  rw [String.append_assoc]
  rfl

/-- Every call of `Do` is one of the seven operations below: none changes or removes an
object. -/
theorem Do_kind (env : GenEnv) (tr : List GenCall) (dac : DataAgentContainer) :
    ∀ c ∈ (Do env tr dac).2,
      c.kind ∈ ["GetService", "CreateService", "CreateIfNotExistsConfigMap", "GetConfigMap",
        "GetDataDescriptor", "GetDeployment", "CreateDeployment"] := by
  intro c hc
  have kA := ensureService_kind env tr dac
    (GenerateDataAgentContainerService dac (labelsOf dac) (ownerRefsOf dac)) c
  have kB := GenerateDataAgentContainerDeployment_kind env
    (tr ++ (ensureService env tr dac
      (GenerateDataAgentContainerService dac (labelsOf dac) (ownerRefsOf dac))).2)
    dac (labelsOf dac) (ownerRefsOf dac) c
  rcases Do_calls env tr dac with h | h | ⟨deployment, _, _, h⟩
  · rw [h] at hc
    rcases kA hc with k | k <;> simp [k]
  · rw [h] at hc
    rcases List.mem_append.mp hc with m | m
    · rcases kA m with k | k <;> simp [k]
    · rcases kB m with k | k | k <;> simp [k]
  · rw [h] at hc
    simp only [List.mem_append] at hc
    rcases hc with (m | m) | m
    · rcases kA m with k | k <;> simp [k]
    · rcases kB m with k | k | k <;> simp [k]
    · rcases ensureDeployment_cases env _ dac deployment with ⟨_, e⟩ | ⟨_, _, e⟩
      · rw [e] at m
        simp only [List.mem_cons, List.mem_singleton, List.not_mem_nil, or_false] at m
        rcases m with rfl | rfl <;> simp [GenCall.kind]
      · rw [e] at m
        simp only [List.mem_singleton] at m
        subst m
        simp [GenCall.kind]

/-- C16: `Do` first looks the service `<name>-service` up; it calls `CreateService` only
when that lookup reported not-found, and `CreateDeployment` only right after a lookup of
`<name>-deployment` that reported not-found; no call of `Do` updates or deletes an object,
so a child whose lookup succeeds is left as it is, whatever the generated object is. -/
theorem C16_children_created_only_if_absent (env : GenEnv) (tr : List GenCall)
    (dac : DataAgentContainer) :
    (∃ rest, (Do env tr dac).2 =
      GenCall.GetService dac.Namespace (dac.Name ++ "-service") :: rest) ∧
    (∀ ns svc, GenCall.CreateService ns svc ∈ (Do env tr dac).2 →
      ∃ err, env.GetService tr dac.Namespace (dac.Name ++ "-service") = Except.error err ∧
        err.notFound = true) ∧
    (∀ ns d, GenCall.CreateDeployment ns d ∈ (Do env tr dac).2 →
      ∃ pre err,
        (Do env tr dac).2 =
          pre ++ [GenCall.GetDeployment dac.Namespace (dac.Name ++ "-deployment"),
            GenCall.CreateDeployment ns d] ∧
        env.GetDeployment (tr ++ pre) dac.Namespace (dac.Name ++ "-deployment") =
          Except.error err ∧
        err.notFound = true) ∧
    (∀ c ∈ (Do env tr dac).2,
      (∀ k ns n, c ≠ GenCall.Update k ns n) ∧ (∀ k ns n, c ≠ GenCall.Delete k ns n)) ∧
    (∀ existing,
      env.GetService tr dac.Namespace (dac.Name ++ "-service") = Except.ok existing →
      ∀ ns svc, GenCall.CreateService ns svc ∉ (Do env tr dac).2) := by
  have kA := ensureService_kind env tr dac
    (GenerateDataAgentContainerService dac (labelsOf dac) (ownerRefsOf dac))
  have kB := GenerateDataAgentContainerDeployment_kind env
    (tr ++ (ensureService env tr dac
      (GenerateDataAgentContainerService dac (labelsOf dac) (ownerRefsOf dac))).2)
    dac (labelsOf dac) (ownerRefsOf dac)
  have cA := ensureService_cases env tr dac
    (GenerateDataAgentContainerService dac (labelsOf dac) (ownerRefsOf dac))
  rw [serviceName_eq] at cA
  have hsvc : ∀ ns svc, GenCall.CreateService ns svc ∈ (Do env tr dac).2 →
      ∃ err, env.GetService tr dac.Namespace (dac.Name ++ "-service") = Except.error err ∧
        err.notFound = true := by
    intro ns svc hc
    rcases cA with ⟨hex, _⟩ | ⟨_, _, e⟩
    · exact hex
    · exfalso
      have notA : GenCall.CreateService ns svc ∉ (ensureService env tr dac
          (GenerateDataAgentContainerService dac (labelsOf dac) (ownerRefsOf dac))).2 := by
        rw [e]
        simp
      rcases Do_calls env tr dac with h | h | ⟨deployment, _, _, h⟩
      · rw [h] at hc
        exact notA hc
      · rw [h] at hc
        rcases List.mem_append.mp hc with m | m
        · exact notA m
        · rcases kB _ m with k | k | k <;> simp [GenCall.kind] at k
      · rw [h] at hc
        simp only [List.mem_append] at hc
        rcases hc with (m | m) | m
        · exact notA m
        · rcases kB _ m with k | k | k <;> simp [GenCall.kind] at k
        · rcases ensureDeployment_cases env _ dac deployment with ⟨_, e2⟩ | ⟨_, _, e2⟩
          · rw [e2] at m
            simp at m
          · rw [e2] at m
            simp at m
  refine ⟨?_, hsvc, ?_, ?_, ?_⟩
  · have hhead : ∃ rest, (ensureService env tr dac
        (GenerateDataAgentContainerService dac (labelsOf dac) (ownerRefsOf dac))).2 =
        GenCall.GetService dac.Namespace (dac.Name ++ "-service") :: rest := by
      rcases cA with ⟨_, e⟩ | ⟨_, _, e⟩
      · exact ⟨_, e⟩
      · exact ⟨_, e⟩
    obtain ⟨rest, hr⟩ := hhead
    rcases Do_calls env tr dac with h | h | ⟨deployment, _, _, h⟩
    · exact ⟨rest, by rw [h, hr]⟩
    · exact ⟨_, by rw [h, hr, List.cons_append]⟩
    · exact ⟨_, by rw [h, hr, List.cons_append, List.cons_append]⟩
  · intro ns d hc
    rcases Do_calls env tr dac with h | h | ⟨deployment, _, _, h⟩
    · rw [h] at hc
      rcases kA _ hc with k | k <;> simp [GenCall.kind] at k
    · rw [h] at hc
      rcases List.mem_append.mp hc with m | m
      · rcases kA _ m with k | k <;> simp [GenCall.kind] at k
      · rcases kB _ m with k | k | k <;> simp [GenCall.kind] at k
    · rw [h] at hc
      simp only [List.mem_append] at hc
      rcases hc with (m | m) | m
      · rcases kA _ m with k | k <;> simp [GenCall.kind] at k
      · rcases kB _ m with k | k | k <;> simp [GenCall.kind] at k
      · rcases ensureDeployment_cases env _ dac deployment with ⟨⟨err, he, hn⟩, e2⟩ | ⟨_, _, e2⟩
        · rw [e2] at m
          simp only [List.mem_cons, List.mem_singleton, List.not_mem_nil, or_false,
            GenCall.CreateDeployment.injEq, reduceCtorEq, false_or] at m
          obtain ⟨rfl, rfl⟩ := m
          rw [deploymentName_eq] at he e2
          refine ⟨(ensureService env tr dac
              (GenerateDataAgentContainerService dac (labelsOf dac) (ownerRefsOf dac))).2 ++
            (GenerateDataAgentContainerDeployment env
              (tr ++ (ensureService env tr dac
                (GenerateDataAgentContainerService dac (labelsOf dac) (ownerRefsOf dac))).2)
              dac (labelsOf dac) (ownerRefsOf dac)).2, err, ?_, ?_, hn⟩
          · rw [h, e2]
          · rw [← List.append_assoc]
            exact he
        · rw [e2] at m
          simp at m
  · intro c hc
    have hk := Do_kind env tr dac c hc
    refine ⟨?_, ?_⟩
    · intro k ns n hEq
      subst hEq
      simp [GenCall.kind] at hk
    · intro k ns n hEq
      subst hEq
      simp [GenCall.kind] at hk
  · intro existing hex ns svc hc
    obtain ⟨err, he, _⟩ := hsvc ns svc hc
    rw [hex] at he
    cases he

/-! ## Lemmas on the failures of the generator -/

/-- When the deployment generation fails, `Do` returns an error and does not call
`CreateDeployment`. -/
theorem Do_of_generate_error (env : GenEnv) (tr : List GenCall) (dac : DataAgentContainer)
    (hgen : ∀ tr1, ∃ err,
      (GenerateDataAgentContainerDeployment env tr1 dac (labelsOf dac) (ownerRefsOf dac)).1 =
        Except.error err) :
    (Do env tr dac).1 ≠ none ∧ ∀ ns d, GenCall.CreateDeployment ns d ∉ (Do env tr dac).2 := by
  have kA := ensureService_kind env tr dac
    (GenerateDataAgentContainerService dac (labelsOf dac) (ownerRefsOf dac))
  have kB := GenerateDataAgentContainerDeployment_kind env
    (tr ++ (ensureService env tr dac
      (GenerateDataAgentContainerService dac (labelsOf dac) (ownerRefsOf dac))).2)
    dac (labelsOf dac) (ownerRefsOf dac)
  obtain ⟨err, herr⟩ := hgen (tr ++ (ensureService env tr dac
      (GenerateDataAgentContainerService dac (labelsOf dac) (ownerRefsOf dac))).2)
  unfold Do
  dsimp only
  split
  · refine ⟨by simp, ?_⟩
    intro ns d hc
    rcases kA _ hc with k | k <;> simp [GenCall.kind] at k
  · rw [herr]
    refine ⟨by simp, ?_⟩
    intro ns d hc
    rcases List.mem_append.mp hc with m | m
    · rcases kA _ m with k | k <;> simp [GenCall.kind] at k
    · rcases kB _ m with k | k | k <;> simp [GenCall.kind] at k

theorem GenerateDataAgentContainerDeployment_missing_model (env : GenEnv)
    (dac : DataAgentContainer) (labels : StringMap) (ownerRefs : List OwnerReference)
    (hmiss : (∀ tr1, ∃ e, env.GetConfigMap tr1 dac.Namespace dac.Spec.Model.PlannerLLM =
        Except.error e) ∨
      (∀ tr1, ∃ e, env.GetConfigMap tr1 dac.Namespace dac.Spec.Model.ExpertLLM =
        Except.error e)) :
    ∀ tr, ∃ err,
      (GenerateDataAgentContainerDeployment env tr dac labels ownerRefs).1 = Except.error err := by
  intro tr
  unfold GenerateDataAgentContainerDeployment
  dsimp only
  split
  · exact ⟨_, rfl⟩
  · split
    · exact ⟨_, rfl⟩
    · split
      · exact ⟨_, rfl⟩
      · rename_i planner hp
        split
        · exact ⟨_, rfl⟩
        · rename_i expert hx
          exfalso
          rcases hmiss with hm | hm
          · obtain ⟨e, he⟩ := hm _
            unfold getPlannerLLMConfig at hp
            rw [getLLMConfig_error env _ dac _ e he] at hp
            cases hp
          · obtain ⟨e, he⟩ := hm _
            unfold getExpertLLMConfig at hx
            rw [getLLMConfig_error env _ dac _ e he] at hx
            cases hx

/-- When a name of the selector cannot be fetched, the encoding fails with an error that
names a name that could not be fetched. -/
theorem getDDDescriptorTypesLoop_missing (env : GenEnv) (dac : DataAgentContainer) (n : String)
    (hnb : TrimSpace n ≠ "")
    (hmiss : ∀ tr1, ∃ e, env.GetDataDescriptor tr1 dac.Namespace (TrimSpace n) = Except.error e)
    (selector : List String) (hn : n ∈ selector) :
    ∀ (result : String) (first : Bool) (tr : List GenCall),
      ∃ m e tr1, (getDDDescriptorTypesLoop env dac selector result first tr).1 =
          Except.error ("failed to get DataDescriptor " ++ m ++ ": " ++ e.text) ∧
        m ∈ selectedNames selector ∧
        env.GetDataDescriptor tr1 dac.Namespace m = Except.error e := by
  induction selector with
  | nil => cases hn
  | cons item rest ih =>
    intro result first tr
    rw [getDDDescriptorTypesLoop]
    dsimp only
    by_cases hb : TrimSpace item = ""
    · rw [if_pos hb]
      have hin : n ∈ rest := by
        rcases List.mem_cons.mp hn with h | h
        · subst h
          exact absurd hb hnb
        · exact h
      have hsel0 : selectedNames (item :: rest) = selectedNames rest := by
        simp [selectedNames, hb]
      obtain ⟨m, e, tr1, h1, h2, h3⟩ := ih hin result first tr
      exact ⟨m, e, tr1, h1, by rw [hsel0]; exact h2, h3⟩
    · rw [if_neg hb]
      have hsel : selectedNames (item :: rest) = TrimSpace item :: selectedNames rest := by
        simp [selectedNames, hb]
      cases hG : env.GetDataDescriptor tr dac.Namespace (TrimSpace item) with
      | error err =>
        exact ⟨TrimSpace item, err, tr, rfl, by rw [hsel]; exact List.mem_cons_self _ _, hG⟩
      | ok dataDescriptor =>
        dsimp only
        have hin : n ∈ rest := by
          rcases List.mem_cons.mp hn with h | h
          · subst h
            obtain ⟨e, he⟩ := hmiss tr
            rw [hG] at he
            cases he
          · exact h
        obtain ⟨m, e, tr1, h1, h2, h3⟩ := ih hin _ false
          (tr ++ [GenCall.GetDataDescriptor dac.Namespace (TrimSpace item)])
        exact ⟨m, e, tr1, h1, by rw [hsel]; exact List.mem_cons_of_mem _ h2, h3⟩

/-- When the entries before `n` are blank or can be fetched and `n` cannot, the encoding
fails with the error that names `n`, trimmed. -/
theorem getDDDescriptorTypesLoop_first_missing (env : GenEnv) (dac : DataAgentContainer)
    (n : String) (post : List String) (hnb : TrimSpace n ≠ "")
    (hmiss : ∀ tr1, ∃ e, env.GetDataDescriptor tr1 dac.Namespace (TrimSpace n) = Except.error e)
    (pre : List String)
    (hpre : ∀ d ∈ pre, TrimSpace d = "" ∨
      ∀ tr1, ∃ dd, env.GetDataDescriptor tr1 dac.Namespace (TrimSpace d) = Except.ok dd) :
    ∀ (result : String) (first : Bool) (tr : List GenCall),
      ∃ e : K8sError, (getDDDescriptorTypesLoop env dac (pre ++ n :: post) result first tr).1 =
        Except.error ("failed to get DataDescriptor " ++ TrimSpace n ++ ": " ++ e.text) := by
  induction pre with
  | nil =>
    intro result first tr
    obtain ⟨e, he⟩ := hmiss tr
    refine ⟨e, ?_⟩
    rw [List.nil_append, getDDDescriptorTypesLoop]
    dsimp only
    rw [if_neg hnb, he]
  | cons item rest ih =>
    intro result first tr
    have hrest : ∀ d ∈ rest, TrimSpace d = "" ∨
        ∀ tr1, ∃ dd, env.GetDataDescriptor tr1 dac.Namespace (TrimSpace d) = Except.ok dd :=
      fun d hd => hpre d (List.mem_cons_of_mem _ hd)
    rw [List.cons_append, getDDDescriptorTypesLoop]
    dsimp only
    by_cases hb : TrimSpace item = ""
    · rw [if_pos hb]
      exact ih hrest result first tr
    · rw [if_neg hb]
      rcases hpre item (List.mem_cons_self _ _) with h | h
      · exact absurd h hb
      · obtain ⟨dd, hdd⟩ := h tr
        rw [hdd]
        exact ih hrest _ false _

theorem GenerateDataAgentContainerDeployment_missing_descriptor (env : GenEnv)
    (dac : DataAgentContainer) (labels : StringMap) (ownerRefs : List OwnerReference)
    (n : String) (hn : n ∈ dac.Spec.DataPolicy.SourceNameSelector) (hnb : TrimSpace n ≠ "")
    (hmiss : ∀ tr1, ∃ e, env.GetDataDescriptor tr1 dac.Namespace (TrimSpace n) = Except.error e) :
    ∀ tr, ∃ err,
      (GenerateDataAgentContainerDeployment env tr dac labels ownerRefs).1 = Except.error err := by
  intro tr
  unfold GenerateDataAgentContainerDeployment
  dsimp only
  split
  · exact ⟨_, rfl⟩
  · split
    · exact ⟨_, rfl⟩
    · split
      · exact ⟨_, rfl⟩
      · split
        · exact ⟨_, rfl⟩
        · split
          · exact ⟨_, rfl⟩
          · rename_i types ht
            exfalso
            obtain ⟨m, e, _, h1, _, _⟩ := getDDDescriptorTypesLoop_missing env dac n hnb hmiss
              dac.Spec.DataPolicy.SourceNameSelector hn "" true
              (tr ++ (if dac.Spec.AgentCard.Skills ≠ none then createConfigMapForSkills env tr dac
                  else ((none : Option String), ([] : List GenCall))).2 ++
                (getDACConfig env (tr ++ (if dac.Spec.AgentCard.Skills ≠ none then
                  createConfigMapForSkills env tr dac
                  else ((none : Option String), ([] : List GenCall))).2)).2 ++
                (getPlannerLLMConfig env (tr ++ (if dac.Spec.AgentCard.Skills ≠ none then
                  createConfigMapForSkills env tr dac
                  else ((none : Option String), ([] : List GenCall))).2 ++
                  (getDACConfig env (tr ++ (if dac.Spec.AgentCard.Skills ≠ none then
                    createConfigMapForSkills env tr dac
                    else ((none : Option String), ([] : List GenCall))).2)).2) dac).2 ++
                (getExpertLLMConfig env (tr ++ (if dac.Spec.AgentCard.Skills ≠ none then
                  createConfigMapForSkills env tr dac
                  else ((none : Option String), ([] : List GenCall))).2 ++
                  (getDACConfig env (tr ++ (if dac.Spec.AgentCard.Skills ≠ none then
                    createConfigMapForSkills env tr dac
                    else ((none : Option String), ([] : List GenCall))).2)).2 ++
                  (getPlannerLLMConfig env (tr ++ (if dac.Spec.AgentCard.Skills ≠ none then
                    createConfigMapForSkills env tr dac
                    else ((none : Option String), ([] : List GenCall))).2 ++
                    (getDACConfig env (tr ++ (if dac.Spec.AgentCard.Skills ≠ none then
                      createConfigMapForSkills env tr dac
                      else ((none : Option String), ([] : List GenCall))).2)).2) dac).2) dac).2)
            unfold getDDDescriptorTypes at ht
            rw [h1] at ht
            cases ht

/-- When the steps before the encoding succeed, the deployment generation fails with the
error of the encoding. -/
theorem GenerateDataAgentContainerDeployment_descriptor_error (env : GenEnv)
    (tr : List GenCall) (dac : DataAgentContainer) (labels : StringMap)
    (ownerRefs : List OwnerReference)
    (hskills : ∀ tr1, (createConfigMapForSkills env tr1 dac).1 = none)
    (hcfg : ∀ tr1, ∃ c, (getDACConfig env tr1).1 = Except.ok c)
    (hplanner : ∀ tr1, ∃ l, (getPlannerLLMConfig env tr1 dac).1 = Except.ok l)
    (hexpert : ∀ tr1, ∃ l, (getExpertLLMConfig env tr1 dac).1 = Except.ok l)
    (hdesc : ∀ tr1, ∃ err, (getDDDescriptorTypes env tr1 dac).1 = Except.error err) :
    ∃ tr1 err, (getDDDescriptorTypes env tr1 dac).1 = Except.error err ∧
      (GenerateDataAgentContainerDeployment env tr dac labels ownerRefs).1 = Except.error err := by
  have h0 : (if dac.Spec.AgentCard.Skills ≠ none then createConfigMapForSkills env tr dac
      else ((none : Option String), ([] : List GenCall))).1 = none := by
    split_ifs
    · exact hskills tr
    · rfl
  unfold GenerateDataAgentContainerDeployment
  dsimp only
  split
  · rename_i err he
    rw [h0] at he
    cases he
  · split
    · rename_i err he
      obtain ⟨c, hc⟩ := hcfg (tr ++ (if dac.Spec.AgentCard.Skills ≠ none then
        createConfigMapForSkills env tr dac
        else ((none : Option String), ([] : List GenCall))).2)
      rw [hc] at he
      cases he
    · split
      · rename_i err he
        obtain ⟨l, hl⟩ := hplanner (tr ++ (if dac.Spec.AgentCard.Skills ≠ none then
            createConfigMapForSkills env tr dac
            else ((none : Option String), ([] : List GenCall))).2 ++
          (getDACConfig env (tr ++ (if dac.Spec.AgentCard.Skills ≠ none then
            createConfigMapForSkills env tr dac
            else ((none : Option String), ([] : List GenCall))).2)).2)
        rw [hl] at he
        cases he
      · split
        · rename_i err he
          obtain ⟨l, hl⟩ := hexpert (tr ++ (if dac.Spec.AgentCard.Skills ≠ none then
              createConfigMapForSkills env tr dac
              else ((none : Option String), ([] : List GenCall))).2 ++
            (getDACConfig env (tr ++ (if dac.Spec.AgentCard.Skills ≠ none then
              createConfigMapForSkills env tr dac
              else ((none : Option String), ([] : List GenCall))).2)).2 ++
            (getPlannerLLMConfig env (tr ++ (if dac.Spec.AgentCard.Skills ≠ none then
              createConfigMapForSkills env tr dac
              else ((none : Option String), ([] : List GenCall))).2 ++
              (getDACConfig env (tr ++ (if dac.Spec.AgentCard.Skills ≠ none then
                createConfigMapForSkills env tr dac
                else ((none : Option String), ([] : List GenCall))).2)).2) dac).2)
          rw [hl] at he
          cases he
        · split
          · rename_i err he
            exact ⟨_, err, he, rfl⟩
          · rename_i types ht
            obtain ⟨err, herr⟩ := hdesc (tr ++ (if dac.Spec.AgentCard.Skills ≠ none then
                createConfigMapForSkills env tr dac
                else ((none : Option String), ([] : List GenCall))).2 ++
              (getDACConfig env (tr ++ (if dac.Spec.AgentCard.Skills ≠ none then
                createConfigMapForSkills env tr dac
                else ((none : Option String), ([] : List GenCall))).2)).2 ++
              (getPlannerLLMConfig env (tr ++ (if dac.Spec.AgentCard.Skills ≠ none then
                createConfigMapForSkills env tr dac
                else ((none : Option String), ([] : List GenCall))).2 ++
                (getDACConfig env (tr ++ (if dac.Spec.AgentCard.Skills ≠ none then
                  createConfigMapForSkills env tr dac
                  else ((none : Option String), ([] : List GenCall))).2)).2) dac).2 ++
              (getExpertLLMConfig env (tr ++ (if dac.Spec.AgentCard.Skills ≠ none then
                createConfigMapForSkills env tr dac
                else ((none : Option String), ([] : List GenCall))).2 ++
                (getDACConfig env (tr ++ (if dac.Spec.AgentCard.Skills ≠ none then
                  createConfigMapForSkills env tr dac
                  else ((none : Option String), ([] : List GenCall))).2)).2 ++
                (getPlannerLLMConfig env (tr ++ (if dac.Spec.AgentCard.Skills ≠ none then
                  createConfigMapForSkills env tr dac
                  else ((none : Option String), ([] : List GenCall))).2 ++
                  (getDACConfig env (tr ++ (if dac.Spec.AgentCard.Skills ≠ none then
                    createConfigMapForSkills env tr dac
                    else ((none : Option String), ([] : List GenCall))).2)).2) dac).2) dac).2)
            rw [herr] at ht
            cases ht

/-- C14, as stated, fails: in a cluster without the planner model configuration, `Do`
returns an error, but before the model lookup it has created the service (its lookup
reported not-found) and made the creation call of the skills ConfigMap. -/
theorem C14_counterexample :
    emptyCluster.GetConfigMap [] sampleAgent.Namespace sampleAgent.Spec.Model.PlannerLLM =
      Except.error notFoundError ∧
    Do emptyCluster [] sampleAgent =
      (some "failed to get ConfigMap: not found",
        [GenCall.GetService "ns" "agent-service",
          GenCall.CreateService "ns"
            (GenerateDataAgentContainerService sampleAgent (labelsOf sampleAgent)
              (ownerRefsOf sampleAgent)),
          GenCall.CreateIfNotExistsConfigMap "ns"
            { Name := "agent-skills", Namespace := "ns",
              OwnerReferences :=
                [{ APIVersion := "dac.io/v1alpha1", Kind := "DataAgentContainer",
                   Name := "agent", UID := "uid-1", Controller := some true,
                   BlockOwnerDeletion := some true }],
              Data := [("skills.json", "skills:sql")] },
          GenCall.GetConfigMap "dac" "dac-configuration",
          GenCall.GetConfigMap "ns" "planner-llm"]) :=
  ⟨rfl, rfl⟩

/-- C14, amended: for an Agent Container whose planner or expert model name has no
matching configuration artifact, `Do` returns an error and makes no `CreateDeployment`
call. -/
theorem C14_missing_model_no_deployment (env : GenEnv) (tr : List GenCall)
    (dac : DataAgentContainer)
    (hmiss : (∀ tr1, ∃ e, env.GetConfigMap tr1 dac.Namespace dac.Spec.Model.PlannerLLM =
        Except.error e) ∨
      (∀ tr1, ∃ e, env.GetConfigMap tr1 dac.Namespace dac.Spec.Model.ExpertLLM =
        Except.error e)) :
    (Do env tr dac).1 ≠ none ∧ ∀ ns d, GenCall.CreateDeployment ns d ∉ (Do env tr dac).2 := by
  have hgen : ∀ tr1, ∃ err,
      (GenerateDataAgentContainerDeployment env tr1 dac (labelsOf dac) (ownerRefsOf dac)).1 =
        Except.error err :=
    GenerateDataAgentContainerDeployment_missing_model env dac (labelsOf dac) (ownerRefsOf dac)
      hmiss
  exact Do_of_generate_error env tr dac hgen

/-- Witness of C14 (amended) in the cluster without model configurations. -/
theorem C14_missing_model_no_deployment_witness :
    (∀ tr1, ∃ e, emptyCluster.GetConfigMap tr1 sampleAgent.Namespace
      sampleAgent.Spec.Model.PlannerLLM = Except.error e) ∧
    ((Do emptyCluster [] sampleAgent).1 ≠ none ∧
      ∀ ns d, GenCall.CreateDeployment ns d ∉ (Do emptyCluster [] sampleAgent).2) :=
  ⟨fun _ => ⟨notFoundError, rfl⟩,
    C14_missing_model_no_deployment emptyCluster [] sampleAgent
      (Or.inl (fun _ => ⟨notFoundError, rfl⟩))⟩

/-- C15, as stated, fails: the descriptor `db1` of the selector cannot be fetched, but the
planner model configuration is missing too, and `Do` returns the error of that earlier
step, whose text does not contain `db1`. -/
theorem C15_counterexample :
    "db1" ∈ sampleAgent.Spec.DataPolicy.SourceNameSelector ∧
    emptyCluster.GetDataDescriptor [] sampleAgent.Namespace (TrimSpace "db1") =
      Except.error notFoundError ∧
    (Do emptyCluster [] sampleAgent).1 = some "failed to get ConfigMap: not found" ∧
    ¬ containsText "failed to get ConfigMap: not found" "db1" :=
  ⟨by decide, rfl, rfl, by decide⟩

/-- C15, amended: for an Agent Container whose selector contains a non-blank name `n` that
cannot be fetched from its namespace, `Do` returns an error and does not call
`CreateDeployment`; `getDDDescriptorTypes` fails with an error that names a selector
entry that could not be fetched, which is `n` (trimmed, and contained in the text) when
every entry before `n` is blank or can be fetched; and `Do` returns that error when the
service block, the skills ConfigMap, the platform configuration and both model
configurations succeed. -/
theorem C15_missing_descriptor_aborts (env : GenEnv) (tr : List GenCall)
    (dac : DataAgentContainer) (n : String)
    (hn : n ∈ dac.Spec.DataPolicy.SourceNameSelector) (hnb : TrimSpace n ≠ "")
    (hmiss : ∀ tr1, ∃ e, env.GetDataDescriptor tr1 dac.Namespace (TrimSpace n) = Except.error e) :
    (Do env tr dac).1 ≠ none ∧
    (∀ ns d, GenCall.CreateDeployment ns d ∉ (Do env tr dac).2) ∧
    (∀ tr1, ∃ m e tr2,
      (getDDDescriptorTypes env tr1 dac).1 =
        Except.error ("failed to get DataDescriptor " ++ m ++ ": " ++ e.text) ∧
      m ∈ selectedNames dac.Spec.DataPolicy.SourceNameSelector ∧
      env.GetDataDescriptor tr2 dac.Namespace m = Except.error e) ∧
    (∀ pre post, dac.Spec.DataPolicy.SourceNameSelector = pre ++ n :: post →
      (∀ d ∈ pre, TrimSpace d = "" ∨
        ∀ tr1, ∃ dd, env.GetDataDescriptor tr1 dac.Namespace (TrimSpace d) = Except.ok dd) →
      ∀ tr1, ∃ text, (getDDDescriptorTypes env tr1 dac).1 = Except.error text ∧
        containsText text (TrimSpace n)) ∧
    ((ensureService env tr dac
        (GenerateDataAgentContainerService dac (labelsOf dac) (ownerRefsOf dac))).1 = none →
      (∀ tr1, (createConfigMapForSkills env tr1 dac).1 = none) →
      (∀ tr1, ∃ c, (getDACConfig env tr1).1 = Except.ok c) →
      (∀ tr1, ∃ l, (getPlannerLLMConfig env tr1 dac).1 = Except.ok l) →
      (∀ tr1, ∃ l, (getExpertLLMConfig env tr1 dac).1 = Except.ok l) →
      ∃ tr1 err, (getDDDescriptorTypes env tr1 dac).1 = Except.error err ∧
        (Do env tr dac).1 = some err) := by
  have hgen := GenerateDataAgentContainerDeployment_missing_descriptor env dac (labelsOf dac)
    (ownerRefsOf dac) n hn hnb hmiss
  obtain ⟨h1, h2⟩ := Do_of_generate_error env tr dac hgen
  have hdesc : ∀ tr1, ∃ m e tr2,
      (getDDDescriptorTypes env tr1 dac).1 =
        Except.error ("failed to get DataDescriptor " ++ m ++ ": " ++ e.text) ∧
      m ∈ selectedNames dac.Spec.DataPolicy.SourceNameSelector ∧
      env.GetDataDescriptor tr2 dac.Namespace m = Except.error e :=
    fun tr1 => getDDDescriptorTypesLoop_missing env dac n hnb hmiss
      dac.Spec.DataPolicy.SourceNameSelector hn "" true tr1
  refine ⟨h1, h2, hdesc, ?_, ?_⟩
  · intro pre post hsel hpre tr1
    obtain ⟨e, he⟩ := getDDDescriptorTypesLoop_first_missing env dac n post hnb hmiss pre hpre
      "" true tr1
    refine ⟨_, ?_, containsText_of_eq "failed to get DataDescriptor " (TrimSpace n)
      (": " ++ e.text) _ rfl⟩
    unfold getDDDescriptorTypes
    rw [hsel, he, String.append_assoc]
  · intro hsvc hskills hcfg hplanner hexpert
    obtain ⟨tr1, err, hd, hg⟩ := GenerateDataAgentContainerDeployment_descriptor_error env
      (tr ++ (ensureService env tr dac
        (GenerateDataAgentContainerService dac (labelsOf dac) (ownerRefsOf dac))).2)
      dac (labelsOf dac) (ownerRefsOf dac) hskills hcfg hplanner hexpert
      (fun tr2 => by
        obtain ⟨m, e, _, hm, _, _⟩ := hdesc tr2
        exact ⟨_, hm⟩)
    refine ⟨tr1, err, hd, ?_⟩
    unfold Do
    dsimp only
    rw [hsvc]
    dsimp only
    rw [hg]

/-- Witness of C15 (amended) in the cluster that has the model configurations but not the
descriptor `db1`: the error of `Do` names `db1`. -/
theorem C15_missing_descriptor_aborts_witness :
    "db1" ∈ sampleAgent.Spec.DataPolicy.SourceNameSelector ∧
    TrimSpace "db1" ≠ "" ∧
    (∀ tr1, ∃ e, noDescriptorCluster.GetDataDescriptor tr1 sampleAgent.Namespace
      (TrimSpace "db1") = Except.error e) ∧
    (Do noDescriptorCluster [] sampleAgent).1 ≠ none ∧
    (∀ ns d, GenCall.CreateDeployment ns d ∉ (Do noDescriptorCluster [] sampleAgent).2) ∧
    (Do noDescriptorCluster [] sampleAgent).1 =
      some "failed to get DataDescriptor db1: not found" :=
  ⟨by decide, by decide, fun _ => ⟨notFoundError, rfl⟩,
    (C15_missing_descriptor_aborts noDescriptorCluster [] sampleAgent "db1" (by decide)
      (by decide) (fun _ => ⟨notFoundError, rfl⟩)).1,
    (C15_missing_descriptor_aborts noDescriptorCluster [] sampleAgent "db1" (by decide)
      (by decide) (fun _ => ⟨notFoundError, rfl⟩)).2.1,
    rfl⟩

/-! ## The claims on prompts, probes and events -/

/-- Every error of the trigger pass is the failure of a `TriggerTask` call for a declared
source: a failed prompt lookup never ends up in it. -/
theorem handleDDLoop_error_form (env : Env) (dd : DataDescriptor) (srcs : List DataSource) :
    ∀ (taskIDs : StringMap) (tr : List Call) (e : String),
      (handleDDLoop env dd srcs taskIDs tr).1 = Except.error e →
      ∃ s ∈ srcs, ∃ tr1 req err, env.TriggerTask tr1 req = Except.error err ∧
        e = "failed to trigger task for source " ++ s.Name ++ ": " ++ err := by
  induction srcs with
  | nil => intro taskIDs tr e h; simp [handleDDLoop] at h
  | cons source rest ih =>
    intro taskIDs tr e h
    rw [handleDDLoop] at h
    dsimp only at h
    cases hE : existingTaskID dd source with
    | some taskID =>
      rw [hE] at h
      obtain ⟨s, hs, rest2⟩ := ih _ _ e h
      exact ⟨s, List.mem_cons_of_mem _ hs, rest2⟩
    | none =>
      rw [hE] at h
      dsimp only at h
      cases hT : env.TriggerTask (resolvePrompts env tr dd source).2
          (addOrUpdateRequest dd source (resolvePrompts env tr dd source).1) with
      | error err =>
        rw [hT] at h
        simp only [Except.error.injEq] at h
        exact ⟨source, List.mem_cons_self _ _, _, _, err, hT, h.symm⟩
      | ok taskID =>
        rw [hT] at h
        obtain ⟨s, hs, rest2⟩ := ih _ _ e h
        exact ⟨s, List.mem_cons_of_mem _ hs, rest2⟩

theorem resolvePrompts_of_error (env : Env) (tr : List Call) (dd : DataDescriptor)
    (s : DataSource) (e : String)
    (h : (getFewshotsAndBackgroudKnowledgeFromConfigmap env tr dd s.Prompts.Prompts.Name).1 =
      Except.error e) :
    (resolvePrompts env tr dd s).1 = none := by
  unfold resolvePrompts
  dsimp only
  rw [h]

/-- C21: for a declared source `s` without a recorded TaskID whose prompt lookup fails
(the trigger pass having handled the sources before it), `handleDD` still makes the
`TriggerTask` call for `s`: an AddOrUpdate request with a nil prompts payload, the type,
name, metadata, extract, processing and classification of `s` and the name and namespace
of the descriptor; and whenever `handleDD` returns an error, it is the failure of a
`TriggerTask` call, not the lookup failure. -/
theorem C21_prompt_failure_still_triggers (env : Env) (tr tr0 : List Call)
    (dd : DataDescriptor) (pre post : List DataSource) (s : DataSource) (m : StringMap)
    (e : String)
    (hsrc : dd.Spec.Sources = pre ++ s :: post)
    (hpre : handleDDLoop env dd pre [] tr = (Except.ok m, tr0))
    (hno : existingTaskID dd s = none)
    (hfail : (getFewshotsAndBackgroudKnowledgeFromConfigmap env tr0 dd s.Prompts.Prompts.Name).1 =
      Except.error e) :
    (∃ calls1 calls2, (handleDD env tr dd).2 =
      calls1 ++ [Call.TriggerTask
        { operation := "AddOrUpdate"
          source := some { typ := s.Typ, name := s.Name, metadata := s.Metadata }
          descriptor := { name := dd.Name, ns := dd.Namespace }
          extract := some s.Extract
          prompts := some none
          processing := some s.Processing
          classification := some s.Classification }] ++ calls2) ∧
    (∀ e1, (handleDD env tr dd).1 = Except.error e1 →
      ∃ src ∈ dd.Spec.Sources, ∃ tr1 req err, env.TriggerTask tr1 req = Except.error err ∧
        e1 = "failed to trigger task for source " ++ src.Name ++ ": " ++ err) := by
  have hp := resolvePrompts_of_error env tr0 dd s e hfail
  refine ⟨?_, fun e1 h1 => handleDDLoop_error_form env dd dd.Spec.Sources [] tr e1 h1⟩
  unfold handleDD
  rw [hsrc, handleDDLoop_append, hpre]
  dsimp only
  rw [handleDDLoop]
  dsimp only
  rw [hno]
  dsimp only
  rw [hp]
  cases hT : env.TriggerTask (resolvePrompts env tr0 dd s).2 (addOrUpdateRequest dd s none) with
  | error err =>
    exact ⟨(resolvePrompts env tr0 dd s).2, [], by simp [addOrUpdateRequest]⟩
  | ok taskID =>
    dsimp only
    obtain ⟨calls, hc, _⟩ := handleDDLoop_trace env dd post (mapSet m s.Name taskID)
      ((resolvePrompts env tr0 dd s).2 ++ [Call.TriggerTask (addOrUpdateRequest dd s none)])
    exact ⟨(resolvePrompts env tr0 dd s).2, calls, by rw [hc]; simp [addOrUpdateRequest]⟩

/-- Witness of C21 on a source that refers to a missing prompt artifact. -/
theorem C21_prompt_failure_still_triggers_witness :
    (getFewshotsAndBackgroudKnowledgeFromConfigmap (promptEnv []) []
        (promptedDescriptor "missing") "missing").1 =
      Except.error "failed to get configmap ns/missing: not found" ∧
    handleDD (promptEnv []) [] (promptedDescriptor "missing") =
      (Except.ok [("a", "t1")],
        [Call.GetConfigMap "ns" "missing",
          Call.TriggerTask
            { operation := "AddOrUpdate"
              source := some { typ := "mysql", name := "a", metadata := [("host", "db")] }
              descriptor := { name := "dd", ns := "ns" }
              extract := some (some { Tables := ["t"], Querys := [] })
              prompts := some none
              processing := some { Cleaning := [{ Rule := "trim", Params := [] }] }
              classification := some [{ Domain := "d", Category := "c", Subcategory := "s",
                                        Tags := [] }] }]) ∧
    (∃ calls1 calls2, (handleDD (promptEnv []) [] (promptedDescriptor "missing")).2 =
      calls1 ++ [Call.TriggerTask
        { operation := "AddOrUpdate"
          source := some { typ := (promptedSource "missing").Typ,
                           name := (promptedSource "missing").Name,
                           metadata := (promptedSource "missing").Metadata }
          descriptor := { name := (promptedDescriptor "missing").Name,
                          ns := (promptedDescriptor "missing").Namespace }
          extract := some (promptedSource "missing").Extract
          prompts := some none
          processing := some (promptedSource "missing").Processing
          classification := some (promptedSource "missing").Classification }] ++ calls2) :=
  ⟨rfl, rfl,
    (C21_prompt_failure_still_triggers (promptEnv []) [] [] (promptedDescriptor "missing") [] []
      (promptedSource "missing") [] "failed to get configmap ns/missing: not found"
      rfl rfl rfl rfl).1⟩

/-- C22 (counterexample): with an unparsable `fewshots.json` next to a well-formed
`background_knowledge.json` the lookup returns an error and no payload, so the background
knowledge is not returned; and the same with the two keys exchanged. -/
theorem C22_counterexample :
    parsePromptEntry sampleUnmarshalBackgroundKnowledge
        (mapGet badFewShotsData "background_knowledge.json") = Except.ok [{ raw := "k" }] ∧
    (getFewshotsAndBackgroudKnowledgeFromConfigmap (promptEnv badFewShotsData) []
        (promptedDescriptor "prompts") "prompts").1 =
      Except.error "failed to parse fewshots.json in configmap prompts: invalid character" ∧
    parsePromptEntry sampleUnmarshalFewShots
        (mapGet badBackgroundData "fewshots.json") = Except.ok [{ raw := "f" }] ∧
    (getFewshotsAndBackgroudKnowledgeFromConfigmap (promptEnv badBackgroundData) []
        (promptedDescriptor "prompts") "prompts").1 =
      Except.error
        "failed to parse background_knowledge.json in configmap prompts: invalid character" :=
  ⟨rfl, rfl, rfl, rfl⟩

/-- C22 (amended): for a named prompt artifact that is found, each key is read on its own
(a missing or empty entry gives an empty list, any other entry is unmarshalled); when both
readings succeed the payload holds the few-shots read from `fewshots.json` and the
background knowledge read from `background_knowledge.json`; when the reading of
`fewshots.json` fails, or it succeeds and the reading of `background_knowledge.json` fails,
the lookup returns an error naming that key and no payload. -/
theorem C22_prompt_entries (env : Env) (tr : List Call) (dd : DataDescriptor) (name : String)
    (cm : ConfigMap) (hname : name ≠ "")
    (hget : env.GetConfigMap tr dd.Namespace name = Except.ok cm) :
    (∀ (u : String → Except String (List FewShot)),
      parsePromptEntry u none = Except.ok [] ∧ parsePromptEntry u (some "") = Except.ok []) ∧
    (∀ fs bgs,
      parsePromptEntry env.UnmarshalFewShots (mapGet cm.Data "fewshots.json") = Except.ok fs →
      parsePromptEntry env.UnmarshalBackgroundKnowledge
        (mapGet cm.Data "background_knowledge.json") = Except.ok bgs →
      (getFewshotsAndBackgroudKnowledgeFromConfigmap env tr dd name).1 =
        Except.ok (some { FewShots := fs, BackgroundKnowledge := bgs })) ∧
    (∀ err,
      parsePromptEntry env.UnmarshalFewShots (mapGet cm.Data "fewshots.json") =
        Except.error err →
      (getFewshotsAndBackgroudKnowledgeFromConfigmap env tr dd name).1 =
        Except.error ("failed to parse fewshots.json in configmap " ++ name ++ ": " ++ err)) ∧
    (∀ fs err,
      parsePromptEntry env.UnmarshalFewShots (mapGet cm.Data "fewshots.json") = Except.ok fs →
      parsePromptEntry env.UnmarshalBackgroundKnowledge
        (mapGet cm.Data "background_knowledge.json") = Except.error err →
      (getFewshotsAndBackgroudKnowledgeFromConfigmap env tr dd name).1 =
        Except.error
          ("failed to parse background_knowledge.json in configmap " ++ name ++ ": " ++ err)) := by
  have hres : (getFewshotsAndBackgroudKnowledgeFromConfigmap env tr dd name).1 =
      match parsePromptEntry env.UnmarshalFewShots (mapGet cm.Data "fewshots.json") with
      | .error err =>
        Except.error ("failed to parse fewshots.json in configmap " ++ name ++ ": " ++ err)
      | .ok fs =>
        match parsePromptEntry env.UnmarshalBackgroundKnowledge
            (mapGet cm.Data "background_knowledge.json") with
        | .error err =>
          Except.error
            ("failed to parse background_knowledge.json in configmap " ++ name ++ ": " ++ err)
        | .ok bgs => Except.ok (some { FewShots := fs, BackgroundKnowledge := bgs }) := by
    unfold getFewshotsAndBackgroudKnowledgeFromConfigmap parsePromptEntry
    rw [if_neg hname]
    dsimp only
    rw [hget]
    dsimp only
    cases mapGet cm.Data "fewshots.json" with
    | none =>
      dsimp only
      cases mapGet cm.Data "background_knowledge.json" with
      | none => rfl
      | some b =>
        dsimp only
        by_cases hb : b = ""
        · simp [hb]
        · simp only [ne_eq, hb, not_false_eq_true, if_true]
          cases env.UnmarshalBackgroundKnowledge b <;> rfl
    | some f =>
      dsimp only
      by_cases hf : f = ""
      · simp only [ne_eq, hf, not_true_eq_false, if_false]
        cases mapGet cm.Data "background_knowledge.json" with
        | none => rfl
        | some b =>
          dsimp only
          by_cases hb : b = ""
          · simp [hb]
          · simp only [ne_eq, hb, not_false_eq_true, if_true]
            cases env.UnmarshalBackgroundKnowledge b <;> rfl
      · simp only [ne_eq, hf, not_false_eq_true, if_true]
        cases env.UnmarshalFewShots f with
        | error e => rfl
        | ok fs =>
          dsimp only
          cases mapGet cm.Data "background_knowledge.json" with
          | none => rfl
          | some b =>
            dsimp only
            by_cases hb : b = ""
            · simp [hb]
            · simp only [ne_eq, hb, not_false_eq_true, if_true]
              cases env.UnmarshalBackgroundKnowledge b <;> rfl
  refine ⟨fun u => ⟨rfl, rfl⟩, ?_, ?_, ?_⟩
  · intro fs bgs h1 h2
    rw [hres, h1, h2]
  · intro err h1
    rw [hres, h1]
  · intro fs err h1 h2
    rw [hres, h1, h2]

/-- Witness of C22 on an artifact with a well-formed background-knowledge entry and no
few-shot entry. -/
theorem C22_prompt_entries_witness :
    (getFewshotsAndBackgroudKnowledgeFromConfigmap
        (promptEnv [("background_knowledge.json", "k")]) []
        (promptedDescriptor "prompts") "prompts").1 =
      Except.ok (some { FewShots := [], BackgroundKnowledge := [{ raw := "k" }] }) :=
  (C22_prompt_entries (promptEnv [("background_knowledge.json", "k")]) []
    (promptedDescriptor "prompts") "prompts" { Data := [("background_knowledge.json", "k")] }
    (by decide) rfl).2.1 [] [{ raw := "k" }] rfl rfl

theorem checkHost_cases (env : Env) (tr : List Call) (source : DataSource) (kind : String)
    (records : Int) :
    ((∃ host, mapGet source.Metadata "host" = some host ∧ host ≠ "") ∧
      checkHost env tr source kind records =
        { Name := source.Name, Phase := "Ready", LastSyncTime := env.Now tr,
          Records := records }) ∨
    ((¬ ∃ host, mapGet source.Metadata "host" = some host ∧ host ≠ "") ∧
      checkHost env tr source kind records =
        { Name := source.Name, Phase := "Invalid",
          Error := some (kind ++ " host not configured in metadata") }) := by
  unfold checkHost
  cases h : mapGet source.Metadata "host" with
  | none => right; simp
  | some host =>
    by_cases hh : host = ""
    · right; simp [hh]
    · left; simp [hh]

/-- C23: `checkDataSourceConnectivity` returns Phase `Ready` with a nil error and a positive
record count exactly when the source name is non-empty, the type is one of the four
recognised kinds and the metadata holds a non-empty `host`; the count is then 5000 for
MySQL and Postgres and 200 for MinIO and the file server. In every other case the error
is non-nil, Records is 0, no TaskID is set, and the Phase is `Invalid` (with an empty name
or a missing or empty host) or `Unknown` (with an unrecognised type). -/
theorem C23_connectivity_probe (env : Env) (tr : List Call) (source : DataSource) :
    ((checkDataSourceConnectivity env tr source).Phase = "Ready" ∧
        (checkDataSourceConnectivity env tr source).Error = none ∧
        0 < (checkDataSourceConnectivity env tr source).Records ↔
      source.Name ≠ "" ∧
        (source.Typ = "mysql" ∨ source.Typ = "postgres" ∨ source.Typ = "minio" ∨
          source.Typ = "fileserver") ∧
        ∃ host, mapGet source.Metadata "host" = some host ∧ host ≠ "") ∧
    (source.Name ≠ "" →
      (∃ host, mapGet source.Metadata "host" = some host ∧ host ≠ "") →
      ((source.Typ = "mysql" ∨ source.Typ = "postgres" →
        checkDataSourceConnectivity env tr source =
          { Name := source.Name, Phase := "Ready", LastSyncTime := env.Now tr,
            Records := 5000 }) ∧
      (source.Typ = "minio" ∨ source.Typ = "fileserver" →
        checkDataSourceConnectivity env tr source =
          { Name := source.Name, Phase := "Ready", LastSyncTime := env.Now tr,
            Records := 200 }))) ∧
    (¬ (source.Name ≠ "" ∧
        (source.Typ = "mysql" ∨ source.Typ = "postgres" ∨ source.Typ = "minio" ∨
          source.Typ = "fileserver") ∧
        ∃ host, mapGet source.Metadata "host" = some host ∧ host ≠ "") →
      (checkDataSourceConnectivity env tr source).Error ≠ none ∧
      (checkDataSourceConnectivity env tr source).Records = 0 ∧
      (checkDataSourceConnectivity env tr source).TaskID = "" ∧
      (((checkDataSourceConnectivity env tr source).Phase = "Invalid" ∧
          (source.Name = "" ∨
            ¬ ∃ host, mapGet source.Metadata "host" = some host ∧ host ≠ "")) ∨
        ((checkDataSourceConnectivity env tr source).Phase = "Unknown" ∧
          ¬ (source.Typ = "mysql" ∨ source.Typ = "postgres" ∨ source.Typ = "minio" ∨
            source.Typ = "fileserver")))) := by
  have hne : ∀ a b : String, a ≠ b → ∀ t : String, t = a → t ≠ b := by
    intro a b hab t ht; rw [ht]; exact hab
  by_cases hn : source.Name = ""
  · have hr : checkDataSourceConnectivity env tr source =
        { Name := source.Name, Phase := "Invalid",
          Error := some "data source name cannot be empty" } := by
      unfold checkDataSourceConnectivity; rw [if_pos hn]
    rw [hr]
    refine ⟨?_, fun h => absurd hn h, fun _ => ?_⟩
    · constructor
      · intro h; exact absurd h.1 (by simp)
      · intro h; exact absurd hn h.1
    · exact ⟨by simp, rfl, rfl, Or.inl ⟨rfl, Or.inl hn⟩⟩
  · have key : ∀ (kind : String) (records : Int), 0 < records →
        checkDataSourceConnectivity env tr source = checkHost env tr source kind records →
        ((checkHost env tr source kind records).Phase = "Ready" ∧
            (checkHost env tr source kind records).Error = none ∧
            0 < (checkHost env tr source kind records).Records ↔
          ∃ host, mapGet source.Metadata "host" = some host ∧ host ≠ "") ∧
        ((¬ ∃ host, mapGet source.Metadata "host" = some host ∧ host ≠ "") →
          (checkHost env tr source kind records).Error ≠ none ∧
          (checkHost env tr source kind records).Records = 0 ∧
          (checkHost env tr source kind records).TaskID = "" ∧
          (checkHost env tr source kind records).Phase = "Invalid") := by
      intro kind records hpos _
      rcases checkHost_cases env tr source kind records with ⟨hh, hr⟩ | ⟨hh, hr⟩
      · rw [hr]
        exact ⟨⟨fun _ => hh, fun _ => ⟨rfl, rfl, hpos⟩⟩, fun h => absurd hh h⟩
      · rw [hr]
        refine ⟨⟨fun h => absurd h.1 (by simp), fun h => absurd h hh⟩, fun _ => ?_⟩
        exact ⟨by simp, rfl, rfl, rfl⟩
    by_cases h1 : source.Typ = DataSourceMySQL
    · have hr : checkDataSourceConnectivity env tr source = checkHost env tr source "MySQL" 5000 := by
        unfold checkDataSourceConnectivity; rw [if_neg hn, if_pos h1]; rfl
      have hk := key "MySQL" 5000 (by decide) hr
      have hkind : source.Typ = "mysql" ∨ source.Typ = "postgres" ∨ source.Typ = "minio" ∨
          source.Typ = "fileserver" := Or.inl h1
      rw [hr]
      refine ⟨⟨fun h => ⟨hn, hkind, hk.1.1 h⟩, fun h => hk.1.2 h.2.2⟩, fun _ hh => ⟨fun _ => ?_, fun h => ?_⟩,
        fun hnot => ?_⟩
      · rcases checkHost_cases env tr source "MySQL" 5000 with ⟨_, hc⟩ | ⟨hc, _⟩
        · exact hc
        · exact absurd hh hc
      · rcases h with h | h
        · exact absurd h (hne _ _ (by decide) _ h1)
        · exact absurd h (hne _ _ (by decide) _ h1)
      · have hh : ¬ ∃ host, mapGet source.Metadata "host" = some host ∧ host ≠ "" :=
          fun hh => hnot ⟨hn, hkind, hh⟩
        obtain ⟨a, b, c, d⟩ := hk.2 hh
        exact ⟨a, b, c, Or.inl ⟨d, Or.inr hh⟩⟩
    by_cases h2 : source.Typ = DataSourcePostgres
    · have hr : checkDataSourceConnectivity env tr source =
          checkHost env tr source "Postgres" 5000 := by
        unfold checkDataSourceConnectivity
        rw [if_neg hn, if_neg h1, if_pos h2]; rfl
      have hk := key "Postgres" 5000 (by decide) hr
      have hkind : source.Typ = "mysql" ∨ source.Typ = "postgres" ∨ source.Typ = "minio" ∨
          source.Typ = "fileserver" := Or.inr (Or.inl h2)
      rw [hr]
      refine ⟨⟨fun h => ⟨hn, hkind, hk.1.1 h⟩, fun h => hk.1.2 h.2.2⟩, fun _ hh => ⟨fun _ => ?_, fun h => ?_⟩,
        fun hnot => ?_⟩
      · rcases checkHost_cases env tr source "Postgres" 5000 with ⟨_, hc⟩ | ⟨hc, _⟩
        · exact hc
        · exact absurd hh hc
      · rcases h with h | h
        · exact absurd h (hne _ _ (by decide) _ h2)
        · exact absurd h (hne _ _ (by decide) _ h2)
      · have hh : ¬ ∃ host, mapGet source.Metadata "host" = some host ∧ host ≠ "" :=
          fun hh => hnot ⟨hn, hkind, hh⟩
        obtain ⟨a, b, c, d⟩ := hk.2 hh
        exact ⟨a, b, c, Or.inl ⟨d, Or.inr hh⟩⟩
    by_cases h3 : source.Typ = DataSourceMinIO
    · have hr : checkDataSourceConnectivity env tr source =
          checkHost env tr source "MinIO" 200 := by
        unfold checkDataSourceConnectivity
        rw [if_neg hn, if_neg h1, if_neg h2, if_pos h3]; rfl
      have hk := key "MinIO" 200 (by decide) hr
      have hkind : source.Typ = "mysql" ∨ source.Typ = "postgres" ∨ source.Typ = "minio" ∨
          source.Typ = "fileserver" := Or.inr (Or.inr (Or.inl h3))
      rw [hr]
      refine ⟨⟨fun h => ⟨hn, hkind, hk.1.1 h⟩, fun h => hk.1.2 h.2.2⟩, fun _ hh => ⟨fun h => ?_, fun _ => ?_⟩,
        fun hnot => ?_⟩
      · rcases h with h | h
        · exact absurd h h1
        · exact absurd h h2
      · rcases checkHost_cases env tr source "MinIO" 200 with ⟨_, hc⟩ | ⟨hc, _⟩
        · exact hc
        · exact absurd hh hc
      · have hh : ¬ ∃ host, mapGet source.Metadata "host" = some host ∧ host ≠ "" :=
          fun hh => hnot ⟨hn, hkind, hh⟩
        obtain ⟨a, b, c, d⟩ := hk.2 hh
        exact ⟨a, b, c, Or.inl ⟨d, Or.inr hh⟩⟩
    by_cases h4 : source.Typ = DataSourceFileServer
    · have hr : checkDataSourceConnectivity env tr source =
          checkHost env tr source "Fileserver" 200 := by
        unfold checkDataSourceConnectivity
        rw [if_neg hn, if_neg h1, if_neg h2, if_neg h3, if_pos h4]; rfl
      have hk := key "Fileserver" 200 (by decide) hr
      have hkind : source.Typ = "mysql" ∨ source.Typ = "postgres" ∨ source.Typ = "minio" ∨
          source.Typ = "fileserver" := Or.inr (Or.inr (Or.inr h4))
      rw [hr]
      refine ⟨⟨fun h => ⟨hn, hkind, hk.1.1 h⟩, fun h => hk.1.2 h.2.2⟩, fun _ hh => ⟨fun h => ?_, fun _ => ?_⟩,
        fun hnot => ?_⟩
      · rcases h with h | h
        · exact absurd h h1
        · exact absurd h h2
      · rcases checkHost_cases env tr source "Fileserver" 200 with ⟨_, hc⟩ | ⟨hc, _⟩
        · exact hc
        · exact absurd hh hc
      · have hh : ¬ ∃ host, mapGet source.Metadata "host" = some host ∧ host ≠ "" :=
          fun hh => hnot ⟨hn, hkind, hh⟩
        obtain ⟨a, b, c, d⟩ := hk.2 hh
        exact ⟨a, b, c, Or.inl ⟨d, Or.inr hh⟩⟩
    · have hkind : ¬ (source.Typ = "mysql" ∨ source.Typ = "postgres" ∨ source.Typ = "minio" ∨
          source.Typ = "fileserver") := by
        rintro (h | h | h | h)
        · exact h1 h
        · exact h2 h
        · exact h3 h
        · exact h4 h
      have hr : checkDataSourceConnectivity env tr source =
          { Name := source.Name, Phase := "Unknown",
            Error := some ("unknown data source type: " ++ source.Typ) } := by
        unfold checkDataSourceConnectivity
        rw [if_neg hn, if_neg h1, if_neg h2, if_neg h3, if_neg h4]
      rw [hr]
      refine ⟨⟨fun h => absurd h.1 (by simp), fun h => absurd h.2.1 hkind⟩,
        fun _ _ => ⟨fun h => ?_, fun h => ?_⟩, fun _ => ?_⟩
      · exact absurd (h.elim Or.inl (fun h => Or.inr (Or.inl h))) hkind
      · exact absurd (h.elim (fun h => Or.inr (Or.inr (Or.inl h)))
          (fun h => Or.inr (Or.inr (Or.inr h)))) hkind
      · exact ⟨by simp, rfl, rfl, Or.inr ⟨rfl, hkind⟩⟩

theorem traceAfterChecks_events (env : Env) (taskIDs : StringMap) (srcs : List DataSource) :
    ∀ tr : List Call, ∃ calls, traceAfterChecks env taskIDs srcs tr = tr ++ calls ∧
      calls.filter Call.isEvent =
        ((checkedSources env taskIDs srcs tr).filter isHealthy).map triggeredEvent := by
  induction srcs with
  | nil => intro tr; exact ⟨[], by simp [traceAfterChecks], by simp [checkedSources]⟩
  | cons source rest ih =>
    intro tr
    obtain ⟨c2, h2, h2e⟩ := ih (traceAfterCheck env taskIDs tr source)
    rw [traceAfterCheck_eq] at h2
    refine ⟨((if taskFor taskIDs source ≠ "" then [Call.GetTaskStatus (taskFor taskIDs source)]
        else []) ++
        (if isHealthy (source, sourceCheck env taskIDs tr source) then
          [Call.EventNormal "TaskTriggered"
            ("Task " ++ (sourceCheck env taskIDs tr source).TaskID ++
              " Completed for data source " ++ source.Name)]
        else [])) ++ c2, by rw [traceAfterChecks, traceAfterCheck_eq, h2]; simp only [List.append_assoc], ?_⟩
    rw [List.filter_append, List.filter_append, h2e, checkedSources, List.filter_cons]
    have hg : (if taskFor taskIDs source ≠ "" then [Call.GetTaskStatus (taskFor taskIDs source)]
        else []).filter Call.isEvent = [] := by
      split_ifs <;> simp [Call.isEvent]
    rw [hg]
    by_cases hH : isHealthy (source, sourceCheck env taskIDs tr source) = true
    · rw [if_pos hH, if_pos hH]
      simp [Call.isEvent, triggeredEvent]
    · rw [if_neg hH, if_neg hH]
      simp

theorem checked_counts (l : List (DataSource × SourceStatusResult)) :
    (l.filter isNotReady).length + (l.filterMap errorOf).length + (l.filter isHealthy).length =
      l.length := by
  induction l with
  | nil => rfl
  | cons p rest ih =>
    cases hE : p.2.Error with
    | some e =>
      have hN : isNotReady p = false := by simp [isNotReady, hE]
      have hH : isHealthy p = false := by simp [isHealthy, hE]
      have hO : errorOf p = some ("data source " ++ p.1.Name ++ " error: " ++ e) := by
        simp [errorOf, hE]
      simp only [List.filter_cons, List.filterMap_cons, hN, hH, hO, List.length_cons,
        Bool.false_eq_true, if_false]
      omega
    | none =>
      have hO : errorOf p = none := by simp [errorOf, hE]
      by_cases hP : p.2.Phase = "Ready"
      · have hN : isNotReady p = false := by simp [isNotReady, hE, hP]
        have hH : isHealthy p = true := by simp [isHealthy, hE, hP]
        simp only [List.filter_cons, List.filterMap_cons, hN, hH, hO, List.length_cons,
          Bool.false_eq_true, if_false, if_true]
        omega
      · have hN : isNotReady p = true := by simp [isNotReady, hE, hP]
        have hH : isHealthy p = false := by simp [isHealthy, hE, hP]
        simp only [List.filter_cons, List.filterMap_cons, hN, hH, hO, List.length_cons,
          Bool.false_eq_true, if_false, if_true]
        omega

/-- C24: the calls of one `handleDDStatus` pass hold exactly h + 1 events, where h is the
number of declared sources whose check resolved to Phase `Ready` without error: the normal
event `TaskTriggered` of each such source, in the order of the sources, and then one
aggregate event. The aggregate event is the normal event `AllSourcesHealthy` when the
OverallPhase written is `Ready`; otherwise it is the warning
`SomeSourcesTaskErrorOrNotReady`, whose message carries first the number of sources whose
check had no error and a phase other than `Ready`, then the number of sources whose check
had an error; the two counts sum to the number of declared sources minus h. -/
theorem C24_events_of_status_pass (env : Env) (tr : List Call) (dd : DataDescriptor)
    (taskIDs : StringMap) :
    ∃ calls aggregate,
      (handleDDStatus env tr dd taskIDs).2.2 = tr ++ calls ∧
      calls.filter Call.isEvent =
        ((checkedSources env taskIDs dd.Spec.Sources tr).filter isHealthy).map triggeredEvent ++
          [aggregate] ∧
      (calls.filter Call.isEvent).length =
        ((checkedSources env taskIDs dd.Spec.Sources tr).filter isHealthy).length + 1 ∧
      ((buildNewStatus env tr dd taskIDs).OverallPhase = "Ready" →
        aggregate = Call.EventNormal "AllSourcesHealthy"
          "All data sources healthy and tasks triggered and Completed.") ∧
      ((buildNewStatus env tr dd taskIDs).OverallPhase ≠ "Ready" →
        aggregate = Call.EventWarning "SomeSourcesTaskErrorOrNotReady"
          (toString ((checkedSources env taskIDs dd.Spec.Sources tr).filter
              (fun p => decide (p.2.Error = none) && decide (p.2.Phase ≠ "Ready"))).length ++
            " data sources task not completed, " ++
            toString ((checkedSources env taskIDs dd.Spec.Sources tr).filter
              (fun p => p.2.Error.isSome)).length ++
            " data sources have issues ") ∧
        ((checkedSources env taskIDs dd.Spec.Sources tr).filter
            (fun p => decide (p.2.Error = none) && decide (p.2.Phase ≠ "Ready"))).length +
          ((checkedSources env taskIDs dd.Spec.Sources tr).filter
            (fun p => p.2.Error.isSome)).length =
          dd.Spec.Sources.length -
            ((checkedSources env taskIDs dd.Spec.Sources tr).filter isHealthy).length) := by
  obtain ⟨c, hc, hce⟩ := traceAfterChecks_events env taskIDs dd.Spec.Sources tr
  have ht : (statusLoopResult env tr dd taskIDs).trace = tr ++ c := by
    rw [statusLoopResult_eq]
    exact hc
  have hlen : (checkedSources env taskIDs dd.Spec.Sources tr).length = dd.Spec.Sources.length := by
    rw [← List.length_map (checkedSources env taskIDs dd.Spec.Sources tr) Prod.fst,
      checkedSources_map_fst]
  have hcount := checked_counts (checkedSources env taskIDs dd.Spec.Sources tr)
  have herrs : ((checkedSources env taskIDs dd.Spec.Sources tr).filterMap errorOf).length =
      ((checkedSources env taskIDs dd.Spec.Sources tr).filter
        (fun p => p.2.Error.isSome)).length := by
    rw [filterMap_errorOf, List.length_map]
  have hnr : (checkedSources env taskIDs dd.Spec.Sources tr).filter isNotReady =
      (checkedSources env taskIDs dd.Spec.Sources tr).filter
        (fun p => decide (p.2.Error = none) && decide (p.2.Phase ≠ "Ready")) := rfl
  have hfilter : (c ++ [aggregateEvent (statusLoopResult env tr dd taskIDs)] ++
      (if isStatusEqualIgnoringTime dd.Status (buildNewStatus env tr dd taskIDs) = false then
        [Call.StatusUpdate { dd with Status := buildNewStatus env tr dd taskIDs }]
      else [])).filter Call.isEvent =
      ((checkedSources env taskIDs dd.Spec.Sources tr).filter isHealthy).map triggeredEvent ++
        [aggregateEvent (statusLoopResult env tr dd taskIDs)] := by
    rw [List.filter_append, List.filter_append, hce]
    have h1 : [aggregateEvent (statusLoopResult env tr dd taskIDs)].filter Call.isEvent =
        [aggregateEvent (statusLoopResult env tr dd taskIDs)] := by
      unfold aggregateEvent
      split_ifs <;> simp [Call.isEvent]
    have h2 : (if isStatusEqualIgnoringTime dd.Status (buildNewStatus env tr dd taskIDs) = false
        then [Call.StatusUpdate { dd with Status := buildNewStatus env tr dd taskIDs }]
        else []).filter Call.isEvent = [] := by
      split_ifs <;> simp [Call.isEvent]
    rw [h1, h2, List.append_nil]
  refine ⟨c ++ [aggregateEvent (statusLoopResult env tr dd taskIDs)] ++
      (if isStatusEqualIgnoringTime dd.Status (buildNewStatus env tr dd taskIDs) = false then
        [Call.StatusUpdate { dd with Status := buildNewStatus env tr dd taskIDs }]
      else []), aggregateEvent (statusLoopResult env tr dd taskIDs), ?_, hfilter, ?_, ?_, ?_⟩
  · rw [handleDDStatus_trace_eq, ht]
    simp only [List.append_assoc]
  · rw [hfilter]
    simp
  · intro hR
    rw [buildNewStatus_overallPhase] at hR
    have hall : (checkedSources env taskIDs dd.Spec.Sources tr).all isHealthy = true := by
      by_contra hn
      rw [if_neg hn] at hR
      exact absurd hR (by decide)
    unfold aggregateEvent
    rw [statusLoopResult_eq]
    dsimp only
    rw [if_pos hall]
  · intro hR
    rw [buildNewStatus_overallPhase] at hR
    have hall : ¬ (checkedSources env taskIDs dd.Spec.Sources tr).all isHealthy = true := by
      intro hn
      rw [if_pos hn] at hR
      exact hR rfl
    rw [← hnr, ← herrs]
    refine ⟨?_, by omega⟩
    unfold aggregateEvent
    rw [statusLoopResult_eq]
    dsimp only
    rw [if_neg hall, List.length_map]

/-- An instance of C24 on a descriptor with three sources: `a` is polled and still
pending, `b` has no host, `c` is healthy. The events are the one of `c` and the warning
with the counts 1 (not ready) and 1 (with error). -/
theorem C24_events_of_status_pass_witness :
    (handleDDStatus startedEnv [] mixedDescriptor [("a", "t1")]).2.2.filter Call.isEvent =
      [Call.EventNormal "TaskTriggered" "Task  Completed for data source c",
       Call.EventWarning "SomeSourcesTaskErrorOrNotReady"
         "1 data sources task not completed, 1 data sources have issues "] ∧
    ∃ calls aggregate,
      (handleDDStatus startedEnv [] mixedDescriptor [("a", "t1")]).2.2 = [] ++ calls ∧
      calls.filter Call.isEvent =
        ((checkedSources startedEnv [("a", "t1")] mixedDescriptor.Spec.Sources []).filter
          isHealthy).map triggeredEvent ++ [aggregate] :=
  ⟨rfl,
    match C24_events_of_status_pass startedEnv [] mixedDescriptor [("a", "t1")] with
    | ⟨calls, aggregate, h1, h2, _⟩ => ⟨calls, aggregate, h1, h2⟩⟩

/-! ## The comparison of statuses as an equivalence -/

theorem condition_withoutTime_eq_iff (c d : Condition) :
    c.withoutTime = d.withoutTime ↔
      c.Typ = d.Typ ∧ c.Status = d.Status ∧ c.Reason = d.Reason ∧ c.Message = d.Message := by
  cases c; cases d
  simp [Condition.withoutTime]

theorem sourceStatus_withoutTime_eq_iff (c d : SourceStatus) :
    c.withoutTime = d.withoutTime ↔
      c.Name = d.Name ∧ c.Phase = d.Phase ∧ c.Records = d.Records ∧ c.TaskID = d.TaskID := by
  cases c; cases d
  simp [SourceStatus.withoutTime]

theorem conditionsEqualLoop_map (xs : List Condition) :
    ∀ ys : List Condition, xs.length = ys.length →
      (conditionsEqualLoop xs ys = true ↔
        xs.map Condition.withoutTime = ys.map Condition.withoutTime) := by
  induction xs with
  | nil =>
    intro ys hl
    cases ys with
    | nil => simp [conditionsEqualLoop]
    | cons y ys => simp at hl
  | cons x xs ih =>
    intro ys hl
    cases ys with
    | nil => simp at hl
    | cons y ys =>
      have hl2 : xs.length = ys.length := by simpa using hl
      rw [conditionsEqualLoop, List.map_cons, List.map_cons, List.cons.injEq,
        condition_withoutTime_eq_iff, ← ih ys hl2]
      by_cases h : x.Typ ≠ y.Typ ∨ x.Status ≠ y.Status ∨ x.Reason ≠ y.Reason ∨
          x.Message ≠ y.Message
      · rw [if_pos h]
        constructor
        · intro hf; exact absurd hf (by decide)
        · rintro ⟨⟨h1, h2, h3, h4⟩, _⟩
          rcases h with h | h | h | h
          · exact absurd h1 h
          · exact absurd h2 h
          · exact absurd h3 h
          · exact absurd h4 h
      · rw [if_neg h]
        simp only [not_or, not_not] at h
        exact ⟨fun hr => ⟨h, hr⟩, fun hr => hr.2⟩

theorem sourceStatusesEqualLoop_map (xs : List SourceStatus) :
    ∀ ys : List SourceStatus, xs.length = ys.length →
      (sourceStatusesEqualLoop xs ys = true ↔
        xs.map SourceStatus.withoutTime = ys.map SourceStatus.withoutTime) := by
  induction xs with
  | nil =>
    intro ys hl
    cases ys with
    | nil => simp [sourceStatusesEqualLoop]
    | cons y ys => simp at hl
  | cons x xs ih =>
    intro ys hl
    cases ys with
    | nil => simp at hl
    | cons y ys =>
      have hl2 : xs.length = ys.length := by simpa using hl
      rw [sourceStatusesEqualLoop, List.map_cons, List.map_cons, List.cons.injEq,
        sourceStatus_withoutTime_eq_iff, ← ih ys hl2]
      by_cases h : x.Name ≠ y.Name ∨ x.Phase ≠ y.Phase ∨ x.Records ≠ y.Records ∨
          x.TaskID ≠ y.TaskID
      · rw [if_pos h]
        constructor
        · intro hf; exact absurd hf (by decide)
        · rintro ⟨⟨h1, h2, h3, h4⟩, _⟩
          rcases h with h | h | h | h
          · exact absurd h1 h
          · exact absurd h2 h
          · exact absurd h3 h
          · exact absurd h4 h
      · rw [if_neg h]
        simp only [not_or, not_not] at h
        exact ⟨fun hr => ⟨h, hr⟩, fun hr => hr.2⟩

theorem isStatusEqualIgnoringTime_iff_withoutTimes (a b : DataDescriptorStatus) :
    isStatusEqualIgnoringTime a b = true ↔ a.withoutTimes = b.withoutTimes := by
  have hmk : a.withoutTimes = b.withoutTimes ↔
      a.SourceStatuses.map SourceStatus.withoutTime =
          b.SourceStatuses.map SourceStatus.withoutTime ∧
        a.ConsumedBy = b.ConsumedBy ∧ a.OverallPhase = b.OverallPhase ∧
        a.Conditions.map Condition.withoutTime = b.Conditions.map Condition.withoutTime := by
    simp [DataDescriptorStatus.withoutTimes]
  rw [hmk]
  unfold isStatusEqualIgnoringTime
  by_cases h1 : a.OverallPhase ≠ b.OverallPhase
  · rw [if_pos h1]
    exact ⟨fun hf => absurd hf (by decide), fun hr => absurd hr.2.2.1 h1⟩
  rw [if_neg h1]
  by_cases h2 : a.Conditions.length ≠ b.Conditions.length
  · rw [if_pos h2]
    refine ⟨fun hf => absurd hf (by decide), fun hr => absurd ?_ h2⟩
    have := congrArg List.length hr.2.2.2
    simpa using this
  rw [if_neg h2]
  have h2e : a.Conditions.length = b.Conditions.length := not_not.mp h2
  by_cases h3 : conditionsEqualLoop a.Conditions b.Conditions = false
  · rw [if_pos h3]
    refine ⟨fun hf => absurd hf (by decide), fun hr => ?_⟩
    have := (conditionsEqualLoop_map _ _ h2e).mpr hr.2.2.2
    rw [h3] at this
    exact absurd this (by decide)
  rw [if_neg h3]
  have h3e : conditionsEqualLoop a.Conditions b.Conditions = true := by
    cases hc : conditionsEqualLoop a.Conditions b.Conditions with
    | true => rfl
    | false => exact absurd hc h3
  by_cases h4 : a.SourceStatuses.length ≠ b.SourceStatuses.length
  · rw [if_pos h4]
    refine ⟨fun hf => absurd hf (by decide), fun hr => absurd ?_ h4⟩
    have := congrArg List.length hr.1
    simpa using this
  rw [if_neg h4]
  have h4e : a.SourceStatuses.length = b.SourceStatuses.length := not_not.mp h4
  by_cases h5 : sourceStatusesEqualLoop a.SourceStatuses b.SourceStatuses = false
  · rw [if_pos h5]
    refine ⟨fun hf => absurd hf (by decide), fun hr => ?_⟩
    have := (sourceStatusesEqualLoop_map _ _ h4e).mpr hr.1
    rw [h5] at this
    exact absurd this (by decide)
  rw [if_neg h5]
  have h5e : sourceStatusesEqualLoop a.SourceStatuses b.SourceStatuses = true := by
    cases hc : sourceStatusesEqualLoop a.SourceStatuses b.SourceStatuses with
    | true => rfl
    | false => exact absurd hc h5
  by_cases h6 : a.ConsumedBy ≠ b.ConsumedBy
  · rw [if_pos h6]
    exact ⟨fun hf => absurd hf (by decide), fun hr => absurd hr.2.1 h6⟩
  rw [if_neg h6]
  exact ⟨fun _ => ⟨(sourceStatusesEqualLoop_map _ _ h4e).mp h5e, not_not.mp h6, not_not.mp h1,
    (conditionsEqualLoop_map _ _ h2e).mp h3e⟩, fun _ => rfl⟩

/-- C27: `isStatusEqualIgnoringTime` is an equivalence relation on statuses (reflexive,
symmetric and transitive), and its result is the same for any two pairs of statuses that
differ only in `LastSyncTime` and `LastTransitionTime` fields, that is, whose images with
the time fields cleared are equal. -/
theorem C27_comparison_is_equivalence :
    (∀ a : DataDescriptorStatus, isStatusEqualIgnoringTime a a = true) ∧
    (∀ a b : DataDescriptorStatus, isStatusEqualIgnoringTime a b = isStatusEqualIgnoringTime b a) ∧
    (∀ a b c : DataDescriptorStatus, isStatusEqualIgnoringTime a b = true →
      isStatusEqualIgnoringTime b c = true → isStatusEqualIgnoringTime a c = true) ∧
    (∀ a a2 b b2 : DataDescriptorStatus, a.withoutTimes = a2.withoutTimes →
      b.withoutTimes = b2.withoutTimes →
      isStatusEqualIgnoringTime a b = isStatusEqualIgnoringTime a2 b2) := by
  have hbool : ∀ x y : Bool, (x = true ↔ y = true) → x = y := by
    intro x y h
    cases x <;> cases y <;> simp at h ⊢
  refine ⟨fun a => (isStatusEqualIgnoringTime_iff_withoutTimes a a).mpr rfl, fun a b => ?_,
    fun a b c hab hbc => ?_, fun a a2 b b2 ha hb => ?_⟩
  · apply hbool
    rw [isStatusEqualIgnoringTime_iff_withoutTimes, isStatusEqualIgnoringTime_iff_withoutTimes]
    exact eq_comm
  · rw [isStatusEqualIgnoringTime_iff_withoutTimes] at hab hbc ⊢
    exact hab.trans hbc
  · apply hbool
    rw [isStatusEqualIgnoringTime_iff_withoutTimes, isStatusEqualIgnoringTime_iff_withoutTimes,
      ha, hb]

/-! ## The environments of the two processes -/

/-- C28: the environments of the orchestrator and of the expert give the same value to
`Agent_Host`, `Agent_Name`, `Agent_Description`, `DD_NAMESPACE`, `Data_Descriptor`,
`DescriptorTypes` and the `LANGFUSE_*` variables, and `Agent_Port` is `10100` and `10101`
as the ports of the Service and of the two containers are; for `DataServicesURL` the
orchestrator takes the value of the platform configuration when there is one while the
expert always takes the hard-coded default, so that on the sample cluster with a platform
configuration the deployment generated gives the two processes different values. -/
theorem C28_shared_environment (dac : DataAgentContainer) (serviceName types : String)
    (dacConfig : Option DACConfig) (labels : StringMap) (ownerRefs : List OwnerReference)
    (planner expert : LLMConfig) :
    (∀ name ∈ ["Agent_Host", "Agent_Name", "Agent_Description", "DD_NAMESPACE",
        "Data_Descriptor", "DescriptorTypes", "LANGFUSE_BASE_URL", "LANGFUSE_SECRET_KEY",
        "LANGFUSE_PUBLIC_KEY"],
      envValue (generateOrchestratorAgentEnvs dac serviceName types dacConfig) name =
        envValue (generateExpertAgentEnvs dac serviceName types dacConfig) name) ∧
    (GenerateDataAgentContainerService dac labels ownerRefs).Ports.map
        (fun p => (p.Name, p.Port, p.TargetPort)) =
      [("orchestrator", 10100, 10100), ("expert", 10101, 10101)] ∧
    (buildDeployment dac labels ownerRefs dacConfig planner expert types).Spec.Containers.map
        (fun k => (k.Name, k.Ports.map (fun p => p.ContainerPort), envValue k.Env "Agent_Port")) =
      [("orchestrator", [10100], some "10100"), ("expert", [10101], some "10101")] ∧
    envValue (generateOrchestratorAgentEnvs dac serviceName types dacConfig) "DataServicesURL" =
      some (match dacConfig with
        | some c => c.DataServicesURL
        | none => "http://data-services.dac.svc.cluster.local:8000") ∧
    envValue (generateExpertAgentEnvs dac serviceName types dacConfig) "DataServicesURL" =
      some "http://data-services.dac.svc.cluster.local:8000" ∧
    containerEnvValues (GenerateDataAgentContainerDeployment platformCluster [] sampleAgent [] []).1
        "DataServicesURL" =
      [("orchestrator", some "http://ds.example:9000"),
       ("expert", some "http://data-services.dac.svc.cluster.local:8000")] := by
  refine ⟨?_, rfl, ?_, ?_, ?_, ?_⟩
  · intro name hname
    simp only [List.mem_cons, List.mem_singleton, List.not_mem_nil, or_false] at hname
    rcases hname with rfl | rfl | rfl | rfl | rfl | rfl | rfl | rfl | rfl <;>
      cases dacConfig <;> rfl
  · cases dacConfig <;> rfl
  · cases dacConfig <;> rfl
  · cases dacConfig <;> rfl
  · rfl

/-! ## Lookups of children that fail -/

theorem ensureService_of_failure (env : GenEnv) (tr : List GenCall) (dac : DataAgentContainer)
    (service : Service) (err : K8sError)
    (h : env.GetService tr dac.Namespace (GenerateDataAgentContainerServiceName dac) =
      Except.error err) (hnf : err.notFound = false) :
    ensureService env tr dac service =
      (none, [GenCall.GetService dac.Namespace (GenerateDataAgentContainerServiceName dac)]) := by
  unfold ensureService
  dsimp only
  rw [h]
  simp [hnf]

theorem ensureDeployment_of_failure (env : GenEnv) (tr : List GenCall)
    (dac : DataAgentContainer) (deployment : Deployment) (err : K8sError)
    (h : env.GetDeployment tr dac.Namespace (GenerateDataAgentContainerDeploymentName dac) =
      Except.error err) (hnf : err.notFound = false) :
    ensureDeployment env tr dac deployment =
      (none, [GenCall.GetDeployment dac.Namespace
        (GenerateDataAgentContainerDeploymentName dac)]) := by
  unfold ensureDeployment
  dsimp only
  rw [h]
  simp [hnf]

/-- C29: when the lookup of the Service fails with an error other than not-found, `Do`
makes no `CreateService` call and the failure is not returned: if the deployment is
generated and the deployment block succeeds, `Do` returns nil. Likewise, when the Service
block succeeded, the deployment is generated and the lookup of the Deployment fails with
an error other than not-found, `Do` makes no `CreateDeployment` call and returns nil. -/
theorem C29_lookup_failure_is_swallowed (env : GenEnv) (tr : List GenCall)
    (dac : DataAgentContainer) :
    (∀ err,
      env.GetService tr dac.Namespace (GenerateDataAgentContainerServiceName dac) =
        Except.error err →
      err.notFound = false →
      (∀ ns s, GenCall.CreateService ns s ∉ (Do env tr dac).2) ∧
      (∀ d,
        (GenerateDataAgentContainerDeployment env
          (tr ++ [GenCall.GetService dac.Namespace (GenerateDataAgentContainerServiceName dac)])
          dac (labelsOf dac) (ownerRefsOf dac)).1 = Except.ok d →
        (ensureDeployment env
          (tr ++ [GenCall.GetService dac.Namespace (GenerateDataAgentContainerServiceName dac)] ++
            (GenerateDataAgentContainerDeployment env
              (tr ++ [GenCall.GetService dac.Namespace
                (GenerateDataAgentContainerServiceName dac)])
              dac (labelsOf dac) (ownerRefsOf dac)).2) dac d).1 = none →
        (Do env tr dac).1 = none)) ∧
    (∀ d err,
      (ensureService env tr dac
        (GenerateDataAgentContainerService dac (labelsOf dac) (ownerRefsOf dac))).1 = none →
      (GenerateDataAgentContainerDeployment env
        (tr ++ (ensureService env tr dac
          (GenerateDataAgentContainerService dac (labelsOf dac) (ownerRefsOf dac))).2)
        dac (labelsOf dac) (ownerRefsOf dac)).1 = Except.ok d →
      env.GetDeployment
        (tr ++ (ensureService env tr dac
            (GenerateDataAgentContainerService dac (labelsOf dac) (ownerRefsOf dac))).2 ++
          (GenerateDataAgentContainerDeployment env
            (tr ++ (ensureService env tr dac
              (GenerateDataAgentContainerService dac (labelsOf dac) (ownerRefsOf dac))).2)
            dac (labelsOf dac) (ownerRefsOf dac)).2)
        dac.Namespace (GenerateDataAgentContainerDeploymentName dac) = Except.error err →
      err.notFound = false →
      (Do env tr dac).1 = none ∧ ∀ ns d2, GenCall.CreateDeployment ns d2 ∉ (Do env tr dac).2) := by
  constructor
  · intro err h hnf
    have hS := ensureService_of_failure env tr dac
      (GenerateDataAgentContainerService dac (labelsOf dac) (ownerRefsOf dac)) err h hnf
    have kB := GenerateDataAgentContainerDeployment_kind env
      (tr ++ [GenCall.GetService dac.Namespace (GenerateDataAgentContainerServiceName dac)])
      dac (labelsOf dac) (ownerRefsOf dac)
    constructor
    · intro ns s hc
      unfold Do at hc
      dsimp only at hc
      rw [hS] at hc
      dsimp only at hc
      cases hG : (GenerateDataAgentContainerDeployment env
          (tr ++ [GenCall.GetService dac.Namespace (GenerateDataAgentContainerServiceName dac)])
          dac (labelsOf dac) (ownerRefsOf dac)).1 with
      | error e =>
        rw [hG] at hc
        dsimp only at hc
        rcases List.mem_append.mp hc with m | m
        · simp at m
        · rcases kB _ m with k | k | k <;> simp [GenCall.kind] at k
      | ok d =>
        rw [hG] at hc
        dsimp only at hc
        rcases List.mem_append.mp hc with m | m
        · rcases List.mem_append.mp m with m | m
          · simp at m
          · rcases kB _ m with k | k | k <;> simp [GenCall.kind] at k
        · rcases ensureDeployment_cases env
            (tr ++ [GenCall.GetService dac.Namespace (GenerateDataAgentContainerServiceName dac)] ++
              (GenerateDataAgentContainerDeployment env
                (tr ++ [GenCall.GetService dac.Namespace
                  (GenerateDataAgentContainerServiceName dac)])
                dac (labelsOf dac) (ownerRefsOf dac)).2) dac d with ⟨_, hd⟩ | ⟨_, _, hd⟩
          · rw [hd] at m; simp at m
          · rw [hd] at m; simp at m
    · intro d hG hD
      unfold Do
      dsimp only
      rw [hS]
      dsimp only
      rw [hG]
      exact hD
  · intro d err hS hG hD hnf
    have hE := ensureDeployment_of_failure env _ dac d err hD hnf
    have kA := ensureService_kind env tr dac
      (GenerateDataAgentContainerService dac (labelsOf dac) (ownerRefsOf dac))
    have kB := GenerateDataAgentContainerDeployment_kind env
      (tr ++ (ensureService env tr dac
        (GenerateDataAgentContainerService dac (labelsOf dac) (ownerRefsOf dac))).2)
      dac (labelsOf dac) (ownerRefsOf dac)
    unfold Do
    dsimp only
    rw [hS]
    dsimp only
    rw [hG]
    dsimp only
    rw [hE]
    refine ⟨rfl, ?_⟩
    intro ns d2 hc
    rcases List.mem_append.mp hc with m | m
    · rcases List.mem_append.mp m with m | m
      · rcases kA _ m with k | k <;> simp [GenCall.kind] at k
      · rcases kB _ m with k | k | k <;> simp [GenCall.kind] at k
    · simp at m

/-- Witness of C29 on the sample cluster with both lookups forbidden: `Do` returns nil
after looking both children up, and creates neither. -/
theorem C29_lookup_failure_is_swallowed_witness :
    (Do forbiddenCluster [] sampleAgent).1 = none ∧
    (∀ ns s, GenCall.CreateService ns s ∉ (Do forbiddenCluster [] sampleAgent).2) ∧
    (∀ ns d, GenCall.CreateDeployment ns d ∉ (Do forbiddenCluster [] sampleAgent).2) ∧
    (Do forbiddenCluster [] sampleAgent).2.map GenCall.kind =
      ["GetService", "CreateIfNotExistsConfigMap", "GetConfigMap", "GetConfigMap",
       "GetConfigMap", "GetDataDescriptor", "GetDataDescriptor", "GetDeployment"] :=
  ⟨rfl,
    ((C29_lookup_failure_is_swallowed forbiddenCluster [] sampleAgent).1 forbiddenError rfl
      rfl).1,
    ((C29_lookup_failure_is_swallowed forbiddenCluster [] sampleAgent).2
      (buildDeployment sampleAgent (labelsOf sampleAgent) (ownerRefsOf sampleAgent) none
        { Provider := "openai", APIKey := "k1", BaseURL := "u1", Model := "m1" }
        { Provider := "openai", APIKey := "k2", BaseURL := "u2", Model := "m2" }
        "db1:mysql:host:db:port:3306;db2:postgres")
      forbiddenError rfl rfl rfl rfl).2,
    rfl⟩

/-! ## The shape of a descriptor-type record -/

theorem writeMetadata_eq_pairsText (m : StringMap) : writeMetadata "" m = pairsText m := by
  induction m with
  | nil => rfl
  | cons e rest ih =>
    obtain ⟨key, value⟩ := e
    simp only [writeMetadata, pairsText]
    rw [writeMetadata_append, ih]
    simp [String.append_assoc]

theorem metadataSuffix_eq (dataDescriptor : DataDescriptor) (seed : Nat) :
    metadataSuffix dataDescriptor seed =
      pairsText (rangeMap seed (firstSourceMetadata dataDescriptor)) := by
  unfold metadataSuffix firstSourceMetadata
  split
  · rename_i s0 rest _
    by_cases h : s0.Metadata.length > 0
    · rw [if_pos h, writeMetadata_eq_pairsText]
    · rw [if_neg h]
      have : s0.Metadata = [] := List.eq_nil_of_length_eq_zero (by omega)
      rw [this]
      rfl
  · rfl

/-- C30: when every selected name can be fetched, `getDDDescriptorTypes` returns the
records joined by single `;` characters, one record per selector entry that is non-blank
after trimming, in the order of the selector; the record of a name is the trimmed
(non-empty) name, `:`, the DescriptorType of its descriptor and then one `:key:value` pair
for each metadata entry of the first source of the descriptor, in some order, and nothing
else; a descriptor without sources or with empty first-source metadata gives just
`name:type`. -/
theorem C30_record_shape (env : GenEnv) (tr : List GenCall) (dac : DataAgentContainer)
    (cluster : String → DataDescriptor)
    (hget : ∀ tr1, ∀ n ∈ selectedNames dac.Spec.DataPolicy.SourceNameSelector,
      env.GetDataDescriptor tr1 dac.Namespace n = Except.ok (cluster n)) :
    ∃ records : List String,
      records.length = (selectedNames dac.Spec.DataPolicy.SourceNameSelector).length ∧
      (getDDDescriptorTypes env tr dac).1 = Except.ok (";".intercalate records) ∧
      ∀ (i : Nat) (h : i < (selectedNames dac.Spec.DataPolicy.SourceNameSelector).length),
        (selectedNames dac.Spec.DataPolicy.SourceNameSelector)[i] ≠ "" ∧
        (∃ order : StringMap,
          order.Perm (firstSourceMetadata
            (cluster (selectedNames dac.Spec.DataPolicy.SourceNameSelector)[i])) ∧
          records[i]? =
            some ((selectedNames dac.Spec.DataPolicy.SourceNameSelector)[i] ++ ":" ++
              (cluster (selectedNames dac.Spec.DataPolicy.SourceNameSelector)[i]).Spec.DescriptorType
              ++ pairsText order)) ∧
        (firstSourceMetadata
            (cluster (selectedNames dac.Spec.DataPolicy.SourceNameSelector)[i]) = [] →
          records[i]? =
            some ((selectedNames dac.Spec.DataPolicy.SourceNameSelector)[i] ++ ":" ++
              (cluster
                (selectedNames dac.Spec.DataPolicy.SourceNameSelector)[i]).Spec.DescriptorType)) := by
  obtain ⟨seeds, hl, hres⟩ := getDDDescriptorTypesLoop_ok env dac cluster
    dac.Spec.DataPolicy.SourceNameSelector "" true tr hget
  have hnames : ∀ n ∈ selectedNames dac.Spec.DataPolicy.SourceNameSelector, n ≠ "" := by
    intro n hn
    unfold selectedNames at hn
    simpa using (List.mem_filter.mp hn).2
  generalize selectedNames dac.Spec.DataPolicy.SourceNameSelector = names at hl hres hnames ⊢
  refine ⟨List.zipWith
    (fun n seed => n ++ ":" ++ (cluster n).Spec.DescriptorType ++ metadataSuffix (cluster n) seed)
    names seeds, ?_, ?_, ?_⟩
  · simp [hl]
  · unfold getDDDescriptorTypes
    rw [hres]
    simp only [if_true, String.empty_append]
  · intro i h
    have hs : i < seeds.length := by rw [hl]; exact h
    have hrec : (List.zipWith
        (fun n seed => n ++ ":" ++ (cluster n).Spec.DescriptorType ++
          metadataSuffix (cluster n) seed) names seeds)[i]? =
        some (names[i] ++ ":" ++ (cluster names[i]).Spec.DescriptorType ++
          metadataSuffix (cluster names[i]) seeds[i]) := by
      rw [List.getElem?_eq_getElem (by simp [hl, h])]
      simp
    refine ⟨hnames _ (List.getElem_mem h), ⟨rangeMap seeds[i] (firstSourceMetadata (cluster names[i])),
      rangeOrder_perm _ _ _ (Nat.le_refl _), ?_⟩, ?_⟩
    · rw [hrec, metadataSuffix_eq]
    · intro hempty
      rw [hrec, metadataSuffix_eq, hempty]
      simp [rangeMap, rangeOrder, pairsText]

/-- Witness of C30 on a selector with padded and blank entries: two records, for `db1`
and `db2`. -/
theorem C30_record_shape_witness :
    selectedNames paddedAgent.Spec.DataPolicy.SourceNameSelector = ["db1", "db2"] ∧
    (getDDDescriptorTypes (sampleCluster 0) [] paddedAgent).1 =
      Except.ok "db1:mysql:host:db:port:3306;db2:postgres" ∧
    ∃ records : List String,
      records.length = (selectedNames paddedAgent.Spec.DataPolicy.SourceNameSelector).length ∧
      (getDDDescriptorTypes (sampleCluster 0) [] paddedAgent).1 =
        Except.ok (";".intercalate records) ∧
      ∀ (i : Nat) (h : i < (selectedNames paddedAgent.Spec.DataPolicy.SourceNameSelector).length),
        (selectedNames paddedAgent.Spec.DataPolicy.SourceNameSelector)[i] ≠ "" ∧
        (∃ order : StringMap,
          order.Perm (firstSourceMetadata
            (sampleContents (selectedNames paddedAgent.Spec.DataPolicy.SourceNameSelector)[i])) ∧
          records[i]? =
            some ((selectedNames paddedAgent.Spec.DataPolicy.SourceNameSelector)[i] ++ ":" ++
              (sampleContents
                (selectedNames paddedAgent.Spec.DataPolicy.SourceNameSelector)[i]).Spec.DescriptorType
              ++ pairsText order)) ∧
        (firstSourceMetadata
            (sampleContents (selectedNames paddedAgent.Spec.DataPolicy.SourceNameSelector)[i]) = [] →
          records[i]? =
            some ((selectedNames paddedAgent.Spec.DataPolicy.SourceNameSelector)[i] ++ ":" ++
              (sampleContents
                (selectedNames
                  paddedAgent.Spec.DataPolicy.SourceNameSelector)[i]).Spec.DescriptorType)) :=
  have hsel : selectedNames paddedAgent.Spec.DataPolicy.SourceNameSelector = ["db1", "db2"] := by
    decide
  ⟨hsel, rfl,
    C30_record_shape (sampleCluster 0) [] paddedAgent sampleContents
      (fun _ n hn => by
        rw [hsel] at hn
        simp only [List.mem_cons, List.mem_singleton, List.not_mem_nil, or_false] at hn
        rcases hn with rfl | rfl <;> rfl)⟩

/-! ## Registration and login -/

theorem validateRegisterRequest_cases (username password : String) :
    (usernameRegexMatch username = false ∧
      validateRegisterRequest username password = some (NewInvalidInputError
        "username must be 3-50 characters and contain only letters, numbers, and underscores")) ∨
    (usernameRegexMatch username = true ∧ password.utf8ByteSize < 6 ∧
      validateRegisterRequest username password =
        some (NewInvalidInputError "password must be at least 6 characters")) ∨
    (usernameRegexMatch username = true ∧ 72 < password.utf8ByteSize ∧
      validateRegisterRequest username password =
        some (NewInvalidInputError "password too long (max 72 characters)")) ∨
    (usernameRegexMatch username = true ∧ 6 ≤ password.utf8ByteSize ∧
      password.utf8ByteSize ≤ 72 ∧ validateRegisterRequest username password = none) := by
  unfold validateRegisterRequest
  by_cases h1 : usernameRegexMatch username = false
  · left
    exact ⟨h1, by rw [if_pos h1]⟩
  · have h1t : usernameRegexMatch username = true := by
      cases h : usernameRegexMatch username with
      | true => rfl
      | false => exact absurd h h1
    rw [if_neg h1]
    by_cases h2 : password.utf8ByteSize < 6
    · right; left
      exact ⟨h1t, h2, by rw [if_pos h2]⟩
    · rw [if_neg h2]
      by_cases h3 : password.utf8ByteSize > 72
      · right; right; left
        exact ⟨h1t, h3, by rw [if_pos h3]⟩
      · right; right; right
        exact ⟨h1t, by omega, by omega, by rw [if_neg h3]⟩

theorem usernameRegexMatch_iff (username : String) :
    usernameRegexMatch username = true ↔
      3 ≤ username.length ∧ username.length ≤ 50 ∧
        ∀ c ∈ username.data, isUsernameChar c = true := by
  unfold usernameRegexMatch
  simp only [Bool.and_eq_true, decide_eq_true_eq, List.all_eq_true, String.length]
  constructor
  · rintro ⟨⟨h1, h2⟩, h3⟩
    exact ⟨h2, h3, h1⟩
  · rintro ⟨h2, h3, h1⟩
    exact ⟨⟨h1, h2⟩, h3⟩

theorem Register_of_valid (env : UserEnv) (tr : List UserCall) (username password : String)
    (h : validateRegisterRequest username password = none) :
    ∃ rest, (Register env tr username password).2 = UserCall.GetByUsername username :: rest := by
  unfold Register
  rw [h]
  dsimp only
  cases env.GetByUsername tr username with
  | ok u =>
    cases u with
    | none => exact ⟨_, rfl⟩
    | some u => exact ⟨_, rfl⟩
  | error err =>
    dsimp only
    by_cases hn : IsNotFound err = false
    · rw [if_pos hn]; exact ⟨_, rfl⟩
    · rw [if_neg hn]; exact ⟨_, rfl⟩

theorem Register_of_invalid (env : UserEnv) (tr : List UserCall) (username password : String)
    (err : GoError) (h : validateRegisterRequest username password = some err) :
    Register env tr username password = (some (Except.error err), []) := by
  unfold Register
  rw [h]

/-- C25: `Register` fails validation, returning an invalid-input error without any call to
the repository, exactly when the username is not made of 3 to 50 characters that are ASCII
letters, digits or underscores, or the length in bytes of the password is below 6 or above
72. A username that fails gives the message naming `3-50 characters` and `letters,
numbers, and underscores`, whatever the password; with a good username a short password
gives the message naming `at least 6 characters` and a long one the message naming
`too long`. -/
theorem C25_register_validation (env : UserEnv) (tr : List UserCall)
    (username password : String) :
    ((∃ message, Register env tr username password =
        (some (Except.error (NewInvalidInputError message)), [])) ↔
      (¬ (3 ≤ username.length ∧ username.length ≤ 50 ∧
          ∀ c ∈ username.data, isUsernameChar c = true) ∨
        password.utf8ByteSize < 6 ∨ 72 < password.utf8ByteSize)) ∧
    (¬ (3 ≤ username.length ∧ username.length ≤ 50 ∧
        ∀ c ∈ username.data, isUsernameChar c = true) →
      Register env tr username password =
        (some (Except.error (NewInvalidInputError
          "username must be 3-50 characters and contain only letters, numbers, and underscores")),
          [])) ∧
    ((3 ≤ username.length ∧ username.length ≤ 50 ∧
        ∀ c ∈ username.data, isUsernameChar c = true) →
      (password.utf8ByteSize < 6 →
        Register env tr username password =
          (some (Except.error (NewInvalidInputError "password must be at least 6 characters")),
            [])) ∧
      (72 < password.utf8ByteSize →
        Register env tr username password =
          (some (Except.error (NewInvalidInputError "password too long (max 72 characters)")),
            []))) ∧
    (∀ message, (NewInvalidInputError message).Error =
        "INVALID_INPUT: " ++ message ++ " (invalid input)" ∧
      IsInvalidInput (NewInvalidInputError message) = true) ∧
    containsText
      "username must be 3-50 characters and contain only letters, numbers, and underscores"
      "3-50 characters" ∧
    containsText
      "username must be 3-50 characters and contain only letters, numbers, and underscores"
      "letters, numbers, and underscores" ∧
    containsText "password must be at least 6 characters" "at least 6 characters" ∧
    containsText "password too long (max 72 characters)" "too long" := by
  have hcases := validateRegisterRequest_cases username password
  have hiff := usernameRegexMatch_iff username
  refine ⟨⟨?_, ?_⟩, ?_, ?_, ?_, by decide, by decide, by decide, by decide⟩
  · rintro ⟨message, hreg⟩
    by_contra hnot
    simp only [not_or, not_not, not_lt] at hnot
    obtain ⟨hu, h6, h72⟩ := hnot
    have hm := hiff.mpr hu
    rcases hcases with ⟨hf, _⟩ | ⟨_, hlt, _⟩ | ⟨_, hgt, _⟩ | ⟨_, _, _, hv⟩
    · rw [hm] at hf; exact absurd hf (by decide)
    · omega
    · omega
    · obtain ⟨rest, hrest⟩ := Register_of_valid env tr username password hv
      rw [hreg] at hrest
      exact absurd hrest (by simp)
  · intro hinv
    rcases hcases with ⟨_, hv⟩ | ⟨_, _, hv⟩ | ⟨_, _, hv⟩ | ⟨hm, h6, h72, _⟩
    · exact ⟨_, Register_of_invalid env tr username password _ hv⟩
    · exact ⟨_, Register_of_invalid env tr username password _ hv⟩
    · exact ⟨_, Register_of_invalid env tr username password _ hv⟩
    · rcases hinv with h | h | h
      · exact absurd (hiff.mp hm) h
      · omega
      · omega
  · intro hu
    rcases hcases with ⟨_, hv⟩ | ⟨hm, _⟩ | ⟨hm, _⟩ | ⟨hm, _⟩
    · exact Register_of_invalid env tr username password _ hv
    · exact absurd (hiff.mp hm) hu
    · exact absurd (hiff.mp hm) hu
    · exact absurd (hiff.mp hm) hu
  · intro hu
    have hm := hiff.mpr hu
    constructor
    · intro hlt
      rcases hcases with ⟨hf, _⟩ | ⟨_, _, hv⟩ | ⟨_, hgt, _⟩ | ⟨_, h6, _⟩
      · rw [hm] at hf; exact absurd hf (by decide)
      · exact Register_of_invalid env tr username password _ hv
      · omega
      · omega
    · intro hgt
      rcases hcases with ⟨hf, _⟩ | ⟨_, hlt, _⟩ | ⟨_, _, hv⟩ | ⟨_, _, h72, _⟩
      · rw [hm] at hf; exact absurd hf (by decide)
      · omega
      · exact Register_of_invalid env tr username password _ hv
      · omega
  · intro message
    exact ⟨by simp [NewInvalidInputError, GoError.Error, ErrInvalidInput, String.append_assoc],
      by simp [IsInvalidInput, NewInvalidInputError, errorsIs, ErrInvalidInput]⟩

/-- Witness of C25: a username of two characters, one with a hyphen, a password of five
bytes, a password of 73 bytes and a password of three characters that take nine bytes. -/
theorem C25_register_validation_witness :
    Register aliceEnv [] "ab" "secret1" =
      (some (Except.error (NewInvalidInputError
        "username must be 3-50 characters and contain only letters, numbers, and underscores")),
        []) ∧
    Register aliceEnv [] "a-b" "x" =
      (some (Except.error (NewInvalidInputError
        "username must be 3-50 characters and contain only letters, numbers, and underscores")),
        []) ∧
    Register aliceEnv [] "bob_1" "12345" =
      (some (Except.error (NewInvalidInputError "password must be at least 6 characters")), []) ∧
    Register aliceEnv [] "bob_1" (String.mk (List.replicate 73 (Char.ofNat 97))) =
      (some (Except.error (NewInvalidInputError "password too long (max 72 characters)")), []) ∧
    (Register aliceEnv [] "bob_1" "密码一").2 =
      [UserCall.GetByUsername "bob_1", UserCall.Create "bob_1" "hash:密码一"] :=
  ⟨(C25_register_validation aliceEnv [] "ab" "secret1").2.1 (by decide),
    rfl, rfl, rfl, rfl⟩

/-- C26: the result of `Login` for a username that the repository reports as not found is
identical to its result for an existing username with a wrong password: the same
invalid-input error with the message `invalid username or password`, after the same single
repository call. And `Register` of a valid username that already exists returns the
already-exists error after the lookup, without a `Create` call. -/
theorem C26_login_and_duplicate_errors (env1 env2 : UserEnv) (tr1 tr2 : List UserCall)
    (username password1 password2 : String) (err mismatch : GoError) (user : User)
    (hmissing : env1.GetByUsername tr1 username = Except.error err)
    (hnotFound : IsNotFound err = true)
    (hfound : env2.GetByUsername tr2 username = Except.ok (some user))
    (hwrong : env2.CompareHashAndPassword user.PasswordHash password2 = some mismatch) :
    Login env1 tr1 username password1 = Login env2 tr2 username password2 ∧
    Login env1 tr1 username password1 =
      (some (Except.error (NewInvalidInputError "invalid username or password")),
        [UserCall.GetByUsername username]) ∧
    NewInvalidInputError "invalid username or password" =
      GoError.domain "INVALID_INPUT" "invalid username or password"
        (GoError.sentinel "invalid input") ∧
    (validateRegisterRequest username password2 = none →
      Register env2 tr2 username password2 =
        (some (Except.error (NewAlreadyExistsError "User" username)),
          [UserCall.GetByUsername username]) ∧
      (∀ name hash, UserCall.Create name hash ∉ (Register env2 tr2 username password2).2) ∧
      NewAlreadyExistsError "User" username =
        GoError.domain "ALREADY_EXISTS" ("User \x27" ++ username ++ "\x27 already exists")
          (GoError.sentinel "resource already exists")) := by
  have h1 : Login env1 tr1 username password1 =
      (some (Except.error (NewInvalidInputError "invalid username or password")),
        [UserCall.GetByUsername username]) := by
    unfold Login
    dsimp only
    rw [hmissing]
    dsimp only
    rw [if_pos hnotFound]
  have h2 : Login env2 tr2 username password2 =
      (some (Except.error (NewInvalidInputError "invalid username or password")),
        [UserCall.GetByUsername username]) := by
    unfold Login verifyPassword
    dsimp only
    rw [hfound]
    dsimp only
    rw [hwrong]
  refine ⟨h1.trans h2.symm, h1, rfl, fun hvalid => ?_⟩
  have h3 : Register env2 tr2 username password2 =
      (some (Except.error (NewAlreadyExistsError "User" username)),
        [UserCall.GetByUsername username]) := by
    unfold Register
    rw [hvalid]
    dsimp only
    rw [hfound]
  refine ⟨h3, ?_, rfl⟩
  intro name hash hmem
  rw [h3] at hmem
  simp at hmem

/-- Witness of C26 on the repository that holds `alice`: a login as the unknown `bob_1`
and a login as `alice` with a wrong password. -/
theorem C26_login_and_duplicate_errors_witness :
    Login aliceEnv [] "alice" "secret1" =
      (some (Except.ok alice), [UserCall.GetByUsername "alice", UserCall.UpdateLastLogin "u1"]) ∧
    Register aliceEnv [] "alice" "secret2" =
      (some (Except.error (NewAlreadyExistsError "User" "alice")),
        [UserCall.GetByUsername "alice"]) ∧
    Login { aliceEnv with GetByUsername := fun _ _ => Except.error (NewNotFoundError "User" "alice") }
        [] "alice" "secret1" =
      Login aliceEnv [] "alice" "wrong-password" :=
  ⟨rfl, rfl,
    (C26_login_and_duplicate_errors
      { aliceEnv with GetByUsername := fun _ _ => Except.error (NewNotFoundError "User" "alice") }
      aliceEnv [] [] "alice" "secret1" "wrong-password" (NewNotFoundError "User" "alice")
      (GoError.other "crypto/bcrypt: hashedPassword is not the hash of the given password")
      alice rfl rfl rfl rfl).1⟩

end DAC
